import Mathlib

/-!
# Luci file system: a shallow embedding of the on-disk data engine

The definitions below follow `fs/super.c`, `fs/page-io.c`, `ialloc.c` and
`consistency_checker/luci.h`.  Kernel buffers are modelled as functions from an
offset to a value, `sb_bread` as a partial function, pointers as explicit
locations, and functions of the repository whose source is not available
(`luci_free_block`, `luci_bmap_free_extents`, `luci_chunk_size`, the checksum
routines) as parameters.  Kernel memory allocation (`kmalloc`, `kzalloc`,
`alloc_page`, `new_inode`, `bio_alloc`, `alloc_workqueue`) is taken to succeed;
block reads can fail.  A `BUG_ON`, `BUG()`, `panic` or a dereference of `NULL`
stops the computation: the functions that can reach one return an `Option`,
and `none` stands for that stop.
-/

namespace Luci

/-! ## Error numbers -/

def EPERM : Int := 1
def EIO : Int := 5
def ENOMEM : Int := 12
def EINVAL : Int := 22
def ENOSPC : Int := 28
def EBADE : Int := 52

/-! ## Constants of luci.h -/

def LUCI_NDIR_BLOCKS : Nat := 2
def LUCI_IND_BLOCK : Nat := LUCI_NDIR_BLOCKS
def LUCI_DIND_BLOCK : Nat := LUCI_IND_BLOCK + 1
def LUCI_TIND_BLOCK : Nat := LUCI_DIND_BLOCK + 1
def LUCI_N_BLOCKS : Nat := LUCI_TIND_BLOCK + 1
def LUCI_SUPER_MAGIC : Nat := 0xEF53
def LUCI_LINK_MAX : Nat := 32000
def BLOCK_SIZE : Nat := 1024

/-- The checksum seed `~0U`. -/
def CRC_SEED : Nat := 2 ^ 32 - 1

/-- Block pointer record `blkptr` of luci.h. -/
structure blkptr where
  blockno : Nat
  length : Nat
  checksum : Nat
  birth : Nat
  flags : Nat
deriving DecidableEq, Repr

/-- The record left by `memset((char*)q, 0, sizeof(blkptr))`. -/
def blkptr_zero : blkptr := ⟨0, 0, 0, 0, 0⟩

/-- Size of a block pointer record in bytes, `sizeof(blkptr)`. -/
def LUCI_BLKPTR_SIZE : Nat := 16

/-! ## Truncation (fs/super.c) -/

/-- What the truncate code takes from outside `super.c`: the super block's
block size, `luci_chunk_size(inode)`, the flag bit `LUCI_COMPR_FLAG`, and the
values returned by `luci_free_block` and `luci_bmap_free_extents`. -/
structure trunc_env where
  s_blocksize : Nat
  chunk_size : Nat
  compr_flag : Nat
  free_block_err : Nat → Int
  free_extents_err : List blkptr → Int

/-- `LUCI_ADDR_PER_BLOCK(sb)`: block pointers per block. -/
def LUCI_ADDR_PER_BLOCK (env : trunc_env) : Nat := env.s_blocksize / LUCI_BLKPTR_SIZE

/-- The inode under truncation and the blocks it reaches.  `i_data` is the root
array of the inode, `bufs n` the buffer `sb_bread` gives for block `n` (`none`
when the read fails), `free_block_calls` the block numbers handed to
`luci_free_block` in call order, `free_extents_calls` the batches handed to
`luci_bmap_free_extents`, and `dec_size_calls` the number of calls of
`luci_dec_size` that have returned.  The code calls `luci_dec_size(inode, 1)`
once for every leaf it frees: in `luci_free_branch` at depth 0 after the block
has been handed to `luci_free_block` or queued in `extents_array`, and in
`luci_free_direct` after the direct block has been handed to
`luci_free_block`. -/
structure trunc_state where
  i_size : Nat
  i_nlink : Nat
  i_data : Nat → blkptr
  bufs : Nat → Option (Nat → blkptr)
  free_block_calls : List Nat
  free_extents_calls : List (List blkptr)
  dec_size_calls : Nat := 0

/-- A `blkptr *`: the address of a local copy, or entry `idx` of the buffer
of block `block`. -/
inductive bpref where
  | stack (bp : blkptr)
  | buf (block idx : Nat)

/-- Entry `idx` of the buffer of block `block`. -/
def buf_entry (s : trunc_state) (block idx : Nat) : blkptr :=
  match s.bufs block with
  | some d => d idx
  | none => blkptr_zero

/-- Dereference of a `blkptr *` in the current state. -/
def bpref.load (s : trunc_state) : bpref → blkptr
  | .stack bp => bp
  | .buf block idx => buf_entry s block idx

/-- The store `memset((char*)q, 0, sizeof(blkptr))` on entry `idx` of the
buffer of block `block`. -/
def clear_entry (s : trunc_state) (block idx : Nat) : trunc_state :=
  { s with bufs := fun b =>
      if b = block then
        match s.bufs b with
        | some d => some (fun j => if j = idx then blkptr_zero else d j)
        | none => none
      else s.bufs b }

/-- The store `memset((char*)&li->i_data[i], 0, sizeof(blkptr))`. -/
def clear_root (s : trunc_state) (i : Nat) : trunc_state :=
  { s with i_data := fun j => if j = i then blkptr_zero else s.i_data j }

/-- A call `luci_free_block(inode, block)`: the call is recorded, the value
returned is the one the environment gives. -/
def luci_free_block (env : trunc_env) (s : trunc_state) (block : Nat) : Int × trunc_state :=
  (env.free_block_err block, { s with free_block_calls := s.free_block_calls ++ [block] })

/-- A call `luci_bmap_free_extents(inode, extents_array, n_entries)`. -/
def luci_bmap_free_extents (env : trunc_env) (s : trunc_state) (extents : List blkptr) :
    Int × trunc_state :=
  (env.free_extents_err extents,
   { s with free_extents_calls := s.free_extents_calls ++ [extents] })

/-- Function `luci_dec_size` of super.c; `none` when one of its `BUG_ON`s
fires.  A call that returns is counted in `dec_size_calls`. -/
def luci_dec_size (env : trunc_env) (s : trunc_state) (nr_blocks : Nat) : Option trunc_state :=
  let size := nr_blocks * env.chunk_size
  if nr_blocks = 0 then none
  else if s.i_size = 0 then none
  else if s.i_size ≥ size then
    some { s with i_size := s.i_size - size, dec_size_calls := s.dec_size_calls + 1 }
  else if nr_blocks > 1 then none
  else some { s with i_size := 0, dec_size_calls := s.dec_size_calls + 1 }

/-- The variables a tree walk threads through `luci_free_branch`: the inode
state, `*delta_blocks` and the first `*n_entries` slots of `extents_array`. -/
structure walk where
  st : trunc_state
  delta : Int
  extents : List blkptr

/-- How the entry loop of `luci_free_branch` is left: by running past the
first entry or by `break` (`fell`, with the current `nr_blkptr`), or by
`goto out` with an error (`out`). -/
inductive loop_exit where
  | fell (nr_blkptr : Int) (w : walk)
  | out (err : Int) (w : walk)

/-- The loop `for (; q >= p; q--)` of `luci_free_branch` over the buffer of
block `block`, with `k` entries still to visit (`q` is entry `k - 1`);
`child` is `luci_free_branch` one level down. -/
def free_branch_loop (child : bpref → walk → Option (Int × walk)) (block : Nat) :
    Nat → Int → walk → Option loop_exit
  | 0, nr_blkptr, w => some (.fell nr_blkptr w)
  | k + 1, nr_blkptr, w =>
    if w.delta = 0 then some (.fell nr_blkptr w)
    else if nr_blkptr - 1 < 0 then none
    else if (buf_entry w.st block k).blockno = 0 then
      free_branch_loop child block k (nr_blkptr - 1) w
    else
      match child (.buf block k) w with
      | none => none
      | some (err, w1) =>
        if err ≠ 0 then some (.out err w1)
        else free_branch_loop child block k (nr_blkptr - 1)
               { w1 with st := clear_entry w1.st block k }

/-- The end of `luci_free_branch` for an indirect block, after the extent
batch has been flushed: the block is kept when `nr_blkptr > 0`, else it is
handed to `luci_free_block`. -/
def free_branch_tail (env : trunc_env) (bp : bpref) (nr_blkptr : Int) (w : walk) :
    Option (Int × walk) :=
  if nr_blkptr > 0 then some (0, w)
  else
    let f := luci_free_block env w.st (bp.load w.st).blockno
    some (f.1, { w with st := f.2 })

/-- Function `luci_free_branch` of super.c. -/
def luci_free_branch (env : trunc_env) : Nat → bpref → walk → Option (Int × walk)
  | 0, bp, w =>
    let p := bp.load w.st
    if p.flags &&& env.compr_flag ≠ 0 then
      match luci_dec_size env w.st 1 with
      | none => none
      | some s1 => some (0, { st := s1, delta := w.delta - 1, extents := w.extents ++ [p] })
    else
      let r := luci_free_block env w.st p.blockno
      if r.1 ≠ 0 then some (r.1, { w with st := r.2 })
      else
        match luci_dec_size env r.2 1 with
        | none => none
        | some s1 => some (0, { st := s1, delta := w.delta - 1, extents := w.extents })
  | depth + 1, bp, w =>
    let block := (bp.load w.st).blockno
    match w.st.bufs block with
    | none => some (- EIO, w)
    | some _ =>
      if env.s_blocksize < LUCI_BLKPTR_SIZE then none
      else
        match free_branch_loop (luci_free_branch env depth) block
                (env.s_blocksize / LUCI_BLKPTR_SIZE) (LUCI_ADDR_PER_BLOCK env) w with
        | none => none
        | some (.out err w1) => some (err, w1)
        | some (.fell nr_blkptr w1) =>
          if w1.extents.length ≠ 0 then
            let r := luci_bmap_free_extents env w1.st w1.extents
            if r.1 ≠ 0 then some (r.1, { w1 with st := r.2 })
            else free_branch_tail env bp nr_blkptr { st := r.2, delta := w1.delta, extents := [] }
          else free_branch_tail env bp nr_blkptr w1

/-- The loop of `luci_free_direct` with `k` direct roots still to visit (`i = k - 1`);
the result is `some ret` when the function returns from inside the loop. -/
def free_direct_loop (env : trunc_env) : Nat → walk → Option (Option Int × walk)
  | 0, w => some (none, w)
  | k + 1, w =>
    if w.delta = 0 then some (none, w)
    else
      let cur_block := (w.st.i_data k).blockno
      if cur_block = 0 then free_direct_loop env k w
      else
        let r := luci_free_block env w.st cur_block
        if r.1 < 0 then some (some (- EIO), { w with st := r.2 })
        else
          match luci_dec_size env r.2 1 with
          | none => none
          | some s1 =>
            free_direct_loop env k { w with st := clear_root s1 k, delta := w.delta - 1 }

/-- Function `luci_free_direct` of super.c. -/
def luci_free_direct (env : trunc_env) (w : walk) : Option (Int × walk) :=
  match free_direct_loop env LUCI_NDIR_BLOCKS w with
  | none => none
  | some (some ret, w1) => some (ret, w1)
  | some (none, w1) => some (0, w1)

/-- The loop over the indirect roots in `luci_free_blocks`, entered with
`level` levels still to visit (`i = LUCI_IND_BLOCK + level - 1`); the result is
`some ret` when the function returns from inside the loop. -/
def free_roots_loop (env : trunc_env) : Nat → walk → Option (Option Int × walk)
  | 0, w => some (none, w)
  | l + 1, w =>
    if w.delta = 0 then some (none, w)
    else
      let i := LUCI_IND_BLOCK + l
      let bp := w.st.i_data i
      if bp.blockno = 0 then free_roots_loop env l w
      else
        match luci_free_branch env (l + 1) (.stack bp) { w with extents := [] } with
        | none => none
        | some (ret, w1) =>
          if ret < 0 then some (some ret, w1)
          else free_roots_loop env l { w1 with st := clear_root w1.st i }

/-- Function `luci_free_blocks` of super.c. -/
def luci_free_blocks (env : trunc_env) (s : trunc_state) (delta_blocks : Int) :
    Option (Int × trunc_state) :=
  match free_roots_loop env 3 { st := s, delta := delta_blocks, extents := [] } with
  | none => none
  | some (some ret, w) => some (ret, w.st)
  | some (none, w) =>
    match luci_free_direct env w with
    | none => none
    | some (ret, w1) => if ret < 0 then some (ret, w1.st) else some (0, w1.st)

/-- Function `luci_truncate` of super.c; `none` when the division by
`sb->s_blocksize` is a division by zero or a `BUG_ON` fires further down. -/
def luci_truncate (env : trunc_env) (s : trunc_state) (size : Nat) : Option (Int × trunc_state) :=
  if env.s_blocksize = 0 then none
  else
    let n_blocks : Int := ((size + env.s_blocksize - 1) / env.s_blocksize : Nat)
    let i_blocks : Int := ((s.i_size + env.s_blocksize - 1) / env.s_blocksize : Nat)
    let delta_blocks := n_blocks - i_blocks
    if delta_blocks < 0 then luci_free_blocks env s (-delta_blocks) else some (0, s)

/-! ## Byte buffers and little-endian fields -/

/-- A byte buffer (`bh->b_data`, a page): the byte stored at each offset. -/
abbrev bytes := Nat → Nat

/-- A 16-bit little-endian field at offset `o`. -/
def get_le16 (b : bytes) (o : Nat) : Nat := b o % 256 + 256 * (b (o + 1) % 256)

/-- A 32-bit little-endian field at offset `o`. -/
def get_le32 (b : bytes) (o : Nat) : Nat := get_le16 b o + 65536 * get_le16 b (o + 2)

/-- Store of a 16-bit little-endian field at offset `o`. -/
def put_le16 (b : bytes) (o v : Nat) : bytes :=
  fun i => if i = o then v % 256 else if i = o + 1 then v / 256 % 256 else b i

/-- Store of a 32-bit little-endian field at offset `o`. -/
def put_le32 (b : bytes) (o v : Nat) : bytes :=
  put_le16 (put_le16 b o (v % 65536)) (o + 2) (v / 65536 % 65536)

/-- `le16_add_cpu(&field, delta)` on the field at offset `o`. -/
def le16_add_cpu (b : bytes) (o : Nat) (delta : Int) : bytes :=
  put_le16 b o (((get_le16 b o : Int) + delta) % 65536).toNat

/-! Byte offsets of the fields of `struct luci_group_desc` (32 bytes, packed). -/

def GD_block_bitmap : Nat := 0
def GD_inode_bitmap : Nat := 4
def GD_inode_table : Nat := 8
def GD_free_blocks_count : Nat := 12
def GD_free_inodes_count : Nat := 14
def GD_used_dirs_count : Nat := 16
def GD_checksum : Nat := 26
def LUCI_GROUP_DESC_SIZE : Nat := 32

/-! ## Bitmaps -/

/-- A bitmap buffer in little-endian bit order: bit `n` is bit `n mod 8` of
byte `n / 8`. -/
abbrev bitmap := Nat → Bool

/-- Scan of `find_next_zero_bit`: `k` bits left to look at, starting at `i`. -/
def find_zero_scan (bm : bitmap) : Nat → Nat → Nat
  | 0, i => i
  | k + 1, i => if bm i = false then i else find_zero_scan bm k (i + 1)

/-- The kernel's `find_next_zero_bit(addr, size, offset)`: the lowest clear
bit at or after `offset` and below `size`, or `size`.  On a little-endian
machine its bit numbering is the one of the `_le` bit operations. -/
def find_next_zero_bit (bm : bitmap) (size offset : Nat) : Nat :=
  if offset ≥ size then size else find_zero_scan bm (size - offset) offset

/-- The kernel's `__test_and_set_bit_le(nr, addr)`: the old bit and the new bitmap. -/
def test_and_set_bit_le (nr : Nat) (bm : bitmap) : Bool × bitmap :=
  (bm nr, fun i => if i = nr then true else bm i)

/-- The kernel's `__test_and_clear_bit_le(nr, addr)`. -/
def test_and_clear_bit_le (nr : Nat) (bm : bitmap) : Bool × bitmap :=
  (bm nr, fun i => if i = nr then false else bm i)

/-- Function `__luci_count_clear_bits` of super.c: the clear bits below `size`. -/
def __luci_count_clear_bits (bm : bitmap) : Nat → Nat
  | 0 => 0
  | n + 1 => __luci_count_clear_bits bm n + (if bm n = false then 1 else 0)

/-! ## Group descriptors and the allocators (ialloc.c) -/

/-- The fields of the on-disk super block (`sbi->s_lsb`) the allocators and
the descriptor check read or write. -/
structure luci_super_block where
  s_inodes_count : Nat
  s_blocks_count : Nat
  s_free_blocks_count : Nat
  s_first_data_block : Nat
  s_blocks_per_group : Nat
  s_inodes_per_group : Nat

/-- The in-memory super block information `struct luci_sb_info`.
`s_group_desc i` is the buffer of descriptor block `i` (`none` for a `NULL`
buffer head); `s_first_ino`, `s_inodes_per_group`, `s_blocks_per_group`,
`s_desc_per_block` and `s_desc_per_block_bits` are what `LUCI_FIRST_INO`,
`LUCI_INODES_PER_GROUP`, `LUCI_BLOCKS_PER_GROUP`, `LUCI_DESC_PER_BLOCK` and
`LUCI_DESC_PER_BLOCK_BITS` read. -/
structure luci_sb_info where
  s_lsb : luci_super_block
  s_groups_count : Nat
  s_gdb_count : Nat
  s_first_ino : Nat
  s_inodes_per_group : Nat
  s_blocks_per_group : Nat
  s_desc_per_block : Nat
  s_desc_per_block_bits : Nat
  s_group_desc : Nat → Option bytes
  s_freeblocks_counter : Int
  s_freeinodes_counter : Int
  s_dirs_counter : Int
  s_next_generation : Nat

/-- The allocator state: the super block information and the blocks `sb_bread`
returns when a bitmap is read (`none` when the read fails). -/
structure alloc_state where
  sbi : luci_sb_info
  bitmaps : Nat → Option bitmap

/-- A `struct luci_group_desc *`: a byte address `off` inside the buffer of
descriptor block `desc_block`. -/
structure gdesc_ptr where
  desc_block : Nat
  off : Nat
deriving DecidableEq, Repr

/-- Function `luci_get_group_desc` of ialloc.c; `none` is `NULL`.  The pointer
returned is `bh_desc->b_data + off` with `b_data` a `char *`. -/
def luci_get_group_desc (sbi : luci_sb_info) (block_group : Nat) : Option gdesc_ptr :=
  if block_group > sbi.s_groups_count then none
  else
    let desc_block := block_group >>> sbi.s_desc_per_block_bits
    match sbi.s_group_desc desc_block with
    | none => none
    | some _ =>
      let off := block_group &&& (sbi.s_desc_per_block - 1)
      some ⟨desc_block, off⟩

/-- The buffer a descriptor pointer points into. -/
def gdesc_buf (sbi : luci_sb_info) (g : gdesc_ptr) : bytes :=
  match sbi.s_group_desc g.desc_block with
  | some b => b
  | none => fun _ => 0

/-- Read of the 32-bit field at byte offset `field` of `*g`. -/
def gdesc_get32 (sbi : luci_sb_info) (g : gdesc_ptr) (field : Nat) : Nat :=
  get_le32 (gdesc_buf sbi g) (g.off + field)

/-- Read of the 16-bit field at byte offset `field` of `*g`. -/
def gdesc_get16 (sbi : luci_sb_info) (g : gdesc_ptr) (field : Nat) : Nat :=
  get_le16 (gdesc_buf sbi g) (g.off + field)

/-- The update `le16_add_cpu(&g->field, delta)`. -/
def gdesc_add16 (sbi : luci_sb_info) (g : gdesc_ptr) (field : Nat) (delta : Int) :
    luci_sb_info :=
  { sbi with s_group_desc := fun i =>
      if i = g.desc_block then
        match sbi.s_group_desc i with
        | some b => some (le16_add_cpu b (g.off + field) delta)
        | none => none
      else sbi.s_group_desc i }

/-- The block number `read_inode_bitmap` of ialloc.c hands to `sb_bread`. -/
def inode_bitmap_block (st : alloc_state) (block_group : Nat) : Option Nat :=
  match luci_get_group_desc st.sbi block_group with
  | none => none
  | some g => some (gdesc_get32 st.sbi g GD_inode_bitmap)

/-- Function `read_inode_bitmap` of ialloc.c; `none` is `NULL`. -/
def read_inode_bitmap (st : alloc_state) (block_group : Nat) : Option bitmap :=
  match inode_bitmap_block st block_group with
  | none => none
  | some bmap_block => st.bitmaps bmap_block

/-- The block number `read_block_bitmap` of ialloc.c hands to `sb_bread`. -/
def block_bitmap_block (st : alloc_state) (block_group : Nat) : Option Nat :=
  match luci_get_group_desc st.sbi block_group with
  | none => none
  | some g => some (gdesc_get32 st.sbi g GD_block_bitmap)

/-- Function `read_block_bitmap` of ialloc.c; `none` is `NULL`. -/
def read_block_bitmap (st : alloc_state) (block_group : Nat) : Option bitmap :=
  match block_bitmap_block st block_group with
  | none => none
  | some bmap_block => st.bitmaps bmap_block

/-- Store of a modified bitmap buffer of block `block`. -/
def set_bitmap (st : alloc_state) (block : Nat) (bm : bitmap) : alloc_state :=
  { st with bitmaps := fun b => if b = block then some bm else st.bitmaps b }

/-- The fields of the in-memory inode (`struct inode` with its
`luci_inode_info`) the allocators read or write. -/
structure alloc_inode where
  i_ino : Nat
  i_mode : Nat
  i_blocks : Nat
  i_block_group : Nat
  i_generation : Nat
deriving DecidableEq, Repr

/-- The kernel's `S_ISDIR(mode)`. -/
def S_ISDIR (mode : Nat) : Bool := mode &&& 0xF000 == 0x4000

/-- Function `luci_free_inode` of ialloc.c.  `none` stands for a stop of the
kernel: the division by a zero `s_inodes_per_group`, or the update through the
`NULL` descriptor that follows `if (gdesc) return;`. -/
def luci_free_inode (st : alloc_state) (inode : alloc_inode) : Option alloc_state :=
  let ino := inode.i_ino
  if ino < st.sbi.s_first_ino ∨ ino > st.sbi.s_lsb.s_inodes_count then some st
  else if st.sbi.s_lsb.s_inodes_per_group = 0 then none
  else
    let bit := ((ino + 2 ^ 64 - 1) % 2 ^ 64) / st.sbi.s_lsb.s_inodes_per_group
    let block_group := ((ino + 2 ^ 64 - 1) % 2 ^ 64) / st.sbi.s_lsb.s_inodes_per_group
    match inode_bitmap_block st block_group with
    | none => some st
    | some bmap_block =>
      match st.bitmaps bmap_block with
      | none => some st
      | some bh_bitmap =>
        let st1 := set_bitmap st bmap_block (test_and_clear_bit_le bit bh_bitmap).2
        match luci_get_group_desc st1.sbi block_group with
        | some _ => some st1
        | none => none

/-- An `struct inode *` returned by `luci_new_inode`: an inode or `ERR_PTR(err)`. -/
inductive inode_ptr where
  | ok (inode : alloc_inode)
  | err (e : Int)
deriving DecidableEq, Repr

/-- What `luci_new_inode` gets from the VFS: whether `insert_inode_locked`
succeeds. -/
structure vfs_oracle where
  insert_ok : Bool

/-- The code of `luci_new_inode` from the label `gotit` on: group `group`,
descriptor `gdb`, bit `ino` already set in the bitmap. -/
def new_inode_gotit (st : alloc_state) (vfs : vfs_oracle) (mode : Nat) (group ino : Nat)
    (gdb : gdesc_ptr) : inode_ptr × alloc_state :=
  let sbi1 := { st.sbi with s_freeinodes_counter := st.sbi.s_freeinodes_counter - 1 }
  let sbi2 := gdesc_add16 sbi1 gdb GD_free_inodes_count (-1)
  let sbi3 :=
    if S_ISDIR mode then
      gdesc_add16 { sbi2 with s_dirs_counter := sbi2.s_dirs_counter + 1 } gdb
        GD_used_dirs_count (-1)
    else sbi2
  let inode : alloc_inode :=
    { i_ino := ino, i_mode := mode, i_blocks := 0, i_block_group := group,
      i_generation := sbi3.s_next_generation }
  let st1 : alloc_state :=
    { st with sbi := { sbi3 with s_next_generation := sbi3.s_next_generation + 1 } }
  if vfs.insert_ok then (.ok inode, st1) else (.err (- EIO), st1)

/-- The group loop of `luci_new_inode`, with `k` groups still to visit from group `i`. -/
def new_inode_scan (st : alloc_state) (vfs : vfs_oracle) (mode : Nat) :
    Nat → Nat → inode_ptr × alloc_state
  | 0, _ => (.err (-ENOSPC), st)
  | k + 1, i =>
    match luci_get_group_desc st.sbi i with
    | none => new_inode_scan st vfs mode k (i + 1)
    | some gdb =>
      match inode_bitmap_block st i with
      | none => (.err (- EIO), st)
      | some bmap_block =>
        match st.bitmaps bmap_block with
        | none => (.err (- EIO), st)
        | some bitmap_bh =>
          let ino := find_next_zero_bit bitmap_bh st.sbi.s_inodes_per_group 0
          if ino < st.sbi.s_inodes_per_group then
            let r := test_and_set_bit_le ino bitmap_bh
            if r.1 = false then
              new_inode_gotit (set_bitmap st bmap_block r.2) vfs mode i ino gdb
            else new_inode_scan (set_bitmap st bmap_block r.2) vfs mode k (i + 1)
          else new_inode_scan st vfs mode k (i + 1)

/-- Function `luci_new_inode` of ialloc.c. -/
def luci_new_inode (st : alloc_state) (vfs : vfs_oracle) (mode : Nat) :
    inode_ptr × alloc_state :=
  new_inode_scan st vfs mode st.sbi.s_groups_count 0

/-- Function `luci_new_block` of ialloc.c: the value returned, the inode and
the state afterwards. -/
def luci_new_block (st : alloc_state) (inode : alloc_inode) : Int × alloc_inode × alloc_state :=
  let block_group := inode.i_block_group
  match luci_get_group_desc st.sbi block_group with
  | none => (- EIO, inode, st)
  | some gdb =>
    match block_bitmap_block st block_group with
    | none => (- EIO, inode, st)
    | some bmap_block =>
      match st.bitmaps bmap_block with
      | none => (- EIO, inode, st)
      | some bitmap_bh =>
        let block := find_next_zero_bit bitmap_bh st.sbi.s_blocks_per_group 0
        if block < st.sbi.s_blocks_per_group then
          let r := test_and_set_bit_le block bitmap_bh
          if r.1 = false then
            let st1 := set_bitmap st bmap_block r.2
            let sbi1 := gdesc_add16 st1.sbi gdb GD_free_inodes_count (-1)
            let sbi2 :=
              { sbi1 with
                s_freeblocks_counter := sbi1.s_freeblocks_counter - 1
                s_lsb := { sbi1.s_lsb with
                  s_free_blocks_count := (sbi1.s_lsb.s_free_blocks_count + 2 ^ 32 - 1) % 2 ^ 32 } }
            (block, { inode with i_blocks := inode.i_blocks + 1 }, { st1 with sbi := sbi2 })
          else (-ENOSPC, inode, set_bitmap st bmap_block r.2)
        else (-ENOSPC, inode, st)

/-- The loop of `__luci_count_free_blocks` over the first `n` groups;
`none` when a descriptor pointer is `NULL` at its dereference. -/
def count_free_blocks_upto (sbi : luci_sb_info) : Nat → Option Nat
  | 0 => some 0
  | n + 1 =>
    match count_free_blocks_upto sbi n with
    | none => none
    | some count =>
      match luci_get_group_desc sbi n with
      | none => none
      | some g => some (count + gdesc_get16 sbi g GD_free_blocks_count)

/-- Function `__luci_count_free_blocks` of super.c. -/
def __luci_count_free_blocks (sbi : luci_sb_info) : Option Nat :=
  count_free_blocks_upto sbi sbi.s_groups_count

/-- The clear bits among the first `s_blocks_per_group` bits of the block
bitmaps of the first `n` groups, each bitmap counted by
`__luci_count_clear_bits`; `none` when a bitmap cannot be read. -/
def clear_block_bits_upto (st : alloc_state) : Nat → Option Nat
  | 0 => some 0
  | n + 1 =>
    match clear_block_bits_upto st n, read_block_bitmap st n with
    | some count, some bm => some (count + __luci_count_clear_bits bm st.sbi.s_blocks_per_group)
    | _, _ => none

/-! ## Eviction (fs/super.c) -/

/-- Function `luci_evict_inode` of super.c, on the inode's block tree `s` and
the allocator state `a`.  The value `luci_truncate` returns is dropped, as in
the source. -/
def luci_evict_inode (env : trunc_env) (s : trunc_state) (a : alloc_state)
    (inode : alloc_inode) : Option (trunc_state × alloc_state) :=
  let truncated : Option trunc_state :=
    if s.i_nlink = 0 ∧ s.i_size ≠ 0 then
      match luci_truncate env { s with i_size := 0 } 0 with
      | none => none
      | some r => some r.2
    else some s
  match truncated with
  | none => none
  | some s1 =>
    if s1.i_nlink = 0 then
      match luci_free_inode a inode with
      | none => none
      | some a1 => some (s1, a1)
    else some (s1, a)

/-! ## Mount-time descriptor check (fs/super.c) -/

/-- The `len` bytes of a buffer from offset `start` on. -/
def buf_slice (b : bytes) (start len : Nat) : List Nat :=
  (List.range len).map (fun i => b (start + i) % 256)

/-- Function `luci_group_first_block_no` of luci.h. -/
def luci_group_first_block_no (lsb : luci_super_block) (group_no : Nat) : Nat :=
  group_no * lsb.s_blocks_per_group + lsb.s_first_data_block

/-- How one pass of the entry loop of `luci_check_descriptors` ends: it goes
on with the next entry, or jumps to `done` or to `fail`. -/
inductive desc_exit where
  | next
  | done
  | fail
deriving DecidableEq, Repr

/-- The upper bound `last_block` that `luci_check_descriptors` computes for
the one-based group number `gp`. -/
def check_last_block (sbi : luci_sb_info) (gp first_block : Nat) : Nat :=
  if gp = (sbi.s_groups_count + 2 ^ 64 - 1) % 2 ^ 64 then
    (sbi.s_lsb.s_blocks_count + 2 ^ 32 - 1) % 2 ^ 32
  else (first_block + sbi.s_blocks_per_group + 2 ^ 64 - 1) % 2 ^ 64

/-- The body of the entry loop of `luci_check_descriptors` for entry `entry`
of descriptor block `block`, whose buffer is `bh`; `data_cksum` is
`luci_compute_data_cksum`. -/
def check_desc_entry (data_cksum : List Nat → Nat → Nat) (sbi : luci_sb_info)
    (block entry : Nat) (bh : bytes) : desc_exit :=
  let gp := (block * sbi.s_desc_per_block + entry + 1) % 2 ^ 32
  if gp > sbi.s_groups_count then .done
  else
    let first_block := luci_group_first_block_no sbi.s_lsb ((gp + 2 ^ 32 - 1) % 2 ^ 32)
    let last_block := check_last_block sbi gp first_block
    let gdesc := entry * LUCI_GROUP_DESC_SIZE
    let crc := get_le16 bh (gdesc + GD_checksum)
    let crc16_chk :=
      data_cksum (buf_slice (put_le16 bh (gdesc + GD_checksum) 0) gdesc LUCI_GROUP_DESC_SIZE)
        CRC_SEED &&& 0xFFFF
    if crc ≠ 0 ∧ crc ≠ crc16_chk then .fail
    else
      let block_map := get_le32 bh (gdesc + GD_block_bitmap)
      if block_map < first_block ∨ block_map > last_block then .fail
      else
        let inode_map := get_le32 bh (gdesc + GD_inode_bitmap)
        if inode_map < first_block ∨ inode_map > last_block then .fail
        else
          let inode_tbl := get_le32 bh (gdesc + GD_inode_table)
          if inode_tbl < first_block ∨ inode_tbl > last_block then .fail
          else .next

/-- The entry loop of `luci_check_descriptors` over one descriptor block, with
`k` entries still to visit from entry `entry`. -/
def check_desc_entries (data_cksum : List Nat → Nat → Nat) (sbi : luci_sb_info)
    (block : Nat) (bh : bytes) : Nat → Nat → desc_exit
  | 0, _ => .next
  | k + 1, entry =>
    match check_desc_entry data_cksum sbi block entry bh with
    | .next => check_desc_entries data_cksum sbi block bh k (entry + 1)
    | r => r

/-- The block loop of `luci_check_descriptors`, with `k` descriptor blocks
still to visit from block `block`; `none` is the `BUG()` on a `NULL` buffer. -/
def check_desc_blocks (data_cksum : List Nat → Nat → Nat) (sbi : luci_sb_info) :
    Nat → Nat → Option Int
  | 0, _ => some 0
  | k + 1, block =>
    match sbi.s_group_desc block with
    | none => none
    | some bh =>
      match check_desc_entries data_cksum sbi block bh sbi.s_desc_per_block 0 with
      | .next => check_desc_blocks data_cksum sbi k (block + 1)
      | .done => some 0
      | .fail => some (-1)

/-- Function `luci_check_descriptors` of super.c. -/
def luci_check_descriptors (data_cksum : List Nat → Nat → Nat) (sbi : luci_sb_info) :
    Option Int :=
  check_desc_blocks data_cksum sbi sbi.s_gdb_count 0

/-! ## The super block (fs/super.c) -/

/-! Byte offsets of the fields of `struct luci_super_block` (1024 bytes). -/

def SB_inodes_count : Nat := 0
def SB_blocks_count : Nat := 4
def SB_free_blocks_count : Nat := 12
def SB_first_data_block : Nat := 20
def SB_log_block_size : Nat := 24
def SB_log_frag_size : Nat := 28
def SB_blocks_per_group : Nat := 32
def SB_frags_per_group : Nat := 36
def SB_inodes_per_group : Nat := 40
def SB_mtime : Nat := 44
def SB_wtime : Nat := 48
def SB_mnt_count : Nat := 52
def SB_magic : Nat := 56
def SB_state : Nat := 58
def SB_first_ino : Nat := 84
def SB_inode_size : Nat := 88
def SB_last_orphan : Nat := 232
def SB_checksum : Nat := 1020

/-- Loop of `ilog2` of luci.h: `for (; bytes > 1; bytes >>= 1, p++)`. -/
def ilog2_loop : Nat → Nat → Nat → Nat
  | 0, _, p => p
  | fuel + 1, bytes, p => if bytes > 1 then ilog2_loop fuel (bytes >>> 1) (p + 1) else p

/-- Function `ilog2` of luci.h. -/
def ilog2 (size : Nat) : Nat := ilog2_loop size size 0

/-- The C expression `c << n` for an `int` constant `c` and a `u32` count `n`,
assigned to an `unsigned long`, as x86-64 evaluates it: the count is taken
modulo 32, the result is cut to 32 bits and sign-extended to 64 bits.  (The C
standard leaves a count of 32 or more and an overflowing result undefined.) -/
def shl_int (c n : Nat) : Nat :=
  let v := (c <<< (n % 32)) % 2 ^ 32
  if v < 2 ^ 31 then v else v + (2 ^ 64 - 2 ^ 32)

/-- The kernel's `is_power_of_2`. -/
def is_power_of_2 (n : Nat) : Bool := n != 0 && (n &&& (n - 1)) == 0

/-- What mounting takes from the kernel, the device and the parts of the
repository that are not in `super.c`: the page size, the block size
`sb_min_blocksize(sb, BLOCK_SIZE)` leaves, whether `sb_set_blocksize(sb, size)`
succeeds, whether `sb_bread` of a block succeeds at a block size, the checksum
routines behind `luci_compute_page_cksum` and `luci_compute_data_cksum` (bytes
and seed to checksum), `get_seconds()`, `bdev_read_only`, the effect of the
orphan list walk on the device image, and the constants `LUCI_VALID_FS`,
`LUCI_ERROR_FS`, `LUCI_GOOD_OLD_INODE_SIZE`, `LUCI_MIN_FRAG_SIZE`. -/
structure mount_env where
  PAGE_SIZE : Nat
  min_blocksize : Nat
  set_blocksize_ok : Nat → Bool
  bread_ok : Nat → Nat → Bool
  page_cksum : List Nat → Nat → Nat
  data_cksum : List Nat → Nat → Nat
  seconds : Nat
  bdev_read_only : Bool
  orphan_walk : bytes → bytes
  LUCI_VALID_FS : Nat
  LUCI_ERROR_FS : Nat
  LUCI_GOOD_OLD_INODE_SIZE : Nat
  LUCI_MIN_FRAG_SIZE : Nat

/-- The values `luci_read_superblock` derives from the super block and keeps
in `struct luci_sb_info`. -/
structure mount_geom where
  s_inode_size : Nat
  s_inodes_per_block : Nat
  s_frag_size : Nat
  s_frags_per_block : Nat
  s_first_ino : Nat
  s_frags_per_group : Nat
  s_blocks_per_group : Nat
  s_inodes_per_group : Nat
  s_itb_per_group : Nat
  s_desc_per_block : Nat
  s_addr_per_block_bits : Nat
  s_desc_per_block_bits : Nat
  s_groups_count : Nat
  s_gdb_count : Nat
deriving DecidableEq, Repr

/-- The mounted file system as `super.c` sees it: the device image through
the buffer cache (`dev`, by byte offset), `sb->s_blocksize`, `sb->s_magic`, the
block number of the super block buffer read last, the offset of `sbi->s_lsb`
inside that buffer, `sbi->s_mount_state`, whether `sbi->s_sbh` has been set, the
derived values once computed, whether `sb->s_fs_info` has been set, and the
free blocks counter. -/
structure super_block where
  dev : bytes
  s_blocksize : Nat
  s_magic : Nat
  sbh_block : Nat
  lsb_of : Nat
  s_mount_state : Nat
  s_sbh : Bool
  geom : Option mount_geom
  s_fs_info : Bool
  s_freeblocks_counter : Int

/-- Device byte offset of `sbi->s_lsb`. -/
def lsb_addr (sb : super_block) : Nat := sb.sbh_block * sb.s_blocksize + sb.lsb_of

/-- Device byte offset of the first byte of the page `bh->b_page` that holds
block `block` at block size `bs`. -/
def bh_page_start (env : mount_env) (bs block : Nat) : Nat :=
  block * bs / env.PAGE_SIZE * env.PAGE_SIZE

/-- A call `luci_compute_page_cksum(bh->b_page, off, len, seed)` for the buffer
of block `block`, as a `u32`. -/
def luci_compute_page_cksum (env : mount_env) (dev : bytes) (bs block off len seed : Nat) :
    Nat :=
  env.page_cksum (buf_slice dev (bh_page_start env bs block + off) len) seed % 2 ^ 32

/-- Function `luci_super_update_csum` of super.c. -/
def luci_super_update_csum (env : mount_env) (sb : super_block) : super_block :=
  let off := if sb.s_blocksize ≠ BLOCK_SIZE then BLOCK_SIZE % sb.s_blocksize else 0
  let lsb := sb.sbh_block * sb.s_blocksize + off
  let dev1 := put_le32 sb.dev (lsb + SB_checksum) 0
  let crc32 := luci_compute_page_cksum env dev1 sb.s_blocksize sb.sbh_block off BLOCK_SIZE
                 CRC_SEED
  { sb with dev := put_le32 dev1 (lsb + SB_checksum) crc32 }

/-- Outcome of the checksum verification of `luci_read_superblock`
(`crc32 = le32_to_cpu(lsb->s_checksum); lsb->s_checksum = 0; if ...`): whether
the image is accepted, and the device image the step leaves. -/
def read_super_csum (env : mount_env) (sb : super_block) : Bool × bytes :=
  let crc32 := get_le32 sb.dev (lsb_addr sb + SB_checksum)
  let dev1 := put_le32 sb.dev (lsb_addr sb + SB_checksum) 0
  if crc32 ≠ 0 ∧
      crc32 ≠ luci_compute_page_cksum env dev1 sb.s_blocksize sb.sbh_block sb.lsb_of
                BLOCK_SIZE CRC_SEED then
    (false, dev1)
  else if crc32 ≠ 0 then (true, put_le32 dev1 (lsb_addr sb + SB_checksum) crc32)
  else (true, dev1)

/-- Bit view of the buffer that starts at device offset `start`. -/
def dev_bitmap (dev : bytes) (start : Nat) : bitmap :=
  fun n => decide ((dev (start + n / 8) >>> (n % 8)) % 2 = 1)

/-- The `struct luci_sb_info` of a mounted file system, with `s_lsb` decoded
from the device image and descriptor block `i` the buffer of block
`sbh_block + i + 1`. -/
def sb_info_of (sb : super_block) (g : mount_geom) : luci_sb_info :=
  { s_lsb :=
      { s_inodes_count := get_le32 sb.dev (lsb_addr sb + SB_inodes_count)
        s_blocks_count := get_le32 sb.dev (lsb_addr sb + SB_blocks_count)
        s_free_blocks_count := get_le32 sb.dev (lsb_addr sb + SB_free_blocks_count)
        s_first_data_block := get_le32 sb.dev (lsb_addr sb + SB_first_data_block)
        s_blocks_per_group := get_le32 sb.dev (lsb_addr sb + SB_blocks_per_group)
        s_inodes_per_group := get_le32 sb.dev (lsb_addr sb + SB_inodes_per_group) }
    s_groups_count := g.s_groups_count
    s_gdb_count := g.s_gdb_count
    s_first_ino := g.s_first_ino
    s_inodes_per_group := g.s_inodes_per_group
    s_blocks_per_group := g.s_blocks_per_group
    s_desc_per_block := g.s_desc_per_block
    s_desc_per_block_bits := g.s_desc_per_block_bits
    s_group_desc := fun i =>
      if i < g.s_gdb_count then
        some (fun o => sb.dev ((sb.sbh_block + i + 1) * sb.s_blocksize + o))
      else none
    s_freeblocks_counter := sb.s_freeblocks_counter
    s_freeinodes_counter := 0
    s_dirs_counter := 0
    s_next_generation := 0 }

/-- The allocator state of a mounted file system: a bitmap read is `sb_bread`
of the block on the device. -/
def alloc_state_of (env : mount_env) (sb : super_block) (g : mount_geom) : alloc_state :=
  { sbi := sb_info_of sb g
    bitmaps := fun b =>
      if env.bread_ok sb.s_blocksize b then some (dev_bitmap sb.dev (b * sb.s_blocksize))
      else none }

/-- The inner loop of `luci_check_superblock_backups` for descriptor block `i`,
with `k` entries still to visit from entry `j`: `next` to go on with the next
block, `done` for the `return`, `fail` for the `BUG_ON(!bh)`. -/
def check_backups_entries (env : mount_env) (sb : super_block) (g : mount_geom) (i : Nat) :
    Nat → Nat → desc_exit
  | 0, _ => .next
  | k + 1, j =>
    let gp := (i * g.s_desc_per_block + j + 1) % 2 ^ 32
    if gp ≤ 1 then check_backups_entries env sb g i k (j + 1)
    else if gp > g.s_groups_count then .done
    else
      let first_block := luci_group_first_block_no (sb_info_of sb g).s_lsb ((i + 1) * j)
      if env.bread_ok sb.s_blocksize first_block then check_backups_entries env sb g i k (j + 1)
      else .fail

/-- The outer loop of `luci_check_superblock_backups`, with `k` descriptor
blocks still to visit from block `i`; `false` when the `BUG_ON(!bh)` fires. -/
def check_backups_blocks (env : mount_env) (sb : super_block) (g : mount_geom) :
    Nat → Nat → Bool
  | 0, _ => true
  | k + 1, i =>
    match check_backups_entries env sb g i g.s_desc_per_block 0 with
    | .next => check_backups_blocks env sb g k (i + 1)
    | .done => true
    | .fail => false

/-- Function `luci_check_superblock_backups` of super.c; `false` when its
`BUG_ON(!bh)` fires. -/
def luci_check_superblock_backups (env : mount_env) (sb : super_block) (g : mount_geom) :
    Bool :=
  check_backups_blocks env sb g g.s_gdb_count 0

/-- Function `luci_runlayoutchecks` of super.c; `none` when a `BUG` fires. -/
def luci_runlayoutchecks (env : mount_env) (sb : super_block) (g : mount_geom) : Option Int :=
  match luci_check_descriptors env.data_cksum (sb_info_of sb g) with
  | none => none
  | some r =>
    if r < 0 then some (-EINVAL)
    else if luci_check_superblock_backups env sb g then some 0 else none

/-- The loop of `luci_verify_bg_csum`, with `k` groups still to visit from group `i`. -/
def verify_bg_csum_loop (st : alloc_state) : Nat → Nat → Int
  | 0, _ => 0
  | k + 1, i =>
    match read_block_bitmap st i with
    | none => -EBADE
    | some _ =>
      match read_inode_bitmap st i with
      | none => -EBADE
      | some _ => verify_bg_csum_loop st k (i + 1)

/-- Function `luci_verify_bg_csum` of super.c. -/
def luci_verify_bg_csum (env : mount_env) (sb : super_block) (g : mount_geom) : Int :=
  verify_bg_csum_loop (alloc_state_of env sb g) g.s_groups_count 0

/-- Function `luci_orphan_cleanup` of super.c.  The walk of the orphan list
calls `luci_iget`, `luci_orphan_del` and `iput`, which are not in `super.c`; its
effect on the device image is `env.orphan_walk`. -/
def luci_orphan_cleanup (env : mount_env) (sb : super_block) : super_block :=
  if get_le32 sb.dev (lsb_addr sb + SB_last_orphan) = 0 then sb
  else if env.bdev_read_only then sb
  else if sb.s_mount_state &&& env.LUCI_ERROR_FS ≠ 0 then sb
  else { sb with dev := env.orphan_walk sb.dev }

/-- What a mount attempt ends in: `luci_read_superblock` returns `code` and
leaves `sb`, or a `BUG` fires, or the model ran out of restarts. -/
inductive mount_result where
  | ret (code : Int) (sb : super_block)
  | bug
  | no_fuel

/-- The values `luci_read_superblock` derives from the super block at
`lsb_addr sb`, or the error it fails with.  The shift
`LUCI_MIN_FRAG_SIZE << s_log_frag_size` is the 32-bit shift `shl_int`: the
macro is taken to be an `int` constant, as `BLOCK_SIZE` is. -/
def read_super_geom (env : mount_env) (sb : super_block) : Except Int mount_geom :=
  let lsb := lsb_addr sb
  let s_inode_size := get_le16 sb.dev (lsb + SB_inode_size)
  if s_inode_size < env.LUCI_GOOD_OLD_INODE_SIZE ∨ s_inode_size > sb.s_blocksize ∨
      is_power_of_2 s_inode_size = false then .error (-EINVAL)
  else
    let s_inodes_per_block := sb.s_blocksize / s_inode_size
    if s_inodes_per_block = 0 then .error (-EINVAL)
    else
      let s_frag_size :=
        shl_int env.LUCI_MIN_FRAG_SIZE (get_le32 sb.dev (lsb + SB_log_frag_size))
      if s_frag_size = 0 then .error (-EINVAL)
      else
        let s_frags_per_group := get_le32 sb.dev (lsb + SB_frags_per_group)
        if s_frags_per_group = 0 ∨ s_frags_per_group > sb.s_blocksize * 8 then
          .error (-EINVAL)
        else
          let s_blocks_per_group := get_le32 sb.dev (lsb + SB_blocks_per_group)
          if s_blocks_per_group = 0 ∨ s_blocks_per_group > sb.s_blocksize * 8 then
            .error (-EINVAL)
          else
            let s_inodes_per_group := get_le32 sb.dev (lsb + SB_inodes_per_group)
            if s_inodes_per_group = 0 ∨ s_inodes_per_group > sb.s_blocksize * 8 then
              .error (-EINVAL)
            else
              let s_desc_per_block := sb.s_blocksize / LUCI_GROUP_DESC_SIZE
              let s_groups_count :=
                (get_le32 sb.dev (lsb + SB_blocks_count) + 2 ^ 32 + 2 ^ 32 -
                  get_le32 sb.dev (lsb + SB_first_data_block) - 1) % 2 ^ 32 /
                  s_blocks_per_group + 1
              .ok
                { s_inode_size := s_inode_size
                  s_inodes_per_block := s_inodes_per_block
                  s_frag_size := s_frag_size
                  s_frags_per_block := sb.s_blocksize / s_frag_size
                  s_first_ino := get_le32 sb.dev (lsb + SB_first_ino)
                  s_frags_per_group := s_frags_per_group
                  s_blocks_per_group := s_blocks_per_group
                  s_inodes_per_group := s_inodes_per_group
                  s_itb_per_group := s_inodes_per_group / s_inodes_per_block
                  s_desc_per_block := s_desc_per_block
                  s_addr_per_block_bits := ilog2 (sb.s_blocksize / LUCI_BLKPTR_SIZE)
                  s_desc_per_block_bits := ilog2 s_desc_per_block
                  s_groups_count := s_groups_count
                  s_gdb_count := (s_groups_count + s_desc_per_block - 1) / s_desc_per_block }

/-- Function `luci_read_superblock` of super.c from the checksum verification
on, for a super block located at `lsb_addr sb` whose magic number and block
size have been accepted. -/
def read_super_mount (env : mount_env) (sb : super_block) : mount_result :=
  let v := read_super_csum env sb
  if v.1 = false then .ret (-EBADE) { sb with dev := v.2 }
  else
    let sb1 := { sb with dev := v.2, s_sbh := true }
    match read_super_geom env sb1 with
    | .error e => .ret e sb1
    | .ok g =>
      let sb2 := { sb1 with geom := some g }
      if (List.range g.s_gdb_count).all
          (fun i => env.bread_ok sb2.s_blocksize (sb2.sbh_block + i + 1)) = false then
        .ret (- EIO) sb2
      else
        let sb3 := { sb2 with s_fs_info := true }
        let in_error : super_block :=
          { sb3 with
            s_mount_state := env.LUCI_ERROR_FS
            dev := put_le16 sb3.dev (lsb_addr sb3 + SB_state) env.LUCI_ERROR_FS }
        match luci_runlayoutchecks env sb3 g with
        | none => .bug
        | some r =>
          if r ≠ 0 then .ret (-EINVAL) in_error
          else if luci_verify_bg_csum env sb3 g < 0 then .ret (-EBADE) in_error
          else
            let dev4 := le16_add_cpu sb3.dev (lsb_addr sb3 + SB_mnt_count) 1
            let dev5 := put_le32 dev4 (lsb_addr sb3 + SB_wtime) env.seconds
            let dev6 := put_le32 dev5 (lsb_addr sb3 + SB_mtime) env.seconds
            match __luci_count_free_blocks (sb_info_of { sb3 with dev := dev6 } g) with
            | none => .bug
            | some count =>
              let dev7 := put_le32 dev6 (lsb_addr sb3 + SB_free_blocks_count) count
              let sb4 := luci_orphan_cleanup env { sb3 with dev := dev7 }
              .ret 0
                { sb4 with
                  s_freeblocks_counter :=
                    get_le32 sb4.dev (lsb_addr sb4 + SB_free_blocks_count) }

/-- The value of `block_of` after the adjustment at the label `restart`. -/
def restart_block_of (bs block_no : Nat) : Nat :=
  if bs ≠ BLOCK_SIZE then block_no * BLOCK_SIZE % bs else 0

/-- The value of `block_no` after the adjustment at the label `restart`. -/
def restart_block_no (bs block_no : Nat) : Nat :=
  if bs ≠ BLOCK_SIZE then block_no * BLOCK_SIZE / bs else block_no

/-- The file system state in a pass through `restart` entered with block size
`bs` and the variable `block_no`, once the super block buffer has been read:
`sbi->s_lsb` points at offset `block_of` of the buffer of the adjusted block. -/
def super_block_at (dev : bytes) (bs block_no : Nat) : super_block :=
  { dev := dev, s_blocksize := bs, s_magic := 0, sbh_block := restart_block_no bs block_no,
    lsb_of := restart_block_of bs block_no, s_mount_state := 0, s_sbh := false, geom := none,
    s_fs_info := false, s_freeblocks_counter := 0 }

/-- Function `luci_read_superblock` of super.c from the label `restart` on,
entered with block size `bs` and the variable `block_no`; `fuel` bounds the
number of passes through `restart`.  The buffer `sb_bread` returns has
`b_size = sb->s_blocksize`, so the branch on a different `b_size` is not
taken; the shift `BLOCK_SIZE << s_log_block_size` is the 32-bit shift
`shl_int`. -/
def read_super_restart (env : mount_env) (dev : bytes) : Nat → Nat → Nat → mount_result
  | 0, _, _ => .no_fuel
  | fuel + 1, bs, block_no =>
    let sb0 := super_block_at dev bs block_no
    if env.bread_ok bs sb0.sbh_block = false then .ret (- EIO) sb0
    else
      let sb1 := { sb0 with s_magic := get_le16 dev (lsb_addr sb0 + SB_magic) }
      if sb1.s_magic ≠ LUCI_SUPER_MAGIC then .ret (-EINVAL) sb1
      else
        let sb2 := { sb1 with s_mount_state := get_le16 dev (lsb_addr sb0 + SB_state) }
        let block_size := shl_int BLOCK_SIZE (get_le32 dev (lsb_addr sb0 + SB_log_block_size))
        if bs ≠ block_size then
          if env.set_blocksize_ok block_size = false then .ret (-EPERM) sb2
          else read_super_restart env dev fuel block_size sb0.sbh_block
        else read_super_mount env sb2

/-- Function `luci_read_superblock` of super.c on the device image `dev`. -/
def luci_read_superblock (env : mount_env) (dev : bytes) (fuel : Nat) : mount_result :=
  read_super_restart env dev fuel env.min_blocksize 1

/-- Function `luci_sync_super` of super.c; `none` when `__luci_count_free_blocks`
dereferences a `NULL` descriptor or the file system has no derived values. -/
def luci_sync_super (env : mount_env) (sb : super_block) : Option super_block :=
  match sb.geom with
  | none => none
  | some g =>
    let dev1 := put_le16 sb.dev (lsb_addr sb + SB_state) 0
    let dev2 := put_le32 dev1 (lsb_addr sb + SB_wtime) env.seconds
    let dev3 := put_le32 dev2 (lsb_addr sb + SB_mtime) env.seconds
    match __luci_count_free_blocks (sb_info_of { sb with dev := dev3 } g) with
    | none => none
    | some count =>
      some (luci_super_update_csum env
        { sb with dev := put_le32 dev3 (lsb_addr sb + SB_free_blocks_count) count })

/-- Function `luci_free_super` of super.c, as far as the device image goes;
`none` when `__luci_count_free_blocks` dereferences a `NULL` descriptor. -/
def luci_free_super (env : mount_env) (sb : super_block) : Option super_block :=
  if sb.s_fs_info = false then some sb
  else
    match sb.geom with
    | none => none
    | some g =>
      match __luci_count_free_blocks (sb_info_of sb g) with
      | none => none
      | some count =>
        if sb.s_sbh then
          let dev1 := put_le16 sb.dev (lsb_addr sb + SB_state) sb.s_mount_state
          let dev2 := put_le32 dev1 (lsb_addr sb + SB_wtime) env.seconds
          let dev3 := put_le32 dev2 (lsb_addr sb + SB_mtime) env.seconds
          let dev4 := put_le32 dev3 (lsb_addr sb + SB_free_blocks_count) count
          some { luci_super_update_csum env { sb with dev := dev4 } with
                 s_sbh := false, s_fs_info := false }
        else some { sb with s_fs_info := false }

/-! ## Compressed extent read (fs/page-io.c) -/

/-- A page of the page cache: whether it is in the cache, its `Uptodate` and
`Locked` flags, and its contents. -/
structure cache_page where
  present : Bool
  uptodate : Bool
  locked : Bool
  data : List Nat
deriving DecidableEq, Repr

/-- What `luci_read_extent` gets from the calls it makes: the number of pages
of a cluster `EXTENT_NRPAGE`, whether `luci_construct_bio` succeeds for the
compressed pages and for the page cache pages, the value of `submit_bio_wait`,
the value of `luci_validate_data_pages_cksum` on the pages read, the error of
`luci_get_compression_context` (0 for a workspace), the value of
`decompress_pages`, and the contents it writes to page `i` of the cluster. -/
structure extent_io where
  EXTENT_NRPAGE : Nat
  comp_bio_ok : Bool
  submit_ret : Int
  cksum_ret : Int
  pgtree_bio_ok : Bool
  ws_err : Int
  decompress_ret : Int
  inflated : Nat → List Nat

/-- The loop `gather page tree pages` of `luci_read_extent`: a page missing
from the cache is created locked by `find_or_create_page`. -/
def gather_pgtree_pages (cache : Nat → cache_page) (pg_index nr : Nat) : Nat → cache_page :=
  fun i =>
    if pg_index ≤ i ∧ i < pg_index + nr ∧ (cache i).present = false then
      { present := true, uptodate := false, locked := true, data := (cache i).data }
    else cache i

/-- The loop after the label `free_compbio` of `luci_read_extent` over the
gathered pages: `SetPageUptodate` and `unlock_page`. -/
def release_pgtree_pages (cache : Nat → cache_page) (pg_index nr : Nat) : Nat → cache_page :=
  fun i =>
    if pg_index ≤ i ∧ i < pg_index + nr then { cache i with uptodate := true, locked := false }
    else cache i

/-- The stores of `decompress_pages` into the page cache pages of the cluster. -/
def inflate_pgtree_pages (io : extent_io) (cache : Nat → cache_page) (pg_index : Nat) :
    Nat → cache_page :=
  fun i =>
    if pg_index ≤ i ∧ i < pg_index + io.EXTENT_NRPAGE then
      { cache i with data := io.inflated (i - pg_index) }
    else cache i

/-- Function `luci_read_extent` of page-io.c for the page of index
`page_index`: the value returned and the page cache afterwards; `none` is a
stop of the kernel: the `panic` on a failed decompression, or the
`bio_put(pgtree_bio)` after the label `free_compbio` when `pgtree_bio` holds
the `ERR_PTR` a failed `luci_construct_bio` returned (`if (pgtree_bio)` lets it
through). -/
def luci_read_extent (io : extent_io) (cache : Nat → cache_page) (page_index : Nat)
    (_bp : blkptr) : Option (Int × (Nat → cache_page)) :=
  let extent := page_index / io.EXTENT_NRPAGE
  let pg_index := extent * io.EXTENT_NRPAGE
  if io.comp_bio_ok = false then some (- EIO, cache)
  else
    let ret := io.submit_ret
    if ret ≠ 0 then some (ret, cache)
    else if io.cksum_ret = -EBADE then some (ret, cache)
    else
      let cache1 := gather_pgtree_pages cache pg_index io.EXTENT_NRPAGE
      if io.pgtree_bio_ok = false then none
      else if io.ws_err ≠ 0 then
        some (io.ws_err, release_pgtree_pages cache1 pg_index io.EXTENT_NRPAGE)
      else if io.decompress_ret ≠ 0 then none
      else
        some (ret, release_pgtree_pages (inflate_pgtree_pages io cache1 pg_index) pg_index
                    io.EXTENT_NRPAGE)

/-! ## Block map lookup -/

/-- Follows a chain of indices from a block pointer: a zero pointer or an
unreadable block gives the zero pointer (a hole). -/
def bmap_follow (s : trunc_state) : blkptr → List Nat → blkptr
  | bp, [] => bp
  | bp, i :: rest =>
    if bp.blockno = 0 then blkptr_zero
    else
      match s.bufs bp.blockno with
      | none => blkptr_zero
      | some d => bmap_follow s (d i) rest

/-- Modelled from the spec: the lookup of a logical block `L` through the five
roots of the inode (the source of `luci_get_block` is not available).  Roots 0
and 1 are direct, root 2 covers the next `A` blocks through one indirect
block, root 3 the next `A * A` through two levels, root 4 the next
`A * A * A` through three; a zero pointer on the way is a hole. -/
def bmap_lookup (A : Nat) (s : trunc_state) (L : Nat) : blkptr :=
  if L < LUCI_NDIR_BLOCKS then s.i_data L
  else if L - 2 < A then bmap_follow s (s.i_data LUCI_IND_BLOCK) [L - 2]
  else if L - 2 - A < A * A then
    bmap_follow s (s.i_data LUCI_DIND_BLOCK) [(L - 2 - A) / A, (L - 2 - A) % A]
  else
    bmap_follow s (s.i_data LUCI_TIND_BLOCK)
      [(L - 2 - A - A * A) / (A * A), (L - 2 - A - A * A) / A % A, (L - 2 - A - A * A) % A]

/-! ## Sample states -/

/-- An environment with 1024-byte blocks in which `luci_free_block` and
`luci_bmap_free_extents` succeed. -/
def env1k : trunc_env :=
  { s_blocksize := 1024, chunk_size := 1024, compr_flag := 1,
    free_block_err := fun _ => 0, free_extents_err := fun _ => 0 }

/-- A file of four blocks without holes: direct blocks 10 and 11, and the
indirect block 100 whose entries 0 and 1 name the blocks 20 and 21. -/
def file4 : trunc_state :=
  { i_size := 4096, i_nlink := 1,
    i_data := fun i =>
      if i = 0 then ⟨10, 0, 0, 0, 0⟩ else if i = 1 then ⟨11, 0, 0, 0, 0⟩
      else if i = 2 then ⟨100, 0, 0, 0, 0⟩ else blkptr_zero,
    bufs := fun b =>
      if b = 100 then
        some (fun j =>
          if j = 0 then ⟨20, 0, 0, 0, 0⟩ else if j = 1 then ⟨21, 0, 0, 0, 0⟩ else blkptr_zero)
      else none,
    free_block_calls := [], free_extents_calls := [] }

/-- A file of ten blocks of which only the two direct blocks are mapped: the
blocks 2 to 9 are holes. -/
def sparse10 : trunc_state :=
  { i_size := 10240, i_nlink := 1,
    i_data := fun i =>
      if i = 0 then ⟨10, 0, 0, 0, 0⟩ else if i = 1 then ⟨11, 0, 0, 0, 0⟩ else blkptr_zero,
    bufs := fun _ => none,
    free_block_calls := [], free_extents_calls := [] }

/-- An unlinked file of one block, the direct block 10. -/
def unlinked1 : trunc_state :=
  { i_size := 1024, i_nlink := 0,
    i_data := fun i => if i = 0 then ⟨10, 0, 0, 0, 0⟩ else blkptr_zero,
    bufs := fun _ => none,
    free_block_calls := [], free_extents_calls := [] }

/-- A descriptor block whose first descriptor names block 3 as block bitmap,
block 4 as inode bitmap and block 5 as inode table, with `free_blocks` free
blocks and `free_inodes` free inodes. -/
def desc_block0 (free_blocks free_inodes : Nat) : bytes :=
  fun o =>
    if o = 0 then 3 else if o = 4 then 4 else if o = 8 then 5
    else if o = 12 then free_blocks else if o = 14 then free_inodes else 0

/-- A file system of one group with 32 inodes, of which the inodes 1 to 12 are
in use, and 16 blocks, of which the blocks 0 to 13 are in use; the padding
bits of both bitmaps (from bit 32 and from bit 16 on) are set. -/
def fs_one_group : alloc_state :=
  { sbi :=
      { s_lsb :=
          { s_inodes_count := 32, s_blocks_count := 17, s_free_blocks_count := 2,
            s_first_data_block := 1, s_blocks_per_group := 16, s_inodes_per_group := 32 }
        s_groups_count := 1, s_gdb_count := 1, s_first_ino := 11,
        s_inodes_per_group := 32, s_blocks_per_group := 16,
        s_desc_per_block := 32, s_desc_per_block_bits := 5,
        s_group_desc := fun i => if i = 0 then some (desc_block0 2 20) else none,
        s_freeblocks_counter := 2, s_freeinodes_counter := 20, s_dirs_counter := 1,
        s_next_generation := 0 }
    bitmaps := fun b =>
      if b = 3 then some (fun n => decide (n < 14 ∨ 16 ≤ n))
      else if b = 4 then some (fun n => decide (n < 12 ∨ 32 ≤ n))
      else none }

/-- The inode number 12 of `fs_one_group`, a regular file. -/
def inode12 : alloc_inode :=
  { i_ino := 12, i_mode := 0x8000, i_blocks := 0, i_block_group := 0, i_generation := 0 }

/-- A device of 100 blocks in a single group of 8192 blocks per group, whose
group descriptor names block 5000 as block bitmap (blocks 4 and 5 as inode
bitmap and inode table) and stores no checksum. -/
def fs_short_device : luci_sb_info :=
  { s_lsb :=
      { s_inodes_count := 32, s_blocks_count := 100, s_free_blocks_count := 0,
        s_first_data_block := 1, s_blocks_per_group := 8192, s_inodes_per_group := 32 }
    s_groups_count := 1, s_gdb_count := 1, s_first_ino := 11,
    s_inodes_per_group := 32, s_blocks_per_group := 8192,
    s_desc_per_block := 32, s_desc_per_block_bits := 5,
    s_group_desc := fun i =>
      if i = 0 then
        some (fun o => if o = 0 then 0x88 else if o = 1 then 0x13 else if o = 4 then 4
                       else if o = 8 then 5 else 0)
      else none,
    s_freeblocks_counter := 0, s_freeinodes_counter := 0, s_dirs_counter := 0,
    s_next_generation := 0 }

/-- The state of `luci_read_superblock` in a pass through `restart` once the
magic number, the block size and the checksum have been accepted: the state
`read_super_geom` and the layout checks work on. -/
def super_block_verified (env : mount_env) (dev : bytes) (bs block_no : Nat) : super_block :=
  { super_block_at dev bs block_no with
    s_magic := get_le16 dev (lsb_addr (super_block_at dev bs block_no) + SB_magic)
    s_mount_state := get_le16 dev (lsb_addr (super_block_at dev bs block_no) + SB_state)
    dev := (read_super_csum env (super_block_at dev bs block_no)).2
    s_sbh := true }

/-- What a mount attempt shows from outside: the value returned, the
`s_state` field of the super block on the device image, and
`sbi->s_mount_state`; `none` for a `BUG` or an exhausted model. -/
def mount_outcome : mount_result → Option (Int × Nat × Nat)
  | .ret code sb => some (code, get_le16 sb.dev (lsb_addr sb + SB_state), sb.s_mount_state)
  | .bug => none
  | .no_fuel => none

/-- A kernel with 4096-byte pages in which every block read succeeds, the
device block size is 1024, and both checksum routines return 0;
`LUCI_VALID_FS = 1`, `LUCI_ERROR_FS = 2`. -/
def env_plain : mount_env :=
  { PAGE_SIZE := 4096, min_blocksize := 1024, set_blocksize_ok := fun _ => true,
    bread_ok := fun _ _ => true, page_cksum := fun _ _ => 0, data_cksum := fun _ _ => 0,
    seconds := 0, bdev_read_only := false, orphan_walk := fun d => d,
    LUCI_VALID_FS := 1, LUCI_ERROR_FS := 2, LUCI_GOOD_OLD_INODE_SIZE := 128,
    LUCI_MIN_FRAG_SIZE := 1024 }

/-- A device image without a super block: every byte is 0. -/
def dev_blank : bytes := fun _ => 0

/-- A device image with 1024-byte blocks whose super block (at byte 1024) has
the magic number 0xEF53, state 1 (valid), 100 blocks, first data block 1, 8192
blocks and fragments per group, 32 inodes per group, inode size 128, and the
stored checksum `csum`; every other byte, the group descriptor block included,
is 0. -/
def dev_image (csum : Nat) : bytes :=
  fun o =>
    if o = 1024 + 4 then 100 else if o = 1024 + 20 then 1
    else if o = 1024 + 33 then 0x20 else if o = 1024 + 37 then 0x20
    else if o = 1024 + 40 then 32
    else if o = 1024 + 56 then 0x53 else if o = 1024 + 57 then 0xEF
    else if o = 1024 + 58 then 1
    else if o = 1024 + 88 then 128
    else if o = 1024 + 1020 then csum
    else 0

/-- A device image like `dev_image` whose only group descriptor (block 2) names
the blocks 3, 4 and 5 as block bitmap, inode bitmap and inode table, and whose
super block carries the state `state` and no checksum: an image that mounts. -/
def dev_mountable (state : Nat) : bytes :=
  fun o =>
    if o = 1024 + 4 then 100 else if o = 1024 + 20 then 1
    else if o = 1024 + 33 then 0x20 else if o = 1024 + 37 then 0x20
    else if o = 1024 + 40 then 32
    else if o = 1024 + 56 then 0x53 else if o = 1024 + 57 then 0xEF
    else if o = 1024 + 58 then state
    else if o = 1024 + 88 then 128
    else if o = 2048 then 3 else if o = 2048 + 4 then 4 else if o = 2048 + 8 then 5
    else 0

/-- The `s_state` field that `luci_free_super` leaves on the device image after
the mount `r`, with the code the mount returned; `none` when the mount or the
unmount stops at a `BUG`. -/
def unmount_state (env : mount_env) : mount_result → Option (Int × Nat)
  | .ret code sb =>
    match luci_free_super env sb with
    | some out => some (code, get_le16 out.dev (lsb_addr sb + SB_state))
    | none => none
  | .bug => none
  | .no_fuel => none

/-- The file system state a mount attempt leaves (the state before the first
read for a `BUG` or an exhausted model). -/
def mounted_super_block : mount_result → super_block
  | .ret _ sb => sb
  | .bug => super_block_at dev_blank 0 0
  | .no_fuel => super_block_at dev_blank 0 0

/-- The file system mounted from `dev_mountable 1` (state `LUCI_VALID_FS`). -/
def sb_mounted_valid : super_block :=
  mounted_super_block (luci_read_superblock env_plain (dev_mountable 1) 3)

/-! ## Cluster write (fs/page-io.c) -/

/-- The inline function `bp_reset` of luci.h: the stores into the `__le32`
field `blockno`, the `__le16` fields `length` and `flags` and the `__le32` field
`checksum`; the field `birth` is not written. -/
def bp_reset (bp : blkptr) (block size flags checksum : Nat) : blkptr :=
  { bp with
    blockno := block % 2 ^ 32
    length := size % 2 ^ 16
    flags := flags % 2 ^ 16
    checksum := checksum % 2 ^ 32 }

/-- What `__luci_compress_extent_and_write` takes from macros and helpers of
the repository that are not in `page-io.c`: the cluster geometry
(`EXTENT_NRPAGE`, `EXTENT_SIZE`, `EXTENT_NRBLOCKS_MAX`), the flag bit
`LUCI_COMPR_FLAG`, whether `LUCI_COMPRESSION_HEURISTICS` is defined,
`LUCI_BLOCK_SIZE(inode->i_sb)`, and the function `luci_extent_no`. -/
structure extent_cfg where
  EXTENT_NRPAGE : Nat
  EXTENT_SIZE : Nat
  EXTENT_NRBLOCKS_MAX : Nat
  LUCI_COMPR_FLAG : Nat
  LUCI_COMPRESSION_HEURISTICS : Bool
  block_size : Nat
  luci_extent_no : Nat → Nat

/-- A cluster work item together with what the calls made on its behalf
answer: `page_index(begin_page)`, `page_has_buffers(begin_page)`,
`pagevec_count(pvec)`, `can_compress(begin_page)`, whether
`luci_get_compression_context` fails, the value `compress_pages` returns with
the `nr_pages_out` and `total_out` it leaves and whether it left `page_array[i]`
non-`NULL`, `luci_compute_pages_cksum` of the compressed pages,
`luci_compute_page_cksum` of page `i` of the page vector, the value
`luci_new_block` returns and the `start_compr_block` it stores, the bytes the
stack holds where the local array `bp_array` (declared without an initialiser)
is placed, the value `luci_bmap_update_extent_bp` returns, and whether
`luci_construct_bio` fails. -/
structure extent_write_work where
  page_index : Nat
  has_buffers : Bool
  pagevec_count : Nat
  can_compress : Bool
  ws_err : Bool
  compress_err : Int
  nr_pages_out : Nat
  total_out : Nat
  out_page : Nat → Bool
  pages_cksum : Nat
  page_cksum : Nat → Nat
  new_block_ret : Int
  start_compr_block : Nat
  bp_array : Nat → blkptr
  bmap_delta : Int
  bio_err : Bool

/-- How `__luci_compress_extent_and_write` ends: a `BUG_ON`, the `panic` or a
store past the end of the local array `crc32` (`bug`); through the label
`write_error` before any block pointer was built (`write_error`); or with the
cluster submitted (`submitted`), with the flag `compressed`, `nr_blocks`, the
array `bp_array` handed to `luci_bmap_update_extent_bp`, the `delta` added to
`i_size_comp`, `total_out` and `disk_start`. -/
inductive extent_write_result where
  | bug
  | write_error
  | submitted (compressed : Bool) (nr_blocks : Nat) (bp_array : List blkptr) (delta : Int)
      (total_out disk_start : Nat)
deriving DecidableEq

/-- The loop `for (i = 0; i < EXTENT_NRBLOCKS_MAX; i++)` of
`__luci_compress_extent_and_write` that fills `bp_array`. -/
def fill_bp_array (cfg : extent_cfg) (w : extent_write_work) ( compressed : Bool)
    (total_out : Nat) (crc32 : Nat → Nat) (crc32_extent : Nat) : List blkptr :=
  (List.range cfg.EXTENT_NRBLOCKS_MAX).map fun i =>
    if compressed then
      bp_reset (w.bp_array i) w.start_compr_block total_out cfg.LUCI_COMPR_FLAG crc32_extent
    else bp_reset (w.bp_array i) (w.start_compr_block + i) 0 0 (crc32 i)

/-- Function `__luci_compress_extent_and_write` of page-io.c from the
computation of `nr_blocks` on. -/
def extent_write_blocks (cfg : extent_cfg) (w : extent_write_work) ( compressed : Bool)
    (total_out : Nat) (crc32 : Nat → Nat) (crc32_extent : Nat) : extent_write_result :=
  let nr_blocks := (total_out + cfg.block_size - 1) >>> ilog2 cfg.block_size
  if w.new_block_ret < 0 then .bug
  else
    let bp_array := fill_bp_array cfg w compressed total_out crc32 crc32_extent
    if w.bio_err then .bug
    else
      .submitted compressed nr_blocks bp_array w.bmap_delta total_out
        (w.start_compr_block * cfg.block_size)

/-- Function `__luci_compress_extent_and_write` of page-io.c from the label
`notcompressible` on: the checksum of page `i` of the vector is stored in
`crc32[i]`, an array of `EXTENT_NRBLOCKS_MAX` zeroed entries. -/
def extent_write_notcompressible (cfg : extent_cfg) (w : extent_write_work) :
    extent_write_result :=
  if cfg.EXTENT_NRPAGE > cfg.EXTENT_NRBLOCKS_MAX then .bug
  else
    extent_write_blocks cfg w false cfg.EXTENT_SIZE
      (fun i => if i < cfg.EXTENT_NRPAGE then w.page_cksum i else 0) 0

/-- Function `__luci_compress_extent_and_write` of page-io.c.  Kernel memory
allocation is taken to succeed. -/
def __luci_compress_extent_and_write (cfg : extent_cfg) (w : extent_write_work) :
    extent_write_result :=
  if w.has_buffers then .bug
  else if w.pagevec_count ≠ cfg.EXTENT_NRPAGE then .bug
  else
    let extent := cfg.luci_extent_no w.page_index % 2 ^ 32
    if cfg.LUCI_COMPRESSION_HEURISTICS && !w.can_compress then
      extent_write_notcompressible cfg w
    else if extent < LUCI_NDIR_BLOCKS then extent_write_notcompressible cfg w
    else if w.ws_err then .write_error
    else if w.compress_err = 0 then
      if w.nr_pages_out = 0 then .bug
      else extent_write_blocks cfg w true w.total_out (fun _ => 0) w.pages_cksum
    else if (List.range w.nr_pages_out).all w.out_page = false then .bug
    else extent_write_notcompressible cfg w

/-- Modelled from the spec: section 4.6 identifies the cluster of a logical
block `L` by `extent_no(L) = L / (C/B)`; `n` is the cluster size `C/B` in
blocks.  The function `luci_extent_no` the code calls is not in the sources
at hand. -/
def extent_no (n L : Nat) : Nat := L / n

/-- A cluster geometry with 4096-byte blocks and pages and clusters of four
pages; `LUCI_COMPR_FLAG = 1`, no heuristics, clusters numbered as in the spec. -/
def cfg4k : extent_cfg :=
  { EXTENT_NRPAGE := 4, EXTENT_SIZE := 16384, EXTENT_NRBLOCKS_MAX := 4, LUCI_COMPR_FLAG := 1,
    LUCI_COMPRESSION_HEURISTICS := false, block_size := 4096, luci_extent_no := extent_no 4 }

/-- A work item for the cluster that starts at page `index`, which compresses
to 3000 bytes with checksum 7 and is given the blocks from 500 on; slot `i` of
the stack area of `bp_array` holds `i` in the bytes of the field `birth`. -/
def work_at (index : Nat) : extent_write_work :=
  { page_index := index, has_buffers := false, pagevec_count := 4, can_compress := true,
    ws_err := false, compress_err := 0, nr_pages_out := 1, total_out := 3000,
    out_page := fun _ => true, pages_cksum := 7, page_cksum := fun i => 10 + i,
    new_block_ret := 0, start_compr_block := 500,
    bp_array := fun i => ⟨0, 0, 0, i, 0⟩, bmap_delta := 3000, bio_err := false }

/-- A file of six blocks without holes: direct blocks 10 and 11, and the
indirect block 100 whose entries 0 to 3 are one compressed cluster (four
identical records for the run at block 200, 3000 bytes, flag `COMPRESSED`). -/
def clustered6 : trunc_state :=
  { i_size := 6144, i_nlink := 1,
    i_data := fun i =>
      if i = 0 then ⟨10, 0, 0, 0, 0⟩ else if i = 1 then ⟨11, 0, 0, 0, 0⟩
      else if i = 2 then ⟨100, 0, 0, 0, 0⟩ else blkptr_zero,
    bufs := fun b =>
      if b = 100 then some (fun j => if j < 4 then ⟨200, 3000, 7, 0, 1⟩ else blkptr_zero)
      else none,
    free_block_calls := [], free_extents_calls := [] }

/-- The inode state a truncate leaves, or `d` when a `BUG_ON` fired. -/
def truncated (r : Option (Int × trunc_state)) (d : trunc_state) : trunc_state :=
  match r with
  | some (_, s) => s
  | none => d

/-- The relation between the variables of a tree walk at two points of a
truncate, `w1` after `w0`: the remaining count `*delta_blocks` has not grown
and is not negative, and the inode's size has been lowered by
`luci_chunk_size` (clamped at 0) once for every unit the count went down. -/
def shrinks (env : trunc_env) (w0 w1 : walk) : Prop :=
  0 ≤ w1.delta ∧ w1.delta ≤ w0.delta ∧
  w1.st.i_size = w0.st.i_size - (w0.delta - w1.delta).toNat * env.chunk_size

/-! ## Buffered write, end of a write (fs/page-io.c) -/

/-- The kernel macro `IS_ALIGNED(x, a)`: `((x) & ((a) - 1)) == 0`. -/
def IS_ALIGNED (x a : Nat) : Bool := x &&& (a - 1) == 0

/-- The kernel macro `ALIGN_DOWN(x, a)`: `x` with the bits of `a - 1` cleared. -/
def ALIGN_DOWN (x a : Nat) : Nat := x - (x &&& (a - 1))

/-- The index of the first page of the cluster of page `index`, as the write
path computes it: `index` when `IS_ALIGNED(index, EXTENT_NRPAGE)`, else
`ALIGN_DOWN(index, EXTENT_NRPAGE)`. -/
def extent_index_begin (EXTENT_NRPAGE index : Nat) : Nat :=
  if IS_ALIGNED index EXTENT_NRPAGE = false then ALIGN_DOWN index EXTENT_NRPAGE else index

/-- A page of the page cache as `luci_write_extent_end` sees it: the flags
`PG_locked`, `PG_uptodate`, `PG_dirty` and the reference count. -/
structure wpage where
  locked : Bool
  uptodate : Bool
  dirty : Bool
  count : Int
deriving DecidableEq

/-- The file under a buffered write: the pages of its mapping by index,
`inode->i_size`, and whether `mark_inode_dirty` has been called. -/
structure write_state where
  pages : Nat → Option wpage
  i_size : Nat
  inode_dirty : Bool

/-- The kernel function `find_get_pages_contig(mapping, start, nr, pages)`:
the number of pages found at the consecutive indices from `start` on, at most
`nr`. -/
def find_get_pages_contig (pages : Nat → Option wpage) : Nat → Nat → Nat
  | _, 0 => 0
  | start, nr + 1 =>
    match pages start with
    | none => 0
    | some _ => find_get_pages_contig pages (start + 1) nr + 1

/-- The reference `find_get_pages_contig` takes on each of the `n` pages it
found from `start` on. -/
def get_pages (pages : Nat → Option wpage) (start n : Nat) : Nat → Option wpage :=
  fun j =>
    if start ≤ j ∧ j < start + n then (pages j).map fun p => { p with count := p.count + 1 }
    else pages j

/-- The first loop of `luci_write_extent_end` with `k` pages still to visit
from the page at `idx`: `BUG_ON(!PageLocked(page))`, then the page is set
uptodate and dirty, unlocked and one reference is dropped; `none` for the
`BUG_ON`. -/
def write_end_loop : Nat → (Nat → Option wpage) → Nat → Option (Nat → Option wpage)
  | 0, pages, _ => some pages
  | k + 1, pages, idx =>
    match pages idx with
    | none => none
    | some p =>
      if p.locked = false then none
      else
        write_end_loop k
          (fun j =>
            if j = idx then
              some { locked := false, uptodate := true, dirty := true, count := p.count - 1 }
            else pages j)
          (idx + 1)

/-- The second loop of `luci_write_extent_end`: `put_page` on each of the
`n` pages of the page vector. -/
def put_pages (pages : Nat → Option wpage) (start n : Nat) : Nat → Option wpage :=
  fun j =>
    if start ≤ j ∧ j < start + n then (pages j).map fun p => { p with count := p.count - 1 }
    else pages j

/-- Function `luci_write_extent_end` of page-io.c, with the macros
`EXTENT_NRPAGE` and `PAGE_CACHE_SHIFT` as parameters; `pos` is a `loff_t` that
is not negative, `len` an `unsigned` and the value returned an `int`.  `none`
when a `BUG_ON` fires or `pos + len` overflows the `loff_t`. -/
def luci_write_extent_end (EXTENT_NRPAGE PAGE_CACHE_SHIFT : Nat) (st : write_state)
    (pos len : Nat) : Option (Int × write_state) :=
  let index := pos >>> PAGE_CACHE_SHIFT
  let index_begin := extent_index_begin EXTENT_NRPAGE index
  let n := find_get_pages_contig st.pages index_begin EXTENT_NRPAGE
  if n ≠ EXTENT_NRPAGE then none
  else
    match write_end_loop EXTENT_NRPAGE (get_pages st.pages index_begin n) index_begin with
    | none => none
    | some pages1 =>
      let pages2 := put_pages pages1 index_begin EXTENT_NRPAGE
      if pos + len % 2 ^ 32 ≥ 2 ^ 63 then none
      else
        let ret : Int := ((len % 2 ^ 32 + 2 ^ 31) % 2 ^ 32 : Nat) - 2 ^ 31
        if pos + len % 2 ^ 32 > st.i_size then
          some (ret, { pages := pages2, i_size := pos + len % 2 ^ 32, inode_dirty := true })
        else some (ret, { st with pages := pages2 })

/-- A file of 5000 bytes whose pages 4 to 7 are in the page cache, locked,
with two references each, as `luci_write_extent_begin` leaves the cluster of
page 5. -/
def cluster_locked : write_state :=
  { pages := fun j =>
      if 4 ≤ j ∧ j < 8 then
        some { locked := true, uptodate := true, dirty := false, count := 2 }
      else none,
    i_size := 5000, inode_dirty := false }

/-! ## Directories (dir.c) -/

/-- The kernel constant `PAGE_SIZE`, `1 << PAGE_SHIFT`. -/
def PAGE_SIZE (PAGE_SHIFT : Nat) : Nat := 1 <<< PAGE_SHIFT

/-- The kernel constant `DT_UNKNOWN`. -/
def DT_UNKNOWN : Nat := 0

/-- The macro `LUCI_DIR_ROUND` of luci.h, `LUCI_DIR_PAD - 1`. -/
def LUCI_DIR_ROUND : Nat := 3

/-- The macro `LUCI_DIR_REC_LEN(name_len)` of luci.h:
`((name_len) + 8 + LUCI_DIR_ROUND) & ~LUCI_DIR_ROUND`. -/
def LUCI_DIR_REC_LEN (name_len : Nat) : Nat :=
  (name_len + 8 + LUCI_DIR_ROUND) - ((name_len + 8 + LUCI_DIR_ROUND) &&& LUCI_DIR_ROUND)

/-- A page of a directory as `dir.c` sees it: the bytes at `page_address(page)`
and the flags `PG_checked` and `PG_error`. -/
structure dpage where
  data : bytes
  checked : Bool
  error : Bool

/-- A directory inode: `inode->i_size` and, for each page number, what
`read_mapping_page(mapping, n, NULL)` returns (a page or an error code). -/
structure dir_inode where
  i_size : Nat
  mapping : Nat → Except Int dpage

/-- Function `luci_get_page` of dir.c: the mapped page, or the error code of
the `ERR_PTR` it returns. -/
def luci_get_page (dir : dir_inode) (n : Nat) : Except Int dpage :=
  match dir.mapping n with
  | .error e => .error e
  | .ok page => if page.checked = false ∧ page.error = true then .error (- EIO) else .ok page

/-- The field `inode` of the `struct luci_dir_entry_2` at offset `de`. -/
def de_inode (kaddr : bytes) (de : Nat) : Nat := get_le32 kaddr de

/-- The value `luci_rec_len_from_disk(de->rec_len)` for the record at offset `de`. -/
def luci_rec_len_from_disk (kaddr : bytes) (de : Nat) : Nat := get_le16 kaddr (de + 4)

/-- The field `name_len` of the record at offset `de`. -/
def de_name_len (kaddr : bytes) (de : Nat) : Nat := kaddr (de + 6) % 256

/-- The first `len` bytes of the field `name` of the record at offset `de`. -/
def de_name (kaddr : bytes) (de len : Nat) : List Nat :=
  (List.range len).map fun i => kaddr (de + 8 + i) % 256

/-- Function `luci_match` of dir.c for the name `name` of `name.length` bytes
and the record at offset `de`. -/
def luci_match (name : List Nat) (kaddr : bytes) (de : Nat) : Bool :=
  if name.length ≠ de_name_len kaddr de ∨ de_inode kaddr de = 0 then false
  else decide (name.map (fun c => c % 256) = de_name kaddr de name.length)

/-- Function `luci_last_byte` of dir.c. -/
def luci_last_byte (PAGE_SHIFT : Nat) (dir : dir_inode) (page_nr : Nat) : Nat :=
  if page_nr = dir.i_size >>> PAGE_SHIFT then dir.i_size &&& (PAGE_SIZE PAGE_SHIFT - 1)
  else PAGE_SIZE PAGE_SHIFT

/-- Function `dir_pages` of dir.c. -/
def dir_pages (PAGE_SHIFT : Nat) (dir : dir_inode) : Nat :=
  (dir.i_size + PAGE_SIZE PAGE_SHIFT - 1) >>> PAGE_SHIFT

/-- How the inner loop of `luci_find_entry` is left: `goto found` at the record
at offset `de`, `goto out` at a record of length 0 (`invalid`), or past the
limit (`done`); `no_fuel` when the model ran out of steps. -/
inductive page_scan where
  | found (de : Nat)
  | invalid
  | done
  | no_fuel
deriving DecidableEq

/-- The inner loop of `luci_find_entry` over one page, at the record at offset
`de`; `de <= limit` reads `de + reclen ≤ last_byte`, and `fuel` bounds the
number of records visited. -/
def find_entry_scan (name : List Nat) (kaddr : bytes) (last_byte reclen : Nat) :
    Nat → Nat → page_scan
  | 0, _ => .no_fuel
  | fuel + 1, de =>
    if de + reclen ≤ last_byte then
      if luci_rec_len_from_disk kaddr de = 0 then .invalid
      else if luci_match name kaddr de then .found de
      else find_entry_scan name kaddr last_byte reclen fuel
             (de + luci_rec_len_from_disk kaddr de)
    else .done

/-- What `luci_find_entry` returns: the record at offset `de` of page `n`
(with `*res` that page), or `NULL`; `no_fuel` when the model ran out of steps. -/
inductive find_result where
  | found (n de : Nat)
  | null
  | no_fuel
deriving DecidableEq

/-- The loop over the pages in `luci_find_entry`, with `k` pages still to
visit from page `n`.  A record of non-zero length advances the scan by at
least one byte, so `last_byte + 1` steps are enough for a page. -/
def find_entry_pages (PAGE_SHIFT : Nat) (dir : dir_inode) (name : List Nat) :
    Nat → Nat → find_result
  | 0, _ => .null
  | k + 1, n =>
    match luci_get_page dir n with
    | .error _ => find_entry_pages PAGE_SHIFT dir name k (n + 1)
    | .ok page =>
      match find_entry_scan name page.data (luci_last_byte PAGE_SHIFT dir n)
              (LUCI_DIR_REC_LEN name.length) (luci_last_byte PAGE_SHIFT dir n + 1) 0 with
      | .found de => .found n de
      | .invalid => .null
      | .done => find_entry_pages PAGE_SHIFT dir name k (n + 1)
      | .no_fuel => .no_fuel

/-- Function `luci_find_entry` of dir.c for the name `name`. -/
def luci_find_entry (PAGE_SHIFT : Nat) (dir : dir_inode) (name : List Nat) : find_result :=
  find_entry_pages PAGE_SHIFT dir name (dir_pages PAGE_SHIFT dir) 0

/-- A directory record decoded: where it is and its fields, with the
`name_len` bytes of its name. -/
structure dir_record where
  page : Nat
  off : Nat
  inode : Nat
  rec_len : Nat
  name_len : Nat
  name : List Nat
deriving DecidableEq

/-- The record at offset `o` of page `n`, whose bytes are `kaddr`. -/
def read_record (kaddr : bytes) (n o : Nat) : dir_record :=
  { page := n, off := o, inode := de_inode kaddr o, rec_len := luci_rec_len_from_disk kaddr o,
    name_len := de_name_len kaddr o, name := de_name kaddr o (de_name_len kaddr o) }

/-- The offsets of the records of a page along the `rec_len` chain from offset
`o`: each record that starts below `last_byte`, up to and including the first
one of length 0; `fuel` bounds the length of the chain. -/
def page_chain (kaddr : bytes) (last_byte : Nat) : Nat → Nat → List Nat
  | 0, _ => []
  | fuel + 1, o =>
    if o < last_byte then
      if luci_rec_len_from_disk kaddr o = 0 then [o]
      else o :: page_chain kaddr last_byte fuel (o + luci_rec_len_from_disk kaddr o)
    else []

/-- The records of page `n` of a directory in on-disk order: the chain from
offset 0 within the used bytes of the page; none when the page cannot be read. -/
def page_records (PAGE_SHIFT : Nat) (dir : dir_inode) (n : Nat) : List dir_record :=
  match luci_get_page dir n with
  | .error _ => []
  | .ok page =>
    (page_chain page.data (luci_last_byte PAGE_SHIFT dir n)
      (luci_last_byte PAGE_SHIFT dir n + 1) 0).map (read_record page.data n)

/-- The records of `k` pages of a directory from page `n` on, in scan order:
ascending page number, then ascending offset along the chain. -/
def dir_records_from (PAGE_SHIFT : Nat) (dir : dir_inode) : Nat → Nat → List dir_record
  | 0, _ => []
  | k + 1, n => page_records PAGE_SHIFT dir n ++ dir_records_from PAGE_SHIFT dir k (n + 1)

/-- The records of a directory in scan order. -/
def dir_records (PAGE_SHIFT : Nat) (dir : dir_inode) : List dir_record :=
  dir_records_from PAGE_SHIFT dir (dir_pages PAGE_SHIFT dir) 0

/-- A record matches a name when its inode is not 0, its `name_len` is the
length of the name and its name bytes are those of the name. -/
def record_matches (name : List Nat) (r : dir_record) : Bool :=
  decide (r.inode ≠ 0 ∧ r.name_len = name.length ∧ r.name = name.map (fun c => c % 256))

/-- The first record in scan order that matches the name. -/
def first_match (PAGE_SHIFT : Nat) (dir : dir_inode) (name : List Nat) : Option dir_record :=
  (dir_records PAGE_SHIFT dir).find? (record_matches name)

/-- A page that holds the records `(inode 11, "a")`, a hole that was `"bb"`,
`(inode 12, "a")` and `(inode 13, "c")`, of 12 bytes each, from offset 0. -/
def page_abc : bytes :=
  fun o =>
    if o = 0 then 11 else if o = 4 then 12 else if o = 6 then 1 else if o = 8 then 97
    else if o = 16 then 12 else if o = 18 then 2 else if o = 20 then 98 else if o = 21 then 98
    else if o = 24 then 12 else if o = 28 then 12 else if o = 30 then 1 else if o = 32 then 97
    else if o = 36 then 13 else if o = 40 then 12 else if o = 42 then 1 else if o = 44 then 99
    else 0

/-- A directory of 48 bytes whose only page is `page_abc`. -/
def dir_abc : dir_inode :=
  { i_size := 48,
    mapping := fun n =>
      if n = 0 then .ok { data := page_abc, checked := false, error := false }
      else .error (- EIO) }

/-- An entry handed to `dir_emit`: the `namelen` bytes at `name`, the inode
number and the type. -/
structure dirent where
  name : List Nat
  namelen : Nat
  ino : Nat
  d_type : Nat
deriving DecidableEq

/-- The `struct dir_context` of a `luci_readdir` call: the position `ctx->pos`
and the entries handed to `dir_emit` so far, in order. -/
structure dir_context where
  pos : Nat
  emitted : List dirent
deriving DecidableEq

/-- How a loop of `luci_readdir` is left: by a `return` with a value, or past
its bound (`next`); `no_fuel` when the model ran out of steps. -/
inductive readdir_exit where
  | ret (code : Int)
  | next
  | no_fuel
deriving DecidableEq

/-- The inner loop of `luci_readdir` over one page, at the record at offset
`de`; `actor` is the consumer behind `dir_emit` (`true` when it accepts the
entry), `(char*)de <= limit` reads `de + LUCI_DIR_REC_LEN(1) ≤ last_byte`, and
`fuel` bounds the number of records visited. -/
def readdir_scan (actor : dirent → Bool) (kaddr : bytes) (last_byte : Nat) :
    Nat → Nat → dir_context → readdir_exit × dir_context
  | 0, _, ctx => (.no_fuel, ctx)
  | fuel + 1, de, ctx =>
    if de + LUCI_DIR_REC_LEN 1 ≤ last_byte then
      if luci_rec_len_from_disk kaddr de = 0 then (.ret (- EIO), ctx)
      else if de_inode kaddr de ≠ 0 then
        let ent : dirent :=
          { name := de_name kaddr de (de_name_len kaddr de), namelen := de_name_len kaddr de,
            ino := de_inode kaddr de, d_type := DT_UNKNOWN }
        if actor ent = false then (.ret 0, { ctx with emitted := ctx.emitted ++ [ent] })
        else
          readdir_scan actor kaddr last_byte fuel (de + luci_rec_len_from_disk kaddr de)
            { pos := ctx.pos + luci_rec_len_from_disk kaddr de,
              emitted := ctx.emitted ++ [ent] }
      else
        readdir_scan actor kaddr last_byte fuel (de + luci_rec_len_from_disk kaddr de)
          { ctx with pos := ctx.pos + luci_rec_len_from_disk kaddr de }
    else (.next, ctx)

/-- The loop over the pages in `luci_readdir`, with `k` pages still to visit
from page `n`, the first of them from offset `offset`. -/
def readdir_pages (PAGE_SHIFT : Nat) (actor : dirent → Bool) (dir : dir_inode) :
    Nat → Nat → Nat → dir_context → readdir_exit × dir_context
  | 0, _, _, ctx => (.ret 0, ctx)
  | k + 1, n, offset, ctx =>
    match luci_get_page dir n with
    | .error e => (.ret e, { ctx with pos := ctx.pos + (PAGE_SIZE PAGE_SHIFT - offset) })
    | .ok page =>
      match readdir_scan actor page.data (luci_last_byte PAGE_SHIFT dir n)
              (luci_last_byte PAGE_SHIFT dir n + 1) offset ctx with
      | (.next, ctx1) => readdir_pages PAGE_SHIFT actor dir k (n + 1) 0 ctx1
      | r => r

/-- Function `luci_readdir` of dir.c: the value returned and the context it
leaves. -/
def luci_readdir (PAGE_SHIFT : Nat) (actor : dirent → Bool) (dir : dir_inode)
    (ctx : dir_context) : readdir_exit × dir_context :=
  let offset := ctx.pos &&& (PAGE_SIZE PAGE_SHIFT - 1)
  let n := ctx.pos >>> PAGE_SHIFT
  readdir_pages PAGE_SHIFT actor dir (dir_pages PAGE_SHIFT dir - n) n offset ctx

/-- The records that precede the first record with `rec_len = 0`. -/
def before_bad (records : List dir_record) : List dir_record :=
  records.takeWhile fun r => decide (r.rec_len ≠ 0)

/-- The entry a record is emitted as. -/
def dirent_of (r : dir_record) : dirent :=
  { name := r.name, namelen := r.name_len, ino := r.inode, d_type := DT_UNKNOWN }

/-- The entries of the records with non-zero inode that precede the first
record with `rec_len = 0`, in order. -/
def readdir_entries (records : List dir_record) : List dirent :=
  ((before_bad records).filter fun r => decide (r.inode ≠ 0)).map dirent_of

/-- The sum of the `rec_len` of the records that precede the first record with
`rec_len = 0`. -/
def readdir_advance (records : List dir_record) : Nat :=
  ((before_bad records).map fun r => r.rec_len).sum

/-- The value the claim gives for the return: `-EIO` when there is a record
with `rec_len = 0`, else 0. -/
def readdir_code (records : List dir_record) : Int :=
  if records.any (fun r => decide (r.rec_len = 0)) then - EIO else 0

/-- A directory of one page (4096 bytes) whose page cannot be read:
`read_mapping_page` fails with `-ENOMEM`. -/
def dir_unreadable : dir_inode :=
  { i_size := 4096, mapping := fun _ => .error (- ENOMEM) }

/-- A directory of 48 bytes whose only page holds the record `(inode 11, "a")`
of 12 bytes at offset 0, followed by zero bytes: the record at offset 12 has
`rec_len = 0`. -/
def dir_bad : dir_inode :=
  { i_size := 48,
    mapping := fun n =>
      if n = 0 then
        .ok { data := fun o =>
                if o = 0 then 11 else if o = 4 then 12 else if o = 6 then 1
                else if o = 8 then 97 else 0,
              checked := false, error := false }
      else .error (- EIO) }

/-- What `luci_delete_entry` takes from outside dir.c: `luci_chunk_size(inode)`
and the values `luci_prepare_chunk` and `luci_commit_chunk` return. -/
structure chunk_io where
  chunk_size : Nat
  prepare_err : Int
  commit_err : Int

/-- What a call of `luci_delete_entry` leaves: the value returned, the
directory, and the byte range `[from, to)` of the page with the file position
`pos` that were passed to `luci_prepare_chunk` and `luci_commit_chunk`. -/
structure delete_result where
  err : Int
  dir : dir_inode
  chunk_from : Nat
  chunk_to : Nat
  pos : Nat

/-- Function `luci_delete_entry` of dir.c for the record at offset `de` of
page `n` of the directory; `from` and `to` are `unsigned`.  `none` when the
page is not there or the `BUG_ON(err)` fires. -/
def luci_delete_entry (PAGE_SHIFT : Nat) (io : chunk_io) (dir : dir_inode) (n de : Nat) :
    Option delete_result :=
  match dir.mapping n with
  | .error _ => none
  | .ok page =>
    let chunk_from :=
      (if io.chunk_size = 0 then 0 else de - (de &&& (io.chunk_size - 1))) % 2 ^ 32
    let chunk_to := (de + luci_rec_len_from_disk page.data de) % 2 ^ 32
    let pos := n * PAGE_SIZE PAGE_SHIFT + chunk_from
    let page1 : dpage := { page with data := put_le32 page.data de 0 }
    if io.prepare_err ≠ 0 then none
    else
      some
        { err := io.commit_err
          dir := { dir with mapping := fun m => if m = n then .ok page1 else dir.mapping m }
          chunk_from := chunk_from
          chunk_to := chunk_to
          pos := pos }

/-- A directory layer with 4096-byte chunks in which `luci_prepare_chunk` and
`luci_commit_chunk` succeed. -/
def chunk_io_4k : chunk_io := { chunk_size := 4096, prepare_err := 0, commit_err := 0 }

/-- The `bg_checksum` field stored in entry `entry` of the descriptor block
`bh`. -/
def stored_bg_checksum (bh : bytes) (entry : Nat) : Nat :=
  get_le16 bh (entry * LUCI_GROUP_DESC_SIZE + GD_checksum)

/-- The low 16 bits of the checksum, with seed `~0`, of the 32 bytes of
entry `entry` of the descriptor block `bh` with the `bg_checksum` field zeroed. -/
def computed_bg_checksum (data_cksum : List Nat → Nat → Nat) (bh : bytes) (entry : Nat) : Nat :=
  data_cksum
    (buf_slice (put_le16 bh (entry * LUCI_GROUP_DESC_SIZE + GD_checksum) 0)
      (entry * LUCI_GROUP_DESC_SIZE) LUCI_GROUP_DESC_SIZE) CRC_SEED % 2 ^ 16

/-- A file system of one group of 16 blocks whose only descriptor names the
blocks 3, 4 and 5 and carries the stored checksum `crc` (below 256). -/
def sbi_with_crc (crc : Nat) : luci_sb_info :=
  { s_lsb :=
      { s_inodes_count := 32, s_blocks_count := 16, s_free_blocks_count := 0,
        s_first_data_block := 0, s_blocks_per_group := 16, s_inodes_per_group := 32 }
    s_groups_count := 1, s_gdb_count := 1, s_first_ino := 11, s_inodes_per_group := 32,
    s_blocks_per_group := 16, s_desc_per_block := 32, s_desc_per_block_bits := 5,
    s_group_desc := fun i =>
      if i = 0 then
        some (fun o =>
          if o = 0 then 3 else if o = 4 then 4 else if o = 8 then 5
          else if o = 26 then crc else 0)
      else none
    s_freeblocks_counter := 0, s_freeinodes_counter := 0, s_dirs_counter := 0,
    s_next_generation := 0 }

/-- The inode number 12 of `fs_one_group` as a directory. -/
def dir12 : alloc_inode :=
  { i_ino := 12, i_mode := 0x4000, i_blocks := 0, i_block_group := 0, i_generation := 0 }

/-- The free-inode count and the directory count of the descriptor of group
`group`, as `luci_get_group_desc` finds it. -/
def group_counts (st : alloc_state) (group : Nat) : Option (Nat × Nat) :=
  (luci_get_group_desc st.sbi group).map fun g =>
    (gdesc_get16 st.sbi g GD_free_inodes_count, gdesc_get16 st.sbi g GD_used_dirs_count)

/-- A kernel like `env_plain` on a device whose block size is 2048 after
`sb_min_blocksize(sb, BLOCK_SIZE)`. -/
def env_2k : mount_env := { env_plain with min_blocksize := 2048 }

/-- A device image whose super block, at byte 1024, carries the magic number
0xEF53 and `s_log_block_size = 2` (4096-byte blocks); every other byte is 0. -/
def dev_4k_fs : bytes :=
  fun o =>
    if o = 1024 + 24 then 2
    else if o = 1024 + 56 then 0x53 else if o = 1024 + 57 then 0xEF
    else 0

/-- Where a mount attempt looked for the super block last: the value returned,
`sb->s_blocksize`, the block number of the buffer and the offset of `s_lsb` in
it, and the device byte offset of `s_lsb`. -/
def mount_location : mount_result → Option (Int × Nat × Nat × Nat × Nat)
  | .ret code sb => some (code, sb.s_blocksize, sb.sbh_block, sb.lsb_of, lsb_addr sb)
  | .bug => none
  | .no_fuel => none

/-! ## Scan for a dirty cluster (fs/page-io.c) -/

/-- A page of the page cache as `luci_scan_pgtree_dirty_pages` sees it: the
flags `PG_uptodate`, `PG_dirty`, `PG_writeback` and `PG_locked`, and the tags
`PAGECACHE_TAG_DIRTY` and `PAGECACHE_TAG_TOWRITE` of its slot. -/
structure spage where
  uptodate : Bool
  dirty : Bool
  writeback : Bool
  locked : Bool
  tag_dirty : Bool
  tag_towrite : Bool
deriving DecidableEq

/-- The mapping under writeback: its pages by index, a bound `limit` above
which it has no page, and `wbc->nr_to_write`. -/
structure scan_state where
  pages : Nat → Option spage
  limit : Nat
  nr_to_write : Int

/-- The kernel function `tag_pages_for_writeback(mapping, start, end)`: every
page tagged dirty in `[start, end]` is tagged `TOWRITE`. -/
def tag_pages_for_writeback (pages : Nat → Option spage) (start end_index : Nat) :
    Nat → Option spage :=
  fun j =>
    if start ≤ j ∧ j ≤ end_index then
      (pages j).map fun p => if p.tag_dirty then { p with tag_towrite := true } else p
    else pages j

/-- The kernel function `pagevec_lookup_tag(pvec, mapping, &index, tag, nr)`:
the indices, in ascending order, of the first `nr` pages from `index` on that
carry the tag (`TOWRITE` when `towrite`, else `DIRTY`); `k` indices are still
to be looked at. -/
def pagevec_lookup_tag (pages : Nat → Option spage) ( towrite : Bool) :
    Nat → Nat → Nat → List Nat
  | 0, _, _ => []
  | k + 1, index, nr =>
    if nr = 0 then []
    else
      match pages index with
      | some p =>
        if (if towrite then p.tag_towrite else p.tag_dirty) then
          index :: pagevec_lookup_tag pages towrite k (index + 1) (nr - 1)
        else pagevec_lookup_tag pages towrite k (index + 1) nr
      | none => pagevec_lookup_tag pages towrite k (index + 1) nr

/-- The value `pagevec_lookup_tag` leaves in `*index`: one past the last page
found. -/
def lookup_next_index (found : List Nat) (index : Nat) : Nat :=
  match found.getLast? with
  | some last => last + 1
  | none => index

/-- How the first loop of `luci_scan_pgtree_dirty_pages` ends: with `nr_dirty`,
`next_index` and the pages, or at its `BUG_ON(!PageUptodate(page))`. -/
inductive dirty_count where
  | counted (nr_dirty next_index : Nat) (pages : Nat → Option spage)
  | bug

/-- The first loop of `luci_scan_pgtree_dirty_pages` over the pages found:
it stops at the first page of another extent, whose index becomes
`next_index`, and sets the dirty flag of the pages it counts. -/
def count_dirty (luci_extent_no : Nat → Nat) (extent : Nat) :
    List Nat → Nat → Nat → (Nat → Option spage) → dirty_count
  | [], nr_dirty, next_index, pages => .counted nr_dirty next_index pages
  | i :: rest, nr_dirty, next_index, pages =>
    if extent ≠ luci_extent_no i then .counted nr_dirty i pages
    else
      match pages i with
      | none => .bug
      | some p =>
        if p.uptodate = false then .bug
        else
          count_dirty luci_extent_no extent rest (nr_dirty + 1) next_index
            (fun j => if j = i then some { p with dirty := true } else pages j)

/-- The loop `for (i = 0; i < EXTENT_NRPAGE; i++)` of
`luci_scan_pgtree_dirty_pages` with `k` pages still to grab from the page at
`idx`: `grab_cache_page_nowait` is retried until it returns the page, found or
created, locked; its dirty flag is cleared, `PG_writeback` is set, and the page
is added to the vector. -/
def grab_extent_pages : Nat → Nat → (Nat → Option spage) → List Nat × (Nat → Option spage)
  | 0, _, pages => ([], pages)
  | k + 1, idx, pages =>
    let p : spage :=
      match pages idx with
      | some p => p
      | none =>
        { uptodate := false, dirty := false, writeback := false, locked := false,
          tag_dirty := false, tag_towrite := false }
    let r := grab_extent_pages k (idx + 1)
      (fun j =>
        if j = idx then some { p with locked := true, dirty := false, writeback := true }
        else pages j)
    (idx :: r.1, r.2)

/-- What `luci_scan_pgtree_dirty_pages` returns: `NULL` or a page vector, given
by the indices of its pages in order, with the `*index` and the state it
leaves; `bug` for a `BUG_ON`. -/
inductive scan_result where
  | null (index : Nat) (st : scan_state)
  | pvec (page_indices : List Nat) (index : Nat) (st : scan_state)
  | bug

/-- Function `luci_scan_pgtree_dirty_pages` of page-io.c (the variant without
`HAVE_PAGEVEC_INIT_NEW`), entered with `*index = index`; `sync` is
`wbc->sync_mode == WB_SYNC_ALL || wbc->tagged_writepages`.  Kernel memory
allocation is taken to succeed. -/
def luci_scan_pgtree_dirty_pages (cfg : extent_cfg) (st : scan_state) (sync : Bool)
    (index : Nat) : scan_result :=
  let next_index := extent_index_begin cfg.EXTENT_NRPAGE index
  let end_index := next_index + cfg.EXTENT_NRPAGE - 1
  let pages1 := if sync then tag_pages_for_writeback st.pages next_index end_index else st.pages
  let found := pagevec_lookup_tag pages1 sync (st.limit - next_index) next_index
                 cfg.EXTENT_NRPAGE
  if found.length = 0 then .null index { st with pages := pages1 }
  else
    let extent := cfg.luci_extent_no index % 2 ^ 32
    match count_dirty cfg.luci_extent_no extent found 0 (lookup_next_index found next_index)
            pages1 with
    | .bug => .bug
    | .counted nr_dirty next_index2 pages2 =>
      if nr_dirty = 0 then .null next_index2 { st with pages := pages2 }
      else
        let r := grab_extent_pages cfg.EXTENT_NRPAGE index pages2
        .pvec r.1 next_index2 { st with pages := r.2, nr_to_write := st.nr_to_write - nr_dirty }

/-- The indices of the pages of the vector a scan returned; `none` when it
returned no vector. -/
def scan_page_indices : scan_result → Option (List Nat)
  | .pvec page_indices _ _ => some page_indices
  | .null _ _ => none
  | .bug => none

/-- A mapping whose pages 4 to 7 (the cluster 1 of `cfg4k`) are in the page
cache, uptodate, dirty and tagged dirty. -/
def cluster1_dirty : scan_state :=
  { pages := fun j =>
      if 4 ≤ j ∧ j < 8 then
        some { uptodate := true, dirty := true, writeback := false, locked := false,
               tag_dirty := true, tag_towrite := false }
      else none,
    limit := 8, nr_to_write := 16 }

/-- A file of four blocks with a hole at logical block 2: direct blocks 10 and
11, and the indirect block 100 whose entry 0 is zero and whose entry 1 names
block 21. -/
def holed4 : trunc_state :=
  { i_size := 4096, i_nlink := 1,
    i_data := fun i =>
      if i = 0 then ⟨10, 0, 0, 0, 0⟩ else if i = 1 then ⟨11, 0, 0, 0, 0⟩
      else if i = 2 then ⟨100, 0, 0, 0, 0⟩ else blkptr_zero,
    bufs := fun b =>
      if b = 100 then some (fun j => if j = 1 then ⟨21, 0, 0, 0, 0⟩ else blkptr_zero)
      else none,
    free_block_calls := [], free_extents_calls := [] }

/-- Whether the buffer of block `block` has a non-zero entry among its first
`n` entries. -/
def has_entry (s : trunc_state) (block n : Nat) : Bool :=
  (List.range n).any fun j => (buf_entry s block j).blockno != 0

/-- A file system of two groups of 16 blocks whose descriptors share
descriptor block 0: the record of group 0 (bytes 0 to 31) names the blocks 3,
4 and 5, the record of group 1 (bytes 32 to 63) the blocks 19, 20 and 21. -/
def sbi_two_groups : luci_sb_info :=
  { s_lsb :=
      { s_inodes_count := 64, s_blocks_count := 33, s_free_blocks_count := 0,
        s_first_data_block := 1, s_blocks_per_group := 16, s_inodes_per_group := 32 }
    s_groups_count := 2, s_gdb_count := 1, s_first_ino := 11, s_inodes_per_group := 32,
    s_blocks_per_group := 16, s_desc_per_block := 32, s_desc_per_block_bits := 5,
    s_group_desc := fun i =>
      if i = 0 then
        some (fun o =>
          if o = 0 then 3 else if o = 4 then 4 else if o = 8 then 5
          else if o = 32 then 19 else if o = 36 then 20 else if o = 40 then 21 else 0)
      else none
    s_freeblocks_counter := 0, s_freeinodes_counter := 0, s_dirs_counter := 0,
    s_next_generation := 0 }

/-- A call of `luci_new_inode` followed, when it returned an inode, by
`luci_free_inode` of that inode: the inode and the state left. -/
def new_then_free_inode (st : alloc_state) (vfs : vfs_oracle) (mode : Nat) :
    Option (alloc_inode × alloc_state) :=
  match luci_new_inode st vfs mode with
  | (.ok inode, st1) => (luci_free_inode st1 inode).map fun st2 => (inode, st2)
  | (.err _, _) => none

/-- A kernel like `env_plain` whose page checksum is the sum of the bytes plus
one (whatever the seed). -/
def env_sum : mount_env := { env_plain with page_cksum := fun l _ => l.sum + 1 }

/-- A device image with 4096-byte blocks that mounts: the super block at byte
1024 (`s_log_block_size = 2`, state `LUCI_VALID_FS`, one group), its only group
descriptor in block 1 (byte 4096) naming the blocks 3, 4 and 5, and in
`s_checksum` the value 651 = 0x28B, the sum of the 1024 bytes of the super
block with `s_checksum` zeroed, plus one. -/
def dev_summed_4k : bytes :=
  fun o =>
    if o = 1024 + 4 then 100 else if o = 1024 + 20 then 1
    else if o = 1024 + 24 then 2
    else if o = 1024 + 33 then 0x20 else if o = 1024 + 37 then 0x20
    else if o = 1024 + 40 then 32
    else if o = 1024 + 56 then 0x53 else if o = 1024 + 57 then 0xEF
    else if o = 1024 + 58 then 1
    else if o = 1024 + 88 then 128
    else if o = 1024 + 1020 then 0x8B else if o = 1024 + 1021 then 0x02
    else if o = 4096 then 3 else if o = 4096 + 4 then 4 else if o = 4096 + 8 then 5
    else 0

/-- A mount of the device image a first mount left, when that one returned 0:
the image is what `sync_dirty_buffer(sbi->s_sbh)` wrote before a crash. -/
def mount_after_crash (env : mount_env) (fuel : Nat) : mount_result → mount_result
  | .ret code sb => if code = 0 then luci_read_superblock env sb.dev fuel else .ret code sb
  | .bug => .bug
  | .no_fuel => .no_fuel

/-- The walk a loop exit carries. -/
def loop_exit_walk : loop_exit → walk
  | .fell _ w => w
  | .out _ w => w

/-- The count `*delta_blocks` is not negative and is at most the number of
blocks the size still covers: `delta * B < i_size + B`, that is
`delta ≤ ⌈i_size / B⌉`. -/
def sized (env : trunc_env) (w : walk) : Prop :=
  0 ≤ w.delta ∧ w.delta.toNat * env.s_blocksize < w.st.i_size + env.s_blocksize

/-- A kernel like `env_sum` on a device whose block size is 2048 after
`sb_min_blocksize(sb, BLOCK_SIZE)`. -/
def env_sum_2k : mount_env := { env_sum with min_blocksize := 2048 }

/-- The device image `dev_summed_4k` with a copy of its super block in the
first 1024 bytes as well: the bytes 0 to 1023 repeat the bytes 1024 to 2047,
the stored checksum 651 included. -/
def dev_two_supers : bytes :=
  fun o => if o < 1024 then dev_summed_4k (o + 1024) else dev_summed_4k o

/-- A mount, `luci_free_super` and a second mount of the image that leaves,
when the first mount returned 0: what the second mount ends in. -/
def remount_after_unmount (env : mount_env) (fuel : Nat) : mount_result → mount_result
  | .ret code sb =>
    if code = 0 then
      match luci_free_super env sb with
      | some out => luci_read_superblock env out.dev fuel
      | none => .bug
    else .ret code sb
  | .bug => .bug
  | .no_fuel => .no_fuel

/-- The `s_checksum` fields `luci_free_super` leaves at the device bytes 1020
(a super block at byte 0) and 2044 (the super block at byte 1024) after the
mount `r`. -/
def unmount_checksums (env : mount_env) : mount_result → Option (Nat × Nat)
  | .ret _ sb =>
    match luci_free_super env sb with
    | some out => some (get_le32 out.dev SB_checksum, get_le32 out.dev (1024 + SB_checksum))
    | none => none
  | .bug => none
  | .no_fuel => none

/-- A directory of 40 bytes whose only page is `page_abc`: its last record,
`(inode 13, "c")`, starts at offset 36, inside the used bytes, and ends at
offset 48, past them. -/
def dir_cut : dir_inode :=
  { i_size := 40,
    mapping := fun n =>
      if n = 0 then .ok { data := page_abc, checked := false, error := false }
      else .error (- EIO) }

/-! ## Theorems -/

/-- C1, as the code has it: once the compressed pages have been read
(`luci_construct_bio` and `submit_bio_wait` succeed) and
`luci_validate_data_pages_cksum` reports `-EBADE`, `luci_read_extent` leaves the
page cache as it was, so nothing is decompressed, but the value it returns is
0 and not an error. -/
theorem luci_read_extent_cksum_mismatch_returns_zero (nrpage : Nat) (pgtree_bio_ok : Bool)
    (ws_err decompress_ret : Int) (inflated : Nat → List Nat) (cache : Nat → cache_page)
    (page_index : Nat) (bp : blkptr) :
    luci_read_extent
      { EXTENT_NRPAGE := nrpage, comp_bio_ok := true, submit_ret := 0, cksum_ret := -EBADE,
        pgtree_bio_ok := pgtree_bio_ok, ws_err := ws_err, decompress_ret := decompress_ret,
        inflated := inflated } cache page_index bp = some (0, cache) := by
  simp [luci_read_extent]

/-- C2, as the code has it: truncating the four-block file `file4` (no holes,
1024-byte blocks) to 3072 bytes returns 0 and frees only block 21, but the
logical block 2, which is below the new block count 3 and resolved to block 20
before the call, resolves to the zero pointer afterwards, because the root of
the indirect block is cleared.  In the file `sparse10` with holes, truncating
to 5120 bytes frees the direct blocks 11 and 10, which lie below the new block
count 5. -/
theorem luci_truncate_loses_blocks_below_new_size :
    (3072 + 1024 - 1) / 1024 = 3 ∧
    bmap_lookup (LUCI_ADDR_PER_BLOCK env1k) file4 2 = ⟨20, 0, 0, 0, 0⟩ ∧
    (luci_truncate env1k file4 3072).map
        (fun r => (r.1, r.2.free_block_calls, bmap_lookup (LUCI_ADDR_PER_BLOCK env1k) r.2 2)) =
      some (0, [21], blkptr_zero) ∧
    bmap_lookup (LUCI_ADDR_PER_BLOCK env1k) sparse10 0 = ⟨10, 0, 0, 0, 0⟩ ∧
    (luci_truncate env1k sparse10 5120).map
        (fun r => (r.1, r.2.free_block_calls, bmap_lookup (LUCI_ADDR_PER_BLOCK env1k) r.2 0)) =
      some (0, [11, 10], blkptr_zero) := by
  decide

/-- C3, as the code has it: evicting the unlinked one-block file `unlinked1`
(link count 0, size 1024) hands no block to `luci_free_block` and leaves the
root pointer of block 10 in place: the size is set to 0 before `luci_truncate`
computes the number of blocks to free. -/
theorem luci_evict_inode_frees_no_block :
    unlinked1.i_nlink = 0 ∧ unlinked1.i_size = 1024 ∧
    (luci_evict_inode env1k unlinked1 fs_one_group inode12).map
        (fun r => (r.1.i_size, r.1.free_block_calls, r.1.i_data 0)) =
      some (0, [], ⟨10, 0, 0, 0, 0⟩) := by
  decide

/-- C4, as the code has it: in `fs_one_group` (32 inodes per group, first
inode 11) freeing inode 12, whose own bit is bit 11 of the inode bitmap of
group 0 (block 4), leaves bit 11 set and clears bit 0, the bit of inode 1. -/
theorem luci_free_inode_clears_wrong_bit :
    fs_one_group.sbi.s_first_ino ≤ inode12.i_ino ∧
    inode12.i_ino ≤ fs_one_group.sbi.s_lsb.s_inodes_count ∧
    (inode12.i_ino - 1) % fs_one_group.sbi.s_lsb.s_inodes_per_group = 11 ∧
    (inode12.i_ino - 1) / fs_one_group.sbi.s_lsb.s_inodes_per_group = 0 ∧
    inode_bitmap_block fs_one_group 0 = some 4 ∧
    (fs_one_group.bitmaps 4).map (fun bm => (bm 0, bm 11)) = some (true, true) ∧
    (luci_free_inode fs_one_group inode12).map
        (fun st => (st.bitmaps 4).map (fun bm => (bm 0, bm 11))) =
      some (some (false, true)) := by
  decide

/-- A scan over set bits only runs to its end. -/
theorem find_zero_scan_full (bm : bitmap) : ∀ k i,
    (∀ j, i ≤ j → j < i + k → bm j = true) → find_zero_scan bm k i = i + k := by
  intro k
  induction k with
  | zero => intro i _; rfl
  | succ k ih =>
    intro i h
    have hi : bm i = true := h i (Nat.le_refl i) (by omega)
    have := ih (i + 1) (fun j h1 h2 => h j (by omega) (by omega))
    simp [find_zero_scan, hi, this]
    omega

/-- A scan stops at the first clear bit in its range. -/
theorem find_zero_scan_found (bm : bitmap) (b : Nat) (hb : bm b = false) : ∀ k i,
    i ≤ b → b < i + k → (∀ j, i ≤ j → j < b → bm j = true) → find_zero_scan bm k i = b := by
  intro k
  induction k with
  | zero => intro i h1 h2 _; omega
  | succ k ih =>
    intro i h1 h2 h
    by_cases hib : i = b
    · subst hib
      simp [find_zero_scan, hb]
    · have hi : bm i = true := h i (Nat.le_refl i) (by omega)
      have := ih (i + 1) (by omega) (by omega) (fun j h3 h4 => h j (by omega) h4)
      simp [find_zero_scan, hi, this]

/-- On a bitmap whose first `size` bits are set `find_next_zero_bit` returns `size`. -/
theorem find_next_zero_bit_full (bm : bitmap) (size : Nat)
    (h : ∀ j, j < size → bm j = true) : find_next_zero_bit bm size 0 = size := by
  unfold find_next_zero_bit
  by_cases hs : 0 ≥ size
  · simp [hs]
  · have := find_zero_scan_full bm size 0 (fun j _ h2 => h j (by omega))
    simp [hs, this]

/-- The value of `find_next_zero_bit` is the lowest clear bit below `size`. -/
theorem find_next_zero_bit_found (bm : bitmap) (size b : Nat) (hb : bm b = false)
    (hlt : b < size) (h : ∀ j, j < b → bm j = true) : find_next_zero_bit bm size 0 = b := by
  unfold find_next_zero_bit
  have hs : ¬ (0 ≥ size) := by omega
  have := find_zero_scan_found bm b hb size 0 (Nat.zero_le b) (by omega) (fun j _ h2 => h j h2)
  simp [hs, this]

/-- A successful `read_inode_bitmap` has found the descriptor and read the block it names. -/
theorem read_inode_bitmap_some (st : alloc_state) (i : Nat) (bm : bitmap)
    (h : read_inode_bitmap st i = some bm) :
    ∃ gdb blk, luci_get_group_desc st.sbi i = some gdb ∧ inode_bitmap_block st i = some blk ∧
      st.bitmaps blk = some bm := by
  unfold read_inode_bitmap at h
  cases hblk : inode_bitmap_block st i with
  | none => simp [hblk] at h
  | some blk =>
    simp [hblk] at h
    unfold inode_bitmap_block at hblk
    cases hg : luci_get_group_desc st.sbi i with
    | none => simp [hg] at hblk
    | some gdb =>
      refine ⟨gdb, blk, rfl, ?_, h⟩
      simp [inode_bitmap_block, hg] at hblk ⊢

/-- The group loop of `luci_new_inode` passes over a group without clear bit. -/
theorem new_inode_scan_full_step (st : alloc_state) (vfs : vfs_oracle) (mode k i : Nat)
    (bm : bitmap) (hr : read_inode_bitmap st i = some bm)
    (hfull : ∀ j, j < st.sbi.s_inodes_per_group → bm j = true) :
    new_inode_scan st vfs mode (k + 1) i = new_inode_scan st vfs mode k (i + 1) := by
  obtain ⟨gdb, blk, hg, hblk, hbm⟩ := read_inode_bitmap_some st i bm hr
  have hf := find_next_zero_bit_full bm _ hfull
  simp [new_inode_scan, hg, hblk, hbm, hf]

/-- The group loop of `luci_new_inode` ends in `-ENOSPC` when no group has a clear bit. -/
theorem new_inode_scan_all_full (st : alloc_state) (vfs : vfs_oracle) (mode : Nat) : ∀ k i,
    (∀ j, i ≤ j → j < i + k → ∃ bm, read_inode_bitmap st j = some bm ∧
        ∀ n, n < st.sbi.s_inodes_per_group → bm n = true) →
    new_inode_scan st vfs mode k i = (.err (-ENOSPC), st) := by
  intro k
  induction k with
  | zero => intro i _; rfl
  | succ k ih =>
    intro i h
    obtain ⟨bm, hr, hfull⟩ := h i (Nat.le_refl i) (by omega)
    rw [new_inode_scan_full_step st vfs mode k i bm hr hfull]
    exact ih (i + 1) (fun j h1 h2 => h j (by omega) (by omega))

/-- The group loop of `luci_new_inode` passes over `d` groups without clear bit. -/
theorem new_inode_scan_skip (st : alloc_state) (vfs : vfs_oracle) (mode : Nat) : ∀ d k i,
    (∀ j, i ≤ j → j < i + d → ∃ bm, read_inode_bitmap st j = some bm ∧
        ∀ n, n < st.sbi.s_inodes_per_group → bm n = true) →
    new_inode_scan st vfs mode (d + k) i = new_inode_scan st vfs mode k (i + d) := by
  intro d
  induction d with
  | zero => intro k i _; simp
  | succ d ih =>
    intro k i h
    obtain ⟨bm, hr, hfull⟩ := h i (Nat.le_refl i) (by omega)
    have e : d + 1 + k = (d + k) + 1 := by omega
    rw [e, new_inode_scan_full_step st vfs mode (d + k) i bm hr hfull]
    rw [ih k (i + 1) (fun j h1 h2 => h j (by omega) (by omega))]
    congr 1
    omega

/-- The group loop of `luci_new_inode` takes the lowest clear bit of a group that has one. -/
theorem new_inode_scan_found (st : alloc_state) (vfs : vfs_oracle) (mode k g blk b : Nat)
    (bm : bitmap) (gdb : gdesc_ptr) (hg : luci_get_group_desc st.sbi g = some gdb)
    (hblk : inode_bitmap_block st g = some blk) (hbm : st.bitmaps blk = some bm)
    (hlt : b < st.sbi.s_inodes_per_group) (hb : bm b = false) (hlow : ∀ j, j < b → bm j = true) :
    new_inode_scan st vfs mode (k + 1) g =
      new_inode_gotit (set_bitmap st blk (fun n => if n = b then true else bm n)) vfs mode g b gdb := by
  have hf := find_next_zero_bit_found bm _ b hb hlt hlow
  simp [new_inode_scan, hg, hblk, hbm, hf, hlt, test_and_set_bit_le, hb]

/-- The code after `gotit` in `luci_new_inode` writes no bitmap. -/
theorem new_inode_gotit_bitmaps (st : alloc_state) (vfs : vfs_oracle) (mode g b : Nat)
    (gdb : gdesc_ptr) : (new_inode_gotit st vfs mode g b gdb).2.bitmaps = st.bitmaps := by
  unfold new_inode_gotit
  by_cases h : vfs.insert_ok = true <;> simp [h]

/-- The inode that the code after `gotit` in `luci_new_inode` builds. -/
theorem new_inode_gotit_result (st : alloc_state) (vfs : vfs_oracle) (mode g b : Nat)
    (gdb : gdesc_ptr) :
    (new_inode_gotit st vfs mode g b gdb).1 =
      if vfs.insert_ok then
        .ok { i_ino := b, i_mode := mode, i_blocks := 0, i_block_group := g,
              i_generation := st.sbi.s_next_generation }
      else .err (- EIO) := by
  unfold new_inode_gotit
  by_cases h : vfs.insert_ok = true <;> by_cases hd : S_ISDIR mode = true <;>
    simp [h, hd, gdesc_add16]

/-- What `luci_new_inode` does with the blocks `read_inode_bitmap` reads: when
`read_inode_bitmap` succeeds for every group, the call takes the lowest clear
bit `b` (among the first `s_inodes_per_group` bits) of the lowest group `g`
for which the block read has one: it sets that bit in that block, changes no
other bit of any bitmap block, and the inode it builds has group `g` and
number `b`; when no block read has a clear bit it returns `-ENOSPC` and the
state is unchanged.  The block `read_inode_bitmap` reads for a group is the
one named at the address `luci_get_group_desc` returns. -/
theorem luci_new_inode_lowest_group_lowest_bit (st : alloc_state) (vfs : vfs_oracle)
    (mode : Nat)
    (hread : ∀ i, i < st.sbi.s_groups_count → read_inode_bitmap st i ≠ none) :
    (∀ g blk bm b,
        g < st.sbi.s_groups_count →
        inode_bitmap_block st g = some blk → st.bitmaps blk = some bm →
        b < st.sbi.s_inodes_per_group → bm b = false → (∀ j, j < b → bm j = true) →
        (∀ i, i < g → ∀ bm1, read_inode_bitmap st i = some bm1 →
            ∀ j, j < st.sbi.s_inodes_per_group → bm1 j = true) →
        (luci_new_inode st vfs mode).2.bitmaps =
            (fun x =>
              if x = blk then some (fun n => if n = b then true else bm n)
              else st.bitmaps x) ∧
        (luci_new_inode st vfs mode).1 =
            (if vfs.insert_ok then
              .ok { i_ino := b, i_mode := mode, i_blocks := 0, i_block_group := g,
                    i_generation := st.sbi.s_next_generation }
             else .err (- EIO))) ∧
    ((∀ i, i < st.sbi.s_groups_count → ∀ bm1, read_inode_bitmap st i = some bm1 →
          ∀ j, j < st.sbi.s_inodes_per_group → bm1 j = true) →
        luci_new_inode st vfs mode = (.err (-ENOSPC), st)) := by
  have hfullgroup : ∀ i, i < st.sbi.s_groups_count →
      (∀ bm1, read_inode_bitmap st i = some bm1 →
          ∀ j, j < st.sbi.s_inodes_per_group → bm1 j = true) →
      ∃ bm, read_inode_bitmap st i = some bm ∧
        ∀ n, n < st.sbi.s_inodes_per_group → bm n = true := by
    intro i hi hall
    cases hr : read_inode_bitmap st i with
    | none => exact absurd hr (hread i hi)
    | some bm => exact ⟨bm, rfl, hall bm hr⟩
  constructor
  · intro g blk bm b hg hblk hbm hb hclear hlow hgroups
    have hgd : ∃ gdb, luci_get_group_desc st.sbi g = some gdb := by
      unfold inode_bitmap_block at hblk
      cases h : luci_get_group_desc st.sbi g with
      | none => simp [h] at hblk
      | some gdb => exact ⟨gdb, rfl⟩
    obtain ⟨gdb, hgdb⟩ := hgd
    have hsplit : st.sbi.s_groups_count = g + (st.sbi.s_groups_count - g - 1 + 1) := by omega
    have hskip := new_inode_scan_skip st vfs mode g (st.sbi.s_groups_count - g - 1 + 1) 0
      (fun j _ h2 => hfullgroup j (by omega) (hgroups j (by omega)))
    have hfound := new_inode_scan_found st vfs mode (st.sbi.s_groups_count - g - 1) g blk b bm
      gdb hgdb hblk hbm hb hclear hlow
    have hrun : luci_new_inode st vfs mode =
        new_inode_gotit (set_bitmap st blk (fun n => if n = b then true else bm n)) vfs mode g b
          gdb := by
      unfold luci_new_inode
      rw [hsplit, hskip, Nat.zero_add, hfound]
    rw [hrun, new_inode_gotit_bitmaps, new_inode_gotit_result]
    exact ⟨rfl, rfl⟩
  · intro hall
    unfold luci_new_inode
    exact new_inode_scan_all_full st vfs mode _ 0
      (fun j _ h2 => hfullgroup j (by omega) (hall j (by omega)))

/-- The theorem `luci_new_inode_lowest_group_lowest_bit` at `fs_one_group`:
the block read for the only group has bit 12 as its lowest clear bit. -/
theorem luci_new_inode_lowest_group_lowest_bit_witness :
    (∀ i, i < fs_one_group.sbi.s_groups_count → read_inode_bitmap fs_one_group i ≠ none) ∧
    (luci_new_inode fs_one_group ⟨true⟩ 0x8000).2.bitmaps =
      (fun x =>
        if x = 4 then some (fun n => if n = 12 then true else decide (n < 12 ∨ 32 ≤ n))
        else fs_one_group.bitmaps x) ∧
    (luci_new_inode fs_one_group ⟨true⟩ 0x8000).1 =
      .ok { i_ino := 12, i_mode := 0x8000, i_blocks := 0, i_block_group := 0,
            i_generation := 0 } := by
  have hread : ∀ i, i < fs_one_group.sbi.s_groups_count →
      read_inode_bitmap fs_one_group i ≠ none := by
    intro i hi
    have h0 : i = 0 := by
      have : fs_one_group.sbi.s_groups_count = 1 := rfl
      omega
    subst h0
    intro hnone
    have hsome : (read_inode_bitmap fs_one_group 0).isSome = true := by decide
    rw [hnone] at hsome
    exact absurd hsome (by decide)
  refine ⟨hread, ?_⟩
  exact (luci_new_inode_lowest_group_lowest_bit fs_one_group ⟨true⟩ 0x8000 hread).1 0 4
    (fun n => decide (n < 12 ∨ 32 ≤ n)) 12 (by decide) (by decide) (by rfl) (by decide)
    (by decide) (by intro j hj; simp [hj]) (by intro i hi; omega)

/-- C6, as the code has it: in `fs_one_group` the descriptor free-block count
(the sum `__luci_count_free_blocks` computes) and the number of clear bits of
the block bitmap are both 2; `luci_new_block` succeeds (it returns block 14),
after which one clear bit is left but the descriptor count is still 2: the
code decrements `bg_free_inodes_count`, from 20 to 19. -/
theorem luci_new_block_breaks_free_block_accounting :
    __luci_count_free_blocks fs_one_group.sbi = some 2 ∧
    clear_block_bits_upto fs_one_group fs_one_group.sbi.s_groups_count = some 2 ∧
    (luci_new_block fs_one_group inode12).1 = 14 ∧
    __luci_count_free_blocks (luci_new_block fs_one_group inode12).2.2.sbi = some 2 ∧
    clear_block_bits_upto (luci_new_block fs_one_group inode12).2.2
        fs_one_group.sbi.s_groups_count = some 1 ∧
    (luci_get_group_desc (luci_new_block fs_one_group inode12).2.2.sbi 0).map
        (fun g => gdesc_get16 (luci_new_block fs_one_group inode12).2.2.sbi g
          GD_free_inodes_count) = some 19 := by
  decide

/-- C8, as the code has it: `fs_short_device` has 100 blocks in one group
(8192 blocks per group, first data block 1), so the last block of group 0 is
block 99; its descriptor names block 5000 as block bitmap and
`luci_check_descriptors` returns 0 all the same, because for the last group it
takes `first_block + s_blocks_per_group - 1` as upper bound. -/
theorem luci_check_descriptors_accepts_block_past_device :
    luci_check_descriptors (fun _ _ => 0) fs_short_device = some 0 ∧
    (fs_short_device.s_group_desc 0).map (fun bh => get_le32 bh GD_block_bitmap) = some 5000 ∧
    min (luci_group_first_block_no fs_short_device.s_lsb 0 +
          fs_short_device.s_lsb.s_blocks_per_group - 1)
        (fs_short_device.s_lsb.s_blocks_count - 1) = 99 := by
  decide

/-- A 16-bit field reads back what was stored, modulo 2^16. -/
theorem get_le16_put_le16 (b : bytes) (o v : Nat) :
    get_le16 (put_le16 b o v) o = v % 65536 := by
  simp [get_le16, put_le16]
  omega

/-- The four bytes a 32-bit store writes. -/
theorem put_le32_apply (b : bytes) (o v i : Nat) :
    put_le32 b o v i =
      if i = o then v % 256 else if i = o + 1 then v / 256 % 256
      else if i = o + 2 then v / 65536 % 256 else if i = o + 3 then v / 16777216 % 256
      else b i := by
  unfold put_le32 put_le16
  split_ifs <;> first | rfl | omega

/-- A 32-bit field reads back what was stored, modulo 2^32. -/
theorem get_le32_put_le32 (b : bytes) (o v : Nat) :
    get_le32 (put_le32 b o v) o = v % 4294967296 := by
  have h1 : ¬ (o + 1 = o) := by omega
  have h2 : ¬ (o + 2 = o) := by omega
  have h3 : ¬ (o + 2 = o + 1) := by omega
  have h4 : ¬ (o + 2 + 1 = o) := by omega
  have h5 : ¬ (o + 2 + 1 = o + 1) := by omega
  have h6 : ¬ (o + 2 + 1 = o + 2) := by omega
  have h7 : o + 2 + 1 = o + 3 := by omega
  simp only [get_le32, get_le16, put_le32_apply, h1, h2, h3, h4, h5, h6, h7, if_true, if_false]
  omega

/-- A 32-bit store overwrites an earlier store to the same field. -/
theorem put_le32_put_le32 (b : bytes) (o v w : Nat) :
    put_le32 (put_le32 b o v) o w = put_le32 b o w := by
  funext i
  simp only [put_le32_apply]
  split_ifs <;> rfl

/-- A 32-bit store leaves a 16-bit field that does not overlap it as it was. -/
theorem get_le16_put_le32_of_ne (b : bytes) (o v p : Nat) (h : p + 1 < o ∨ o + 3 < p) :
    get_le16 (put_le32 b o v) p = get_le16 b p := by
  have h0 : ¬ (p = o) := by omega
  have h1 : ¬ (p = o + 1) := by omega
  have h2 : ¬ (p = o + 2) := by omega
  have h3 : ¬ (p = o + 3) := by omega
  have h4 : ¬ (p + 1 = o) := by omega
  have h5 : ¬ (p + 1 = o + 2) := by omega
  have h6 : ¬ (p + 1 = o + 3) := by omega
  have h7 : ¬ (p = o + 1 + 1) := by omega
  simp [get_le16, put_le32_apply, h0, h1, h2, h3, h4, h5, h6]

/-- The value of `luci_compute_page_cksum` fits in 32 bits. -/
theorem luci_compute_page_cksum_lt (env : mount_env) (dev : bytes) (bs block off len seed : Nat) :
    luci_compute_page_cksum env dev bs block off len seed < 4294967296 := by
  unfold luci_compute_page_cksum
  exact Nat.mod_lt _ (by norm_num)

/-- The checksum step of `luci_read_superblock` on an image that
`luci_super_update_csum` left, run at the offset `luci_super_update_csum` used. -/
theorem read_super_csum_after_update (env : mount_env) (sb : super_block) :
    read_super_csum env
        { luci_super_update_csum env sb with
          lsb_of := if sb.s_blocksize ≠ BLOCK_SIZE then BLOCK_SIZE % sb.s_blocksize else 0 } =
      (true, (luci_super_update_csum env sb).dev) ∧
    get_le32 (luci_super_update_csum env sb).dev
        (sb.sbh_block * sb.s_blocksize +
          (if sb.s_blocksize ≠ BLOCK_SIZE then BLOCK_SIZE % sb.s_blocksize else 0) + SB_checksum) =
      luci_compute_page_cksum env
        (put_le32 (luci_super_update_csum env sb).dev
          (sb.sbh_block * sb.s_blocksize +
            (if sb.s_blocksize ≠ BLOCK_SIZE then BLOCK_SIZE % sb.s_blocksize else 0) +
            SB_checksum) 0)
        sb.s_blocksize sb.sbh_block
        (if sb.s_blocksize ≠ BLOCK_SIZE then BLOCK_SIZE % sb.s_blocksize else 0) BLOCK_SIZE
        CRC_SEED := by
  generalize hoff : (if sb.s_blocksize ≠ BLOCK_SIZE then BLOCK_SIZE % sb.s_blocksize else 0) = off
  have hlt := luci_compute_page_cksum_lt env
    (put_le32 sb.dev (sb.sbh_block * sb.s_blocksize + off + SB_checksum) 0)
    sb.s_blocksize sb.sbh_block off BLOCK_SIZE CRC_SEED
  have hmod := Nat.mod_eq_of_lt hlt
  constructor
  · simp only [read_super_csum, luci_super_update_csum, lsb_addr, hoff, get_le32_put_le32,
      put_le32_put_le32, hmod]
    by_cases hz : luci_compute_page_cksum env
        (put_le32 sb.dev (sb.sbh_block * sb.s_blocksize + off + SB_checksum) 0)
        sb.s_blocksize sb.sbh_block off BLOCK_SIZE CRC_SEED = 0
    · simp [hz]
    · simp [hz]
  · simp only [luci_super_update_csum, hoff, get_le32_put_le32, put_le32_put_le32, hmod]

/-- The mount returns `-EBADE` when the checksum verification rejects the image. -/
theorem read_super_mount_csum_fail (env : mount_env) (sb : super_block)
    (hcs : (read_super_csum env sb).1 = false) :
    read_super_mount env sb = .ret (-EBADE) { sb with dev := (read_super_csum env sb).2 } := by
  unfold read_super_mount
  simp only [hcs, if_true]

/-- The mount returns `-EINVAL` with the state set to `LUCI_ERROR_FS` when the layout checks fail. -/
theorem read_super_mount_layout_fail (env : mount_env) (sb : super_block) (g : mount_geom)
    (r : Int) (hcs : (read_super_csum env sb).1 = true)
    (hgeom : read_super_geom env
      { sb with dev := (read_super_csum env sb).2, s_sbh := true } = .ok g)
    (hall : (List.range g.s_gdb_count).all
      (fun i => env.bread_ok sb.s_blocksize (sb.sbh_block + i + 1)) = true)
    (hlay : luci_runlayoutchecks env
      { sb with dev := (read_super_csum env sb).2, s_sbh := true, geom := some g,
                s_fs_info := true } g = some r)
    (hr : r ≠ 0) :
    read_super_mount env sb =
      .ret (-EINVAL)
        { sb with
          dev := put_le16 (read_super_csum env sb).2 (lsb_addr sb + SB_state) env.LUCI_ERROR_FS
          s_sbh := true, geom := some g, s_fs_info := true
          s_mount_state := env.LUCI_ERROR_FS } := by
  unfold read_super_mount
  simp only [hcs, hgeom, hall, hlay]
  simp only [Bool.true_eq_false, if_false]
  rw [if_pos hr]
  rfl

/-- A pass through `restart` that accepts the magic number and the block size goes on to the checksum verification. -/
theorem read_super_restart_pass (env : mount_env) (dev : bytes) (fuel bs block_no : Nat)
    (hread : env.bread_ok bs (restart_block_no bs block_no) = true)
    (hmagic : get_le16 dev (lsb_addr (super_block_at dev bs block_no) + SB_magic) =
      LUCI_SUPER_MAGIC)
    (hbs : bs = shl_int BLOCK_SIZE
      (get_le32 dev (lsb_addr (super_block_at dev bs block_no) + SB_log_block_size))) :
    read_super_restart env dev (fuel + 1) bs block_no =
      read_super_mount env
        { super_block_at dev bs block_no with
          s_magic := LUCI_SUPER_MAGIC
          s_mount_state :=
            get_le16 dev (lsb_addr (super_block_at dev bs block_no) + SB_state) } := by
  have hread0 : env.bread_ok bs (super_block_at dev bs block_no).sbh_block = true := hread
  unfold read_super_restart
  simp only [hread0, hmagic, ← hbs]
  simp only [Bool.true_eq_false, if_false, ne_eq, not_true_eq_false]

/-- C9 as stated fails: mounting the blank image `dev_blank` (magic number 0)
returns `-EINVAL` and mounting `dev_image 1` (stored checksum 1, recomputed
checksum 0) returns `-EBADE`, and in both cases the `s_state` field is still
what the device held (0 and 1), not `LUCI_ERROR_FS` (2). -/
theorem luci_read_superblock_state_not_error_counterexample :
    env_plain.LUCI_ERROR_FS = 2 ∧
    mount_outcome (luci_read_superblock env_plain dev_blank 3) = some (-EINVAL, 0, 0) ∧
    mount_outcome (luci_read_superblock env_plain (dev_image 1) 3) = some (-EBADE, 1, 1) := by
  decide

/-- C9 amended: in every pass through `restart` whose super block read
succeeds (`luci_read_superblock` enters the first pass with the device block
size and `block_no = 1`): a magic number other than 0xEF53 makes the mount
return `-EINVAL` with the device image untouched; a non-zero stored checksum
that differs from the recomputed one makes it return `-EBADE`; and when
`luci_check_descriptors` rejects a group descriptor the mount returns `-EINVAL`
after setting `s_state` on the image and `s_mount_state` to `LUCI_ERROR_FS`. -/
theorem luci_read_superblock_failure_state (env : mount_env) (dev : bytes)
    (fuel bs block_no : Nat)
    (hread : env.bread_ok bs (restart_block_no bs block_no) = true) :
    luci_read_superblock env dev (fuel + 1) =
      read_super_restart env dev (fuel + 1) env.min_blocksize 1 ∧
    (get_le16 dev (lsb_addr (super_block_at dev bs block_no) + SB_magic) ≠ LUCI_SUPER_MAGIC →
      ∃ sb, read_super_restart env dev (fuel + 1) bs block_no = .ret (-EINVAL) sb ∧
        sb.dev = dev) ∧
    (get_le16 dev (lsb_addr (super_block_at dev bs block_no) + SB_magic) = LUCI_SUPER_MAGIC →
      bs = shl_int BLOCK_SIZE
        (get_le32 dev (lsb_addr (super_block_at dev bs block_no) + SB_log_block_size)) →
      get_le32 dev (lsb_addr (super_block_at dev bs block_no) + SB_checksum) ≠ 0 →
      get_le32 dev (lsb_addr (super_block_at dev bs block_no) + SB_checksum) ≠
        luci_compute_page_cksum env
          (put_le32 dev (lsb_addr (super_block_at dev bs block_no) + SB_checksum) 0)
          bs (restart_block_no bs block_no) (restart_block_of bs block_no) BLOCK_SIZE CRC_SEED →
      ∃ sb, read_super_restart env dev (fuel + 1) bs block_no = .ret (-EBADE) sb) ∧
    (get_le16 dev (lsb_addr (super_block_at dev bs block_no) + SB_magic) = LUCI_SUPER_MAGIC →
      bs = shl_int BLOCK_SIZE
        (get_le32 dev (lsb_addr (super_block_at dev bs block_no) + SB_log_block_size)) →
      (read_super_csum env (super_block_at dev bs block_no)).1 = true →
      ∀ g r, read_super_geom env (super_block_verified env dev bs block_no) = .ok g →
        (∀ i, i < g.s_gdb_count →
          env.bread_ok bs (restart_block_no bs block_no + i + 1) = true) →
        luci_check_descriptors env.data_cksum
          (sb_info_of (super_block_verified env dev bs block_no) g) = some r →
        r < 0 →
        ∃ sb, read_super_restart env dev (fuel + 1) bs block_no = .ret (-EINVAL) sb ∧
          get_le16 sb.dev (lsb_addr sb + SB_state) = env.LUCI_ERROR_FS % 65536 ∧
          sb.s_mount_state = env.LUCI_ERROR_FS) := by
  have hread0 : env.bread_ok bs (super_block_at dev bs block_no).sbh_block = true := hread
  refine ⟨rfl, ?_, ?_, ?_⟩
  · intro hmagic
    refine ⟨{ super_block_at dev bs block_no with
              s_magic := get_le16 dev (lsb_addr (super_block_at dev bs block_no) + SB_magic) },
            ?_, rfl⟩
    simp only [read_super_restart, hread0]
    simp [hmagic]
  · intro hmagic hbs hnz hne
    have hcs : (read_super_csum env
        { super_block_at dev bs block_no with
          s_magic := LUCI_SUPER_MAGIC
          s_mount_state :=
            get_le16 dev (lsb_addr (super_block_at dev bs block_no) + SB_state) }) =
        (false, put_le32 dev (lsb_addr (super_block_at dev bs block_no) + SB_checksum) 0) := by
      unfold read_super_csum
      have hc : get_le32 dev (lsb_addr (super_block_at dev bs block_no) + SB_checksum) ≠ 0 ∧
          get_le32 dev (lsb_addr (super_block_at dev bs block_no) + SB_checksum) ≠
            luci_compute_page_cksum env
              (put_le32 dev (lsb_addr (super_block_at dev bs block_no) + SB_checksum) 0)
              bs (restart_block_no bs block_no) (restart_block_of bs block_no) BLOCK_SIZE
              CRC_SEED := ⟨hnz, hne⟩
      exact if_pos hc
    rw [read_super_restart_pass env dev fuel bs block_no hread hmagic hbs,
      read_super_mount_csum_fail env _ (by rw [hcs])]
    exact ⟨_, rfl⟩
  · intro hmagic hbs hcs g r hgeom hdesc hchk hr
    have hall : (List.range g.s_gdb_count).all
        (fun i => env.bread_ok bs ((super_block_at dev bs block_no).sbh_block + i + 1)) = true := by
      rw [List.all_eq_true]
      intro i hi
      exact hdesc i (List.mem_range.mp hi)
    have hlayout : luci_runlayoutchecks env
        { super_block_verified env dev bs block_no with geom := some g, s_fs_info := true } g =
        some (-EINVAL) := by
      unfold luci_runlayoutchecks
      have : sb_info_of
          { super_block_verified env dev bs block_no with geom := some g, s_fs_info := true } g =
          sb_info_of (super_block_verified env dev bs block_no) g := rfl
      rw [this, hchk]
      simp [hr]
    have hrun := read_super_mount_layout_fail env
      { super_block_at dev bs block_no with
        s_magic := get_le16 dev (lsb_addr (super_block_at dev bs block_no) + SB_magic)
        s_mount_state := get_le16 dev (lsb_addr (super_block_at dev bs block_no) + SB_state) }
      g (-EINVAL) hcs hgeom hall hlayout (by decide)
    rw [hmagic] at hrun
    rw [read_super_restart_pass env dev fuel bs block_no hread hmagic hbs, hrun]
    exact ⟨_, rfl, get_le16_put_le16 _ _ _, rfl⟩

/-- The theorem `luci_read_superblock_failure_state` at the first pass of a
mount with 1024-byte blocks: over the blank image (bad magic number), over
`dev_image 1` (checksum mismatch) and over `dev_image 0` (the all-zero group
descriptor is rejected, state set to 2). -/
theorem luci_read_superblock_failure_state_witness :
    env_plain.bread_ok 1024 (restart_block_no 1024 1) = true ∧
    (∃ sb, read_super_restart env_plain dev_blank 1 1024 1 = .ret (-EINVAL) sb ∧
      sb.dev = dev_blank) ∧
    (∃ sb, read_super_restart env_plain (dev_image 1) 1 1024 1 = .ret (-EBADE) sb) ∧
    (∃ sb, read_super_restart env_plain (dev_image 0) 1 1024 1 = .ret (-EINVAL) sb ∧
      get_le16 sb.dev (lsb_addr sb + SB_state) = 2 ∧ sb.s_mount_state = 2) := by
  refine ⟨rfl, ?_, ?_, ?_⟩
  · exact (luci_read_superblock_failure_state env_plain dev_blank 0 1024 1 rfl).2.1 (by decide)
  · exact (luci_read_superblock_failure_state env_plain (dev_image 1) 0 1024 1 rfl).2.2.1
      (by decide) (by decide) (by decide) (by decide)
  · obtain ⟨sb, h1, h2, h3⟩ :=
      (luci_read_superblock_failure_state env_plain (dev_image 0) 0 1024 1 rfl).2.2.2
        (by decide) (by decide) (by decide)
        ⟨128, 8, 1024, 1, 0, 8192, 8192, 32, 4, 32, 6, 5, 1, 1⟩ (-1) (by rfl)
        (fun _ _ => rfl) (by decide) (by decide)
    exact ⟨sb, h1, h2.trans (by decide), h3⟩

/-- The image `luci_super_update_csum` leaves is accepted where a mount at the same block size verifies it. -/
theorem update_csum_accepted (env : mount_env) (sb : super_block)
    (hblk : sb.sbh_block = restart_block_no sb.s_blocksize 1) :
    read_super_csum env
        (super_block_at (luci_super_update_csum env sb).dev sb.s_blocksize 1) =
      (true, (luci_super_update_csum env sb).dev) ∧
    get_le32 (luci_super_update_csum env sb).dev
        (lsb_addr (super_block_at (luci_super_update_csum env sb).dev sb.s_blocksize 1) +
          SB_checksum) =
      luci_compute_page_cksum env
        (put_le32 (luci_super_update_csum env sb).dev
          (lsb_addr (super_block_at (luci_super_update_csum env sb).dev sb.s_blocksize 1) +
            SB_checksum) 0)
        sb.s_blocksize (restart_block_no sb.s_blocksize 1) (restart_block_of sb.s_blocksize 1)
        BLOCK_SIZE CRC_SEED := by
  have hof : restart_block_of sb.s_blocksize 1 =
      if sb.s_blocksize ≠ BLOCK_SIZE then BLOCK_SIZE % sb.s_blocksize else 0 := by
    simp [restart_block_of]
  have h := read_super_csum_after_update env sb
  constructor
  · have h1 := h.1
    unfold read_super_csum lsb_addr at h1 ⊢
    unfold super_block_at
    simp only [← hblk, hof]
    exact h1
  · have h2 := h.2
    unfold lsb_addr super_block_at
    simp only [← hblk, hof]
    exact h2

/-- Where the super block buffer is the one a first pass of a mount at that
block size reads (`block_no = 1` adjusted once, the hypothesis `hblk`), the
image `luci_super_update_csum` leaves passes the checksum verification of
`luci_read_superblock` run at that place: the stored checksum equals the
checksum recomputed over the same 1024 bytes with the checksum field zeroed
and seed `~0`.  The images `luci_sync_super` and `luci_free_super` write are
such images.  A mount that went through `restart` with an overwritten
`block_no` reads another place. -/
theorem luci_super_update_csum_round_trip (env : mount_env) (sb : super_block)
    (hblk : sb.sbh_block = restart_block_no sb.s_blocksize 1) :
    (read_super_csum env
        (super_block_at (luci_super_update_csum env sb).dev sb.s_blocksize 1) =
      (true, (luci_super_update_csum env sb).dev) ∧
     get_le32 (luci_super_update_csum env sb).dev
        (lsb_addr (super_block_at (luci_super_update_csum env sb).dev sb.s_blocksize 1) +
          SB_checksum) =
      luci_compute_page_cksum env
        (put_le32 (luci_super_update_csum env sb).dev
          (lsb_addr (super_block_at (luci_super_update_csum env sb).dev sb.s_blocksize 1) +
            SB_checksum) 0)
        sb.s_blocksize (restart_block_no sb.s_blocksize 1) (restart_block_of sb.s_blocksize 1)
        BLOCK_SIZE CRC_SEED) ∧
    (∀ synced, luci_sync_super env sb = some synced →
      read_super_csum env (super_block_at synced.dev sb.s_blocksize 1) = (true, synced.dev)) ∧
    (∀ freed, sb.s_fs_info = true → sb.s_sbh = true → luci_free_super env sb = some freed →
      read_super_csum env (super_block_at freed.dev sb.s_blocksize 1) = (true, freed.dev)) := by
  refine ⟨update_csum_accepted env sb hblk, ?_, ?_⟩
  · intro synced hs
    unfold luci_sync_super at hs
    cases hg : sb.geom with
    | none => simp [hg] at hs
    | some g =>
      simp only [hg] at hs
      split at hs
      · simp at hs
      · rename_i count hc
        simp only [Option.some.injEq] at hs
        subst hs
        exact (update_csum_accepted env
          { sb with dev := put_le32 _ (lsb_addr sb + SB_free_blocks_count) count } hblk).1
  · intro freed hfs hsbh hf
    unfold luci_free_super at hf
    simp only [hfs, Bool.true_eq_false, if_false] at hf
    cases hg : sb.geom with
    | none => simp [hg] at hf
    | some g =>
      simp only [hg] at hf
      split at hf
      · simp at hf
      · rename_i count hc
        simp only [hsbh, if_true, Option.some.injEq] at hf
        subst hf
        exact (update_csum_accepted env
          { sb with dev := put_le32 _ (lsb_addr sb + SB_free_blocks_count) count } hblk).1

/-- The theorem `luci_super_update_csum_round_trip` at a blank device with
1024-byte blocks whose super block buffer is block 1. -/
theorem luci_super_update_csum_round_trip_witness :
    (1 : Nat) = restart_block_no 1024 1 ∧
    read_super_csum env_plain
        (super_block_at
          (luci_super_update_csum env_plain
            { super_block_at dev_blank 1024 1 with s_sbh := true }).dev 1024 1) =
      (true,
        (luci_super_update_csum env_plain
          { super_block_at dev_blank 1024 1 with s_sbh := true }).dev) := by
  exact ⟨rfl, (luci_super_update_csum_round_trip env_plain
    { super_block_at dev_blank 1024 1 with s_sbh := true } rfl).1.1⟩

/-- C16: with a non-zero block size, a truncate to a size that is not below
the current size returns 0 and leaves the whole state as it was: the inode's size and roots, every
buffer, and the record of calls to `luci_free_block` and
`luci_bmap_free_extents` (no block is freed, so no bitmap changes). -/
theorem luci_truncate_grow_is_noop (env : trunc_env) (s : trunc_state) (size : Nat)
    (hbs : 0 < env.s_blocksize) (hsize : s.i_size ≤ size) :
    luci_truncate env s size = some (0, s) := by
  unfold luci_truncate
  rw [if_neg (by omega)]
  have hdiv : (s.i_size + env.s_blocksize - 1) / env.s_blocksize ≤
      (size + env.s_blocksize - 1) / env.s_blocksize :=
    Nat.div_le_div_right (by omega)
  have hnot : ¬ (((size + env.s_blocksize - 1) / env.s_blocksize : Nat) : Int) -
      (((s.i_size + env.s_blocksize - 1) / env.s_blocksize : Nat) : Int) < 0 := by
    omega
  simp only [hnot, if_false]

/-- The theorem `luci_truncate_grow_is_noop` at the file `file4` (4096 bytes)
grown to 5000 bytes. -/
theorem luci_truncate_grow_is_noop_witness :
    0 < env1k.s_blocksize ∧ file4.i_size ≤ 5000 ∧
    luci_truncate env1k file4 5000 = some (0, file4) :=
  ⟨by decide, by decide, luci_truncate_grow_is_noop env1k file4 5000 (by decide) (by decide)⟩

/-- The descriptor pointer `luci_get_group_desc` returns does not depend on
the device image. -/
theorem luci_get_group_desc_sb_info_of (sb1 sb2 : super_block) (g : mount_geom) (i : Nat) :
    luci_get_group_desc (sb_info_of sb1 g) i = luci_get_group_desc (sb_info_of sb2 g) i := by
  unfold luci_get_group_desc sb_info_of
  simp only
  split_ifs <;> rfl

/-- Whether `__luci_count_free_blocks` runs through does not depend on the
device image. -/
theorem count_free_blocks_upto_isSome (sb1 sb2 : super_block) (g : mount_geom) : ∀ n,
    (count_free_blocks_upto (sb_info_of sb1 g) n).isSome = true →
    (count_free_blocks_upto (sb_info_of sb2 g) n).isSome = true := by
  intro n
  induction n with
  | zero => intro _; rfl
  | succ n ih =>
    intro h
    unfold count_free_blocks_upto at h ⊢
    cases h1 : count_free_blocks_upto (sb_info_of sb1 g) n with
    | none => simp [h1] at h
    | some c1 =>
      have h2 := ih (by simp [h1])
      cases h3 : count_free_blocks_upto (sb_info_of sb2 g) n with
      | none => simp [h3] at h2
      | some c2 =>
        rw [h1] at h
        simp only at h ⊢
        rw [luci_get_group_desc_sb_info_of sb2 sb1 g n]
        cases h4 : luci_get_group_desc (sb_info_of sb1 g) n with
        | none => simp [h4] at h
        | some p => simp

/-- The walk of the orphan list changes the device image only. -/
theorem luci_orphan_cleanup_fields (env : mount_env) (sb : super_block) :
    (luci_orphan_cleanup env sb).s_blocksize = sb.s_blocksize ∧
    (luci_orphan_cleanup env sb).sbh_block = sb.sbh_block ∧
    (luci_orphan_cleanup env sb).lsb_of = sb.lsb_of ∧
    (luci_orphan_cleanup env sb).s_mount_state = sb.s_mount_state ∧
    (luci_orphan_cleanup env sb).s_sbh = sb.s_sbh ∧
    (luci_orphan_cleanup env sb).s_fs_info = sb.s_fs_info ∧
    (luci_orphan_cleanup env sb).geom = sb.geom := by
  unfold luci_orphan_cleanup
  split_ifs <;> exact ⟨rfl, rfl, rfl, rfl, rfl, rfl, rfl⟩

/-- The only error `read_super_geom` fails with is `-EINVAL`. -/
theorem read_super_geom_error (env : mount_env) (sb : super_block) (e : Int)
    (h : read_super_geom env sb = .error e) : e = -EINVAL := by
  unfold read_super_geom at h
  simp only at h
  split_ifs at h <;> (injection h with h; exact h.symm)

/-- What a successful run of `luci_read_superblock` from the checksum
verification on leaves: the location and the mount state it was entered with,
`s_sbh` and `s_fs_info` set, and derived values for which
`__luci_count_free_blocks` ran through. -/
theorem read_super_mount_success (env : mount_env) (sb out : super_block)
    (h : read_super_mount env sb = .ret 0 out) :
    out.s_blocksize = sb.s_blocksize ∧ out.sbh_block = sb.sbh_block ∧
    out.lsb_of = sb.lsb_of ∧ out.s_mount_state = sb.s_mount_state ∧
    out.s_sbh = true ∧ out.s_fs_info = true ∧
    ∃ g, out.geom = some g ∧
      (__luci_count_free_blocks (sb_info_of out g)).isSome = true := by
  unfold read_super_mount at h
  simp only at h
  split at h
  · injection h with hc _; exact absurd hc (by decide)
  split at h
  · rename_i e he
    injection h with hc _
    rw [read_super_geom_error _ _ _ he] at hc
    exact absurd hc (by decide)
  rename_i g hg
  split at h
  · injection h with hc _; exact absurd hc (by decide)
  split at h
  · exact absurd h (by simp)
  split at h
  · injection h with hc _; exact absurd hc (by decide)
  split at h
  · injection h with hc _; exact absurd hc (by decide)
  split at h
  · exact absurd h (by simp)
  rename_i count hcount
  injection h with _ hsb
  subst hsb
  have hf := luci_orphan_cleanup_fields env
    { dev := put_le32 (put_le32 (put_le32
          (le16_add_cpu (read_super_csum env sb).2 (lsb_addr sb + SB_mnt_count) 1)
          (lsb_addr sb + SB_wtime) env.seconds) (lsb_addr sb + SB_mtime) env.seconds)
        (lsb_addr sb + SB_free_blocks_count) count,
      s_blocksize := sb.s_blocksize, s_magic := sb.s_magic, sbh_block := sb.sbh_block,
      lsb_of := sb.lsb_of, s_mount_state := sb.s_mount_state, s_sbh := true, geom := some g,
      s_fs_info := true, s_freeblocks_counter := sb.s_freeblocks_counter }
  obtain ⟨f1, f2, f3, f4, f5, f6, f7⟩ := hf
  refine ⟨f1, f2, f3, f4, f5, f6, g, f7, ?_⟩
  have hc : count_free_blocks_upto _ g.s_groups_count = some count := hcount
  exact count_free_blocks_upto_isSome _ _ g g.s_groups_count (congrArg Option.isSome hc)

/-- A successful mount ends in a pass through `restart` that accepted the
magic number and the block size at the location it read. -/
theorem read_super_restart_success (env : mount_env) (dev : bytes) : ∀ fuel bs block_no out,
    read_super_restart env dev fuel bs block_no = .ret 0 out →
    ∃ bs1 block_no1,
      bs1 = shl_int BLOCK_SIZE
        (get_le32 dev (lsb_addr (super_block_at dev bs1 block_no1) + SB_log_block_size)) ∧
      read_super_mount env
        { super_block_at dev bs1 block_no1 with
          s_magic := LUCI_SUPER_MAGIC
          s_mount_state :=
            get_le16 dev (lsb_addr (super_block_at dev bs1 block_no1) + SB_state) } =
        .ret 0 out := by
  intro fuel
  induction fuel with
  | zero => intro bs block_no out h; exact absurd h (by simp [read_super_restart])
  | succ fuel ih =>
    intro bs block_no out h
    unfold read_super_restart at h
    simp only at h
    split at h
    · injection h with hc _; exact absurd hc (by decide)
    split at h
    · injection h with hc _; exact absurd hc (by decide)
    rename_i hmagic
    split at h
    · rename_i hbs
      split at h
      · injection h with hc _; exact absurd hc (by decide)
      · exact ih _ _ _ h
    · rename_i hbs
      refine ⟨bs, block_no, not_not.mp hbs, ?_⟩
      rw [not_not.mp hmagic] at h
      exact h

/-- A 16-bit store leaves a 16-bit field that does not overlap it as it was. -/
theorem get_le16_put_le16_of_ne (b : bytes) (o v p : Nat) (h : p + 1 < o ∨ o + 1 < p) :
    get_le16 (put_le16 b o v) p = get_le16 b p := by
  have h0 : ¬ (p = o) := by omega
  have h1 : ¬ (p = o + 1) := by omega
  have h2 : ¬ (p + 1 = o) := by omega
  have h3 : ¬ (p + 1 = o + 1) := by omega
  simp [get_le16, put_le16, h0, h1, h2, h3]

/-- The state field `luci_free_super` leaves on the device of a mounted file
system whose super block sits at a multiple of 1024 bytes in its buffer. -/
theorem luci_free_super_state (env : mount_env) (sb : super_block) (g : mount_geom)
    (hinfo : sb.s_fs_info = true) (hsbh : sb.s_sbh = true) (hg : sb.geom = some g)
    (hcnt : (__luci_count_free_blocks (sb_info_of sb g)).isSome = true)
    (hof : sb.lsb_of % 1024 = 0) (hbs : sb.s_blocksize % 1024 = 0) :
    ∃ out, luci_free_super env sb = some out ∧
      get_le16 out.dev (lsb_addr sb + SB_state) = sb.s_mount_state % 65536 := by
  cases hc : __luci_count_free_blocks (sb_info_of sb g) with
  | none => rw [hc] at hcnt; exact absurd hcnt (by simp)
  | some count =>
    have hfs : luci_free_super env sb = some
        { luci_super_update_csum env
            { sb with
              dev := put_le32 (put_le32 (put_le32
                (put_le16 sb.dev (lsb_addr sb + SB_state) sb.s_mount_state)
                (lsb_addr sb + SB_wtime) env.seconds) (lsb_addr sb + SB_mtime) env.seconds)
                (lsb_addr sb + SB_free_blocks_count) count } with
          s_sbh := false, s_fs_info := false } := by
      unfold luci_free_super
      rw [if_neg (by simp [hinfo])]
      simp only [hg, hc, hsbh, if_true]
    refine ⟨_, hfs, ?_⟩
    · have hoff : (if sb.s_blocksize ≠ BLOCK_SIZE then BLOCK_SIZE % sb.s_blocksize else 0)
          % 1024 = 0 := by
        split_ifs
        · unfold BLOCK_SIZE
          rcases Nat.eq_zero_or_pos sb.s_blocksize with h0 | hpos
          · rw [h0]
          · have hle : 1024 ≤ sb.s_blocksize := Nat.le_of_dvd hpos (Nat.dvd_of_mod_eq_zero hbs)
            rcases Nat.lt_or_ge 1024 sb.s_blocksize with hlt | hge
            · rw [Nat.mod_eq_of_lt hlt]
            · have : sb.s_blocksize = 1024 := by omega
              rw [this]
        · rfl
      simp only [luci_super_update_csum]
      generalize (if sb.s_blocksize ≠ BLOCK_SIZE then BLOCK_SIZE % sb.s_blocksize else 0) = off
        at hoff ⊢
      have hdis : ∀ p : Nat, p = lsb_addr sb + SB_state →
          (p + 1 < sb.sbh_block * sb.s_blocksize + off + SB_checksum ∨
           sb.sbh_block * sb.s_blocksize + off + SB_checksum + 3 < p) := by
        intro p hp
        unfold lsb_addr SB_state at hp
        unfold SB_checksum
        omega
      rw [get_le16_put_le32_of_ne _ _ _ _ (hdis _ rfl),
        get_le16_put_le32_of_ne _ _ _ _ (hdis _ rfl),
        get_le16_put_le32_of_ne _ _ _ _ (by unfold SB_state SB_free_blocks_count; omega),
        get_le16_put_le32_of_ne _ _ _ _ (by unfold SB_state SB_mtime; omega),
        get_le16_put_le32_of_ne _ _ _ _ (by unfold SB_state SB_wtime; omega),
        get_le16_put_le16]

/-- A 16-bit field is below 2^16. -/
theorem get_le16_lt (b : bytes) (o : Nat) : get_le16 b o < 65536 := by
  unfold get_le16
  omega

/-- The offset `restart` computes inside the super block buffer is a multiple
of 1024 when the block size is. -/
theorem restart_block_of_mod (bs block_no : Nat) (hbs : bs % 1024 = 0) :
    restart_block_of bs block_no % 1024 = 0 := by
  unfold restart_block_of BLOCK_SIZE
  split_ifs
  · rw [Nat.mod_mod_of_dvd _ (Nat.dvd_of_mod_eq_zero hbs)]
    exact Nat.mul_mod_left _ _
  · rfl

/-- The block size `BLOCK_SIZE << s_log_block_size` is a multiple of 1024. -/
theorem shl_int_BLOCK_SIZE_mod (n : Nat) : shl_int BLOCK_SIZE n % 1024 = 0 := by
  have hv : (BLOCK_SIZE <<< (n % 32)) % 2 ^ 32 % 1024 = 0 := by
    rw [Nat.shiftLeft_eq, Nat.mod_mod_of_dvd _ (by norm_num : 1024 ∣ 2 ^ 32)]
    unfold BLOCK_SIZE
    exact Nat.mul_mod_right _ _
  unfold shl_int
  simp only
  split_ifs
  · exact hv
  · omega

/-- C11 as stated fails: `dev_mountable s` mounts (return value 0) for the
states 0 (unclean) and 2 (`LUCI_ERROR_FS`), and the `s_state` field
`luci_free_super` then writes is again 0 and 2, not `LUCI_VALID_FS` (1). -/
theorem luci_free_super_state_not_valid_counterexample :
    env_plain.LUCI_VALID_FS = 1 ∧
    unmount_state env_plain (luci_read_superblock env_plain (dev_mountable 0) 3) =
      some (0, 0) ∧
    unmount_state env_plain (luci_read_superblock env_plain (dev_mountable 2) 3) =
      some (0, 2) := by
  decide

/-- C11 amended: when `luci_read_superblock` returns 0, `sbi->s_mount_state` is
the `s_state` field the device image held at mount, and `luci_free_super`, run
later with whatever the device image and the clock have become, completes and
leaves exactly that value in the `s_state` field of the super block: the state
at mount is restored, so the field is `LUCI_VALID_FS` after the unmount when it
was `LUCI_VALID_FS` at mount. -/
theorem luci_free_super_restores_mount_state (env : mount_env) (dev : bytes) (fuel : Nat)
    (sb : super_block) (h : luci_read_superblock env dev fuel = .ret 0 sb)
    (env2 : mount_env) (dev2 : bytes) :
    sb.s_mount_state = get_le16 dev (lsb_addr sb + SB_state) ∧
    ∃ out, luci_free_super env2 { sb with dev := dev2 } = some out ∧
      get_le16 out.dev (lsb_addr sb + SB_state) = get_le16 dev (lsb_addr sb + SB_state) := by
  obtain ⟨bs1, block_no1, hbs, hm⟩ := read_super_restart_success env dev _ _ _ _ h
  obtain ⟨h1, h2, h3, h4, h5, h6, g, hg, hcnt⟩ := read_super_mount_success env _ _ hm
  simp only at h1 h2 h3 h4
  have haddr : lsb_addr sb = lsb_addr (super_block_at dev bs1 block_no1) := by
    unfold lsb_addr
    rw [h1, h2, h3]
  have hstate : sb.s_mount_state = get_le16 dev (lsb_addr sb + SB_state) := by
    rw [h4, haddr]
  have hb1 : bs1 % 1024 = 0 := by
    rw [hbs]
    exact shl_int_BLOCK_SIZE_mod _
  have hbsmod : sb.s_blocksize % 1024 = 0 := by
    rw [h1]
    exact hb1
  have hof : sb.lsb_of % 1024 = 0 := by
    rw [h3]
    exact restart_block_of_mod _ _ hb1
  refine ⟨hstate, ?_⟩
  obtain ⟨out, ho1, ho2⟩ := luci_free_super_state env2 { sb with dev := dev2 } g h6 h5 hg
    (count_free_blocks_upto_isSome sb _ g g.s_groups_count hcnt) hof hbsmod
  refine ⟨out, ho1, ?_⟩
  have ho3 : get_le16 out.dev (lsb_addr sb + SB_state) = sb.s_mount_state % 65536 := ho2
  rw [ho3, hstate]
  exact Nat.mod_eq_of_lt (get_le16_lt _ _)

/-- The theorem `luci_free_super_restores_mount_state` at the file system
mounted from `dev_mountable 1` and unmounted over the same image. -/
theorem luci_free_super_restores_mount_state_witness :
    luci_read_superblock env_plain (dev_mountable 1) 3 = .ret 0 sb_mounted_valid ∧
    sb_mounted_valid.s_mount_state = env_plain.LUCI_VALID_FS ∧
    ∃ out, luci_free_super env_plain { sb_mounted_valid with dev := dev_mountable 1 } =
        some out ∧
      get_le16 out.dev (lsb_addr sb_mounted_valid + SB_state) = env_plain.LUCI_VALID_FS := by
  have h := luci_free_super_restores_mount_state env_plain (dev_mountable 1) 3
    sb_mounted_valid rfl env_plain (dev_mountable 1)
  obtain ⟨h1, out, h2, h3⟩ := h
  exact ⟨rfl, h1.trans (by decide), out, h2, h3.trans (by decide)⟩

/-- The block pointers the uncompressed path builds. -/
theorem fill_bp_array_uncompressed (cfg : extent_cfg) (w : extent_write_work) (total_out : Nat)
    (crc32 : Nat → Nat) (crc32_extent : Nat) :
    (fill_bp_array cfg w false total_out crc32 crc32_extent).length = cfg.EXTENT_NRBLOCKS_MAX ∧
    ∀ bp ∈ fill_bp_array cfg w false total_out crc32 crc32_extent,
      bp.flags = 0 ∧ bp.length = 0 := by
  unfold fill_bp_array
  refine ⟨by simp, ?_⟩
  intro bp hbp
  obtain ⟨i, _, hi⟩ := List.mem_map.mp hbp
  subst hi
  exact ⟨rfl, rfl⟩

/-- The block pointers the compressed path builds. -/
theorem fill_bp_array_compressed (cfg : extent_cfg) (w : extent_write_work) (total_out : Nat)
    (crc32 : Nat → Nat) (crc32_extent : Nat) :
    (fill_bp_array cfg w true total_out crc32 crc32_extent).length = cfg.EXTENT_NRBLOCKS_MAX ∧
    ∀ bp ∈ fill_bp_array cfg w true total_out crc32 crc32_extent,
      bp.blockno = w.start_compr_block % 2 ^ 32 ∧ bp.length = total_out % 2 ^ 16 ∧
      bp.checksum = crc32_extent % 2 ^ 32 ∧ bp.flags = cfg.LUCI_COMPR_FLAG % 2 ^ 16 := by
  unfold fill_bp_array
  refine ⟨by simp, ?_⟩
  intro bp hbp
  obtain ⟨i, _, hi⟩ := List.mem_map.mp hbp
  subst hi
  exact ⟨rfl, rfl, rfl, rfl⟩

/-- The label `notcompressible` leads to a `BUG` or to an uncompressed
submission. -/
theorem extent_write_notcompressible_cases (cfg : extent_cfg) (w : extent_write_work) :
    extent_write_notcompressible cfg w = .bug ∨
    extent_write_notcompressible cfg w =
      .submitted false ((cfg.EXTENT_SIZE + cfg.block_size - 1) >>> ilog2 cfg.block_size)
        (fill_bp_array cfg w false cfg.EXTENT_SIZE
          (fun i => if i < cfg.EXTENT_NRPAGE then w.page_cksum i else 0) 0)
        w.bmap_delta cfg.EXTENT_SIZE (w.start_compr_block * cfg.block_size) := by
  unfold extent_write_notcompressible extent_write_blocks
  simp only
  split_ifs
  · exact Or.inl rfl
  · exact Or.inl rfl
  · exact Or.inl rfl
  · exact Or.inr rfl

/-- The label `notcompressible` leads to an uncompressed submission when no
`BUG` or `panic` fires. -/
theorem extent_write_notcompressible_ok (cfg : extent_cfg) (w : extent_write_work)
    (hcrc : cfg.EXTENT_NRPAGE ≤ cfg.EXTENT_NRBLOCKS_MAX)
    (hnew : 0 ≤ w.new_block_ret) (hbio : w.bio_err = false) :
    extent_write_notcompressible cfg w =
      .submitted false ((cfg.EXTENT_SIZE + cfg.block_size - 1) >>> ilog2 cfg.block_size)
        (fill_bp_array cfg w false cfg.EXTENT_SIZE
          (fun i => if i < cfg.EXTENT_NRPAGE then w.page_cksum i else 0) 0)
        w.bmap_delta cfg.EXTENT_SIZE (w.start_compr_block * cfg.block_size) := by
  unfold extent_write_notcompressible extent_write_blocks
  simp only
  rw [if_neg (by omega), if_neg (by omega), hbio]
  rfl

/-- A work item whose extent number is below `LUCI_NDIR_BLOCKS` is handled from
the label `notcompressible` on, unless one of the two `BUG_ON`s at the top
fires. -/
theorem compress_extent_direct_path (cfg : extent_cfg) (w : extent_write_work)
    (hext : cfg.luci_extent_no w.page_index < LUCI_NDIR_BLOCKS) :
    __luci_compress_extent_and_write cfg w = .bug ∨
    (w.has_buffers = false ∧ w.pagevec_count = cfg.EXTENT_NRPAGE ∧
      __luci_compress_extent_and_write cfg w = extent_write_notcompressible cfg w) := by
  have hmod : cfg.luci_extent_no w.page_index % 2 ^ 32 < LUCI_NDIR_BLOCKS :=
    lt_of_le_of_lt (Nat.mod_le _ _) hext
  unfold __luci_compress_extent_and_write
  simp only
  by_cases hbuf : w.has_buffers = true
  · rw [if_pos hbuf]; exact Or.inl rfl
  · rw [if_neg hbuf]
    by_cases hvec : w.pagevec_count = cfg.EXTENT_NRPAGE
    · rw [if_neg (not_not.mpr hvec)]
      refine Or.inr ⟨by simpa using hbuf, hvec, ?_⟩
      split_ifs <;> rfl
    · rw [if_pos hvec]; exact Or.inl rfl

/-- C12: a work item whose extent number is below `LUCI_NDIR_BLOCKS` (2) is
never compressed.  When no `BUG_ON` fires and the allocation does not panic,
`__luci_compress_extent_and_write` submits the cluster uncompressed, with
`EXTENT_NRBLOCKS_MAX` block pointers that all have `flags = 0` and
`length = 0`; whenever it submits such a cluster at all, it is uncompressed
with such block pointers; and with the spec's numbering `extent_no(L) = L / n`
for a cluster of `n ≥ 1` blocks, the logical blocks 0 and 1 have an extent
number below 2. -/
theorem compress_extent_direct_never_compressed (cfg : extent_cfg) (w : extent_write_work)
    (hext : cfg.luci_extent_no w.page_index < LUCI_NDIR_BLOCKS) :
    (w.has_buffers = false → w.pagevec_count = cfg.EXTENT_NRPAGE →
      cfg.EXTENT_NRPAGE ≤ cfg.EXTENT_NRBLOCKS_MAX → 0 ≤ w.new_block_ret →
      w.bio_err = false →
      ∃ bps, __luci_compress_extent_and_write cfg w =
          .submitted false ((cfg.EXTENT_SIZE + cfg.block_size - 1) >>> ilog2 cfg.block_size)
            bps w.bmap_delta cfg.EXTENT_SIZE (w.start_compr_block * cfg.block_size) ∧
        bps.length = cfg.EXTENT_NRBLOCKS_MAX ∧
        ∀ bp ∈ bps, bp.flags = 0 ∧ bp.length = 0) ∧
    (∀ c n bps d t s, __luci_compress_extent_and_write cfg w = .submitted c n bps d t s →
      c = false ∧ ∀ bp ∈ bps, bp.flags = 0 ∧ bp.length = 0) ∧
    (∀ n L, 1 ≤ n → L < LUCI_NDIR_BLOCKS → extent_no n L < LUCI_NDIR_BLOCKS) := by
  refine ⟨?_, ?_, ?_⟩
  · intro hbuf hvec hcrc hnew hbio
    rcases compress_extent_direct_path cfg w hext with h | ⟨_, _, h⟩
    · exfalso
      unfold __luci_compress_extent_and_write at h
      simp only at h
      rw [if_neg (by simp [hbuf]), if_neg (not_not.mpr hvec)] at h
      have hmod : cfg.luci_extent_no w.page_index % 2 ^ 32 < LUCI_NDIR_BLOCKS :=
        lt_of_le_of_lt (Nat.mod_le _ _) hext
      have hnc := extent_write_notcompressible_ok cfg w hcrc hnew hbio
      split_ifs at h
      · rw [hnc] at h; exact absurd h (by simp)
      · rw [hnc] at h; exact absurd h (by simp)
    · rw [h, extent_write_notcompressible_ok cfg w hcrc hnew hbio]
      exact ⟨_, rfl, fill_bp_array_uncompressed cfg w _ _ _⟩
  · intro c n bps d t s hs
    rcases compress_extent_direct_path cfg w hext with h | ⟨_, _, h⟩
    · rw [h] at hs; exact absurd hs (by simp)
    · rw [h] at hs
      rcases extent_write_notcompressible_cases cfg w with hb | hb
      · rw [hb] at hs; exact absurd hs (by simp)
      · rw [hb] at hs
        injection hs with hc _ hbps _ _ _
        subst hc hbps
        exact ⟨rfl, (fill_bp_array_uncompressed cfg w _ _ _).2⟩
  · intro n L hn hL
    unfold extent_no
    exact lt_of_le_of_lt (Nat.div_le_self L n) hL

/-- The theorem `compress_extent_direct_never_compressed` at the cluster of
page 4 (extent 1) of `cfg4k`, a cluster that would compress: it is submitted
uncompressed. -/
theorem compress_extent_direct_never_compressed_witness :
    cfg4k.luci_extent_no (work_at 4).page_index < LUCI_NDIR_BLOCKS ∧
    ∃ bps, __luci_compress_extent_and_write cfg4k (work_at 4) =
        .submitted false 4 bps 3000 16384 2048000 ∧
      bps.length = 4 ∧ ∀ bp ∈ bps, bp.flags = 0 ∧ bp.length = 0 :=
  ⟨by decide,
   (compress_extent_direct_never_compressed cfg4k (work_at 4) (by decide)).1
     rfl rfl (by decide) (by decide) rfl⟩

/-- C13 as stated fails: for the cluster of page 8 of `cfg4k`, which
compresses to 3000 bytes with checksum 7 into the run at block 500, the four
records handed to `luci_bmap_update_extent_bp` agree in `blockno`, `length`,
`checksum` and `flags`, but their `birth` fields are 0, 1, 2 and 3: what the
stack held, since `bp_reset` does not write that field. -/
theorem compress_extent_birth_differs_counterexample :
    __luci_compress_extent_and_write cfg4k (work_at 8) =
      .submitted true 1
        [⟨500, 3000, 7, 0, 1⟩, ⟨500, 3000, 7, 1, 1⟩, ⟨500, 3000, 7, 2, 1⟩, ⟨500, 3000, 7, 3, 1⟩]
        3000 3000 2048000 := by
  decide

/-- C13 amended: whenever `__luci_compress_extent_and_write` takes the
compressed path (no buffers on the first page, a full page vector, the
heuristics pass, extent number at least 2, a compression context, a compression
that succeeds with at least one page, an allocation that does not panic and a
request that can be built), it hands `EXTENT_NRBLOCKS_MAX` records to
`luci_bmap_update_extent_bp` that are equal in the four fields `bp_reset`
writes: for a start block, a byte count and a flag that fit their fields,
`blockno` is the start of the allocated run, `length` the compressed byte
count, `checksum` the checksum of the compressed pages and `flags` is
`LUCI_COMPR_FLAG`. -/
theorem compress_extent_cluster_uniform (cfg : extent_cfg) (w : extent_write_work)
    (hbuf : w.has_buffers = false) (hvec : w.pagevec_count = cfg.EXTENT_NRPAGE)
    (hheur : cfg.LUCI_COMPRESSION_HEURISTICS = true → w.can_compress = true)
    (hext : LUCI_NDIR_BLOCKS ≤ cfg.luci_extent_no w.page_index % 2 ^ 32)
    (hws : w.ws_err = false) (hcomp : w.compress_err = 0) (hout : w.nr_pages_out ≠ 0)
    (hnew : 0 ≤ w.new_block_ret) (hbio : w.bio_err = false)
    (hblk : w.start_compr_block < 2 ^ 32) (hlen : w.total_out < 2 ^ 16)
    (hflag : cfg.LUCI_COMPR_FLAG < 2 ^ 16) :
    ∃ bps, __luci_compress_extent_and_write cfg w =
        .submitted true ((w.total_out + cfg.block_size - 1) >>> ilog2 cfg.block_size) bps
          w.bmap_delta w.total_out (w.start_compr_block * cfg.block_size) ∧
      bps.length = cfg.EXTENT_NRBLOCKS_MAX ∧
      ∀ bp ∈ bps,
        bp.blockno = w.start_compr_block ∧ bp.length = w.total_out ∧
        bp.checksum = w.pages_cksum % 2 ^ 32 ∧ bp.flags = cfg.LUCI_COMPR_FLAG ∧
        bp.flags &&& cfg.LUCI_COMPR_FLAG = cfg.LUCI_COMPR_FLAG := by
  have hfill := fill_bp_array_compressed cfg w w.total_out (fun _ => 0) w.pages_cksum
  refine ⟨fill_bp_array cfg w true w.total_out (fun _ => 0) w.pages_cksum, ?_, hfill.1, ?_⟩
  · have hh : (cfg.LUCI_COMPRESSION_HEURISTICS && !w.can_compress) = false := by
      cases hc : cfg.LUCI_COMPRESSION_HEURISTICS
      · rfl
      · rw [hheur hc]; rfl
    unfold __luci_compress_extent_and_write
    simp only
    rw [if_neg (by simp [hbuf]), if_neg (not_not.mpr hvec), hh, if_neg (by simp),
      if_neg (by omega), if_neg (by simp [hws]), if_pos hcomp, if_neg hout]
    unfold extent_write_blocks
    simp only
    rw [if_neg (by omega), hbio]
    rfl
  · intro bp hbp
    obtain ⟨h1, h2, h3, h4⟩ := hfill.2 bp hbp
    rw [Nat.mod_eq_of_lt hblk] at h1
    rw [Nat.mod_eq_of_lt hlen] at h2
    rw [Nat.mod_eq_of_lt hflag] at h4
    exact ⟨h1, h2, h3, h4, by rw [h4, Nat.and_self]⟩

/-- The theorem `compress_extent_cluster_uniform` at the cluster of page 8
(extent 2) of `cfg4k`. -/
theorem compress_extent_cluster_uniform_witness :
    ∃ bps, __luci_compress_extent_and_write cfg4k (work_at 8) =
        .submitted true 1 bps 3000 3000 2048000 ∧
      bps.length = 4 ∧
      ∀ bp ∈ bps, bp.blockno = 500 ∧ bp.length = 3000 ∧ bp.checksum = 7 ∧ bp.flags = 1 ∧
        bp.flags &&& 1 = 1 :=
  compress_extent_cluster_uniform cfg4k (work_at 8) rfl rfl (by decide) (by decide) rfl rfl
    (by decide) (by decide) rfl (by decide) (by decide) (by decide)

/-- C14, as the code has it: truncating the six-block file `clustered6` to
five blocks (5120 bytes, the new size falls inside the cluster) returns 0 and
clears entry 3 of the leaf block 100 only; the entries 0, 1 and 2 of the
cluster keep the compressed record, whose run has been handed to
`luci_bmap_free_extents` once, and no block went to `luci_free_block`. -/
theorem luci_truncate_clears_part_of_cluster :
    (List.range 4).map (buf_entry clustered6 100) =
      [⟨200, 3000, 7, 0, 1⟩, ⟨200, 3000, 7, 0, 1⟩, ⟨200, 3000, 7, 0, 1⟩, ⟨200, 3000, 7, 0, 1⟩] ∧
    (luci_truncate env1k clustered6 5120).map
        (fun r => (r.1, r.2.i_size, (List.range 4).map (buf_entry r.2 100))) =
      some (0, 5120,
        [⟨200, 3000, 7, 0, 1⟩, ⟨200, 3000, 7, 0, 1⟩, ⟨200, 3000, 7, 0, 1⟩, blkptr_zero]) ∧
    (luci_truncate env1k clustered6 5120).map
        (fun r => (r.2.free_extents_calls, r.2.free_block_calls)) =
      some ([[⟨200, 3000, 7, 0, 1⟩]], []) := by
  decide

/-- A walk that keeps the count and the size shrinks trivially. -/
theorem shrinks_of_eq (env : trunc_env) (w0 w1 : walk) (h0 : 0 ≤ w0.delta)
    (hd : w1.delta = w0.delta) (hs : w1.st.i_size = w0.st.i_size) : shrinks env w0 w1 := by
  refine ⟨by omega, by omega, ?_⟩
  rw [hd, hs]
  simp

/-- Two walk segments compose. -/
theorem shrinks_trans (env : trunc_env) (w0 w1 w2 : walk) (h1 : shrinks env w0 w1)
    (h2 : shrinks env w1 w2) : shrinks env w0 w2 := by
  obtain ⟨a1, b1, c1⟩ := h1
  obtain ⟨a2, b2, c2⟩ := h2
  refine ⟨a2, by omega, ?_⟩
  rw [c2, c1, Nat.sub_sub, ← Nat.add_mul]
  congr 2
  omega

/-- A segment followed by a step that keeps the count and the size. -/
theorem shrinks_step (env : trunc_env) (w0 w1 w2 : walk) (h1 : shrinks env w0 w1)
    (hd : w2.delta = w1.delta) (hs : w2.st.i_size = w1.st.i_size) : shrinks env w0 w2 :=
  shrinks_trans env w0 w1 w2 h1 (shrinks_of_eq env w1 w2 h1.1 hd hs)

/-- The size `luci_dec_size(inode, 1)` leaves. -/
theorem luci_dec_size_one (env : trunc_env) (s s1 : trunc_state)
    (h : luci_dec_size env s 1 = some s1) : s1.i_size = s.i_size - env.chunk_size := by
  unfold luci_dec_size at h
  simp only [Nat.one_mul] at h
  split_ifs at h <;> injection h with h <;> subst h <;>
    first | rfl | (show 0 = s.i_size - env.chunk_size; omega)

/-- One leaf: the count goes down by one and the size by one chunk. -/
theorem shrinks_leaf (env : trunc_env) (w : walk) (s0 s1 : trunc_state) (ext : List blkptr)
    (hpos : 0 < w.delta) (hs0 : s0.i_size = w.st.i_size)
    (h : luci_dec_size env s0 1 = some s1) :
    shrinks env w { st := s1, delta := w.delta - 1, extents := ext } := by
  refine ⟨by simp only; omega, by simp only; omega, ?_⟩
  simp only
  rw [luci_dec_size_one env s0 s1 h, hs0]
  have : (w.delta - (w.delta - 1)).toNat = 1 := by
    have : w.delta - (w.delta - 1) = 1 := by omega
    rw [this]; rfl
  rw [this, Nat.one_mul]

/-- The walk below one entry shrinks, at every depth. -/
theorem luci_free_branch_shrinks (env : trunc_env) : ∀ depth bp w err w1,
    0 < w.delta → luci_free_branch env depth bp w = some (err, w1) → shrinks env w w1 := by
  intro depth
  induction depth with
  | zero =>
    intro bp w err w1 hpos h
    unfold luci_free_branch at h
    simp only at h
    split at h
    · split at h
      · exact absurd h (by simp)
      · rename_i s1 hs1
        injection h with h; injection h with _ h; subst h
        exact shrinks_leaf env w _ _ _ hpos rfl hs1
    · split at h
      · injection h with h; injection h with _ h; subst h
        exact shrinks_of_eq env _ _ (le_of_lt hpos) rfl rfl
      · split at h
        · exact absurd h (by simp)
        · rename_i s1 hs1
          injection h with h; injection h with _ h; subst h
          exact shrinks_leaf env w (luci_free_block env w.st (bp.load w.st).blockno).2 s1 _
            hpos rfl hs1
  | succ depth ih =>
    intro bp w err w1 hpos h
    have hloop : ∀ block k nr (w0 : walk) e, 0 ≤ w0.delta →
        free_branch_loop (luci_free_branch env depth) block k nr w0 = some e →
        (∀ nr1 wf, e = .fell nr1 wf → shrinks env w0 wf) ∧
        (∀ er wf, e = .out er wf → shrinks env w0 wf) := by
      intro block k
      induction k with
      | zero =>
        intro nr w0 e h0 he
        unfold free_branch_loop at he
        injection he with he; subst he
        refine ⟨?_, ?_⟩
        · intro nr1 wf hf; injection hf with _ hf; subst hf
          exact shrinks_of_eq env _ _ h0 rfl rfl
        · intro er wf hf; exact absurd hf (by simp)
      | succ k ihk =>
        intro nr w0 e h0 he
        unfold free_branch_loop at he
        split at he
        · injection he with he; subst he
          refine ⟨?_, ?_⟩
          · intro nr1 wf hf; injection hf with _ hf; subst hf
            exact shrinks_of_eq env _ _ h0 rfl rfl
          · intro er wf hf; exact absurd hf (by simp)
        rename_i hne
        split at he
        · exact absurd he (by simp)
        split at he
        · exact ihk _ _ _ h0 he
        split at he
        · exact absurd he (by simp)
        rename_i er1 wc hchild
        have hc := ih _ _ _ _ (by omega) hchild
        split at he
        · injection he with he; subst he
          refine ⟨?_, ?_⟩
          · intro nr1 wf hf; exact absurd hf (by simp)
          · intro er wf hf; injection hf with _ hf; subst hf; exact hc
        · have hrest := ihk _ { wc with st := clear_entry wc.st block k } _ hc.1 he
          have hstep : shrinks env w0 { wc with st := clear_entry wc.st block k } :=
            shrinks_step env _ _ _ hc rfl rfl
          exact ⟨fun nr1 wf hf => shrinks_trans env _ _ _ hstep (hrest.1 nr1 wf hf),
            fun er wf hf => shrinks_trans env _ _ _ hstep (hrest.2 er wf hf)⟩
    have htail : ∀ nr (w0 : walk) r, free_branch_tail env bp nr w0 = some r →
        r.2.delta = w0.delta ∧ r.2.st.i_size = w0.st.i_size := by
      intro nr w0 r hr
      unfold free_branch_tail at hr
      split_ifs at hr
      · injection hr with hr; subst hr; exact ⟨rfl, rfl⟩
      · injection hr with hr; subst hr; exact ⟨rfl, rfl⟩
    unfold luci_free_branch at h
    simp only at h
    split at h
    · injection h with h; injection h with _ h; subst h
      exact shrinks_of_eq env _ _ (le_of_lt hpos) rfl rfl
    split at h
    · exact absurd h (by simp)
    split at h
    · exact absurd h (by simp)
    · rename_i er wf hl
      injection h with h; injection h with _ h; subst h
      exact (hloop _ _ _ _ _ (le_of_lt hpos) hl).2 _ _ rfl
    · rename_i nr wf hl
      have hwf := (hloop _ _ _ _ _ (le_of_lt hpos) hl).1 _ _ rfl
      split at h
      · split at h
        · injection h with h; injection h with _ h; subst h
          exact shrinks_step env _ _ _ hwf rfl rfl
        · obtain ⟨hd, hs⟩ := htail _ _ _ h
          exact shrinks_step env _ _ _ hwf hd hs
      · obtain ⟨hd, hs⟩ := htail _ _ _ h
        exact shrinks_step env _ _ _ hwf hd hs

/-- The loop over the direct roots shrinks. -/
theorem free_direct_loop_shrinks (env : trunc_env) : ∀ k (w : walk) r w1,
    0 ≤ w.delta → free_direct_loop env k w = some (r, w1) → shrinks env w w1 := by
  intro k
  induction k with
  | zero =>
    intro w r w1 h0 h
    unfold free_direct_loop at h
    injection h with h; injection h with _ h; subst h
    exact shrinks_of_eq env _ _ h0 rfl rfl
  | succ k ih =>
    intro w r w1 h0 h
    unfold free_direct_loop at h
    simp only at h
    split at h
    · injection h with h; injection h with _ h; subst h
      exact shrinks_of_eq env _ _ h0 rfl rfl
    rename_i hne
    split at h
    · exact ih _ _ _ h0 h
    split at h
    · injection h with h; injection h with _ h; subst h
      exact shrinks_of_eq env _ _ h0 rfl rfl
    split at h
    · exact absurd h (by simp)
    rename_i s1 hs1
    have hleaf := shrinks_leaf env w (luci_free_block env w.st (w.st.i_data k).blockno).2 s1
      w.extents (by omega) rfl hs1
    have hstep : shrinks env w { w with st := clear_root s1 k, delta := w.delta - 1 } :=
      shrinks_step env _ _ _ hleaf rfl rfl
    exact shrinks_trans env _ _ _ hstep (ih _ _ _ hstep.1 h)

/-- The loop over the indirect roots shrinks. -/
theorem free_roots_loop_shrinks (env : trunc_env) : ∀ l (w : walk) r w1,
    0 ≤ w.delta → free_roots_loop env l w = some (r, w1) → shrinks env w w1 := by
  intro l
  induction l with
  | zero =>
    intro w r w1 h0 h
    unfold free_roots_loop at h
    injection h with h; injection h with _ h; subst h
    exact shrinks_of_eq env _ _ h0 rfl rfl
  | succ l ih =>
    intro w r w1 h0 h
    unfold free_roots_loop at h
    simp only at h
    split at h
    · injection h with h; injection h with _ h; subst h
      exact shrinks_of_eq env _ _ h0 rfl rfl
    rename_i hne
    split at h
    · exact ih _ _ _ h0 h
    split at h
    · exact absurd h (by simp)
    rename_i ret wb hb
    have hbr : shrinks env w wb :=
      shrinks_trans env w { w with extents := [] } wb (shrinks_of_eq env _ _ h0 rfl rfl)
        (luci_free_branch_shrinks env _ _ _ _ _
          (show 0 < ({ w with extents := [] } : walk).delta by
            show 0 < w.delta
            omega) hb)
    split at h
    · injection h with h; injection h with _ h; subst h
      exact hbr
    · have hstep : shrinks env w { wb with st := clear_root wb.st (LUCI_IND_BLOCK + l) } :=
        shrinks_step env _ _ _ hbr rfl rfl
      exact shrinks_trans env _ _ _ hstep (ih _ _ _ hstep.1 h)

/-- What `luci_free_blocks` leaves of the size: it has been lowered by
`luci_chunk_size` (clamped at 0) at most `delta_blocks` times. -/
theorem luci_free_blocks_size (env : trunc_env) (s s1 : trunc_state) (delta ret : Int)
    (h0 : 0 ≤ delta) (h : luci_free_blocks env s delta = some (ret, s1)) :
    ∃ k : Nat, (k : Int) ≤ delta ∧ s1.i_size = s.i_size - k * env.chunk_size := by
  have key : ∀ wf : walk, shrinks env { st := s, delta := delta, extents := [] } wf →
      ∃ k : Nat, (k : Int) ≤ delta ∧ wf.st.i_size = s.i_size - k * env.chunk_size := by
    intro wf hw
    obtain ⟨a, b, c⟩ := hw
    simp only at b c
    exact ⟨(delta - wf.delta).toNat, by omega, c⟩
  unfold luci_free_blocks at h
  split at h
  · exact absurd h (by simp)
  · rename_i ret1 w hr
    injection h with h; injection h with _ h; subst h
    exact key _ (free_roots_loop_shrinks env _ _ _ _ h0 hr)
  · rename_i w hr
    have hw := free_roots_loop_shrinks env _ _ _ _ h0 hr
    split at h
    · exact absurd h (by simp)
    · rename_i ret2 w2 hd
      have hd2 : shrinks env w w2 := by
        unfold luci_free_direct at hd
        split at hd
        · exact absurd hd (by simp)
        · rename_i r3 w3 hl
          injection hd with hd; injection hd with _ hd; subst hd
          exact free_direct_loop_shrinks env _ _ _ _ hw.1 hl
        · rename_i w3 hl
          injection hd with hd; injection hd with _ hd; subst hd
          exact free_direct_loop_shrinks env _ _ _ _ hw.1 hl
      have hall := shrinks_trans env _ _ _ hw hd2
      split_ifs at h <;> (injection h with h; injection h with _ h; subst h; exact key _ hall)

/-- The lookup finds all `nr` pages when they are in the cache. -/
theorem find_get_pages_contig_all (pages : Nat → Option wpage) : ∀ nr start,
    (∀ i, i < nr → (pages (start + i)).isSome = true) →
    find_get_pages_contig pages start nr = nr := by
  intro nr
  induction nr with
  | zero => intro start _; unfold find_get_pages_contig; rfl
  | succ nr ih =>
    intro start h
    unfold find_get_pages_contig
    have h0 := h 0 (by omega)
    rw [Nat.add_zero] at h0
    cases hp : pages start with
    | none => rw [hp] at h0; exact absurd h0 (by simp)
    | some p =>
      simp only
      rw [ih (start + 1) (fun i hi => by
        have := h (i + 1) (by omega)
        rwa [show start + (i + 1) = start + 1 + i by omega] at this)]

/-- The first loop of `luci_write_extent_end` runs through when the pages it
visits are in the cache and locked. -/
theorem write_end_loop_isSome : ∀ k (pages : Nat → Option wpage) idx,
    (∀ i, i < k → ∃ p, pages (idx + i) = some p ∧ p.locked = true) →
    (write_end_loop k pages idx).isSome = true := by
  intro k
  induction k with
  | zero => intro pages idx _; rfl
  | succ k ih =>
    intro pages idx h
    obtain ⟨p, hp, hl⟩ := h 0 (by omega)
    rw [Nat.add_zero] at hp
    unfold write_end_loop
    rw [hp]
    simp only
    rw [if_neg (by simp [hl])]
    apply ih
    intro i hi
    obtain ⟨q, hq, hql⟩ := h (i + 1) (by omega)
    refine ⟨q, ?_, hql⟩
    rw [if_neg (by omega), ← hq]
    congr 1
    omega

/-- C17: when the pages of the cluster of `pos` are in the page cache and
locked (as `luci_write_extent_begin` leaves them), `len` fits in an `int` and
`pos + len` in a `loff_t`, `luci_write_extent_end` returns `len` and leaves the
inode's size equal to `max(old size, pos + len)`: the size is `pos + len` when
that exceeds the old size and is unchanged otherwise, so it is never lowered. -/
theorem luci_write_extent_end_size (EXTENT_NRPAGE PAGE_CACHE_SHIFT : Nat) (st : write_state)
    (pos len : Nat)
    (hpages : ∀ i, i < EXTENT_NRPAGE →
      ∃ p, st.pages (extent_index_begin EXTENT_NRPAGE (pos >>> PAGE_CACHE_SHIFT) + i) = some p ∧
        p.locked = true)
    (hlen : len < 2 ^ 31) (hpos : pos + len < 2 ^ 63) :
    ∃ st1, luci_write_extent_end EXTENT_NRPAGE PAGE_CACHE_SHIFT st pos len =
        some ((len : Int), st1) ∧
      st1.i_size = max st.i_size (pos + len) ∧
      (st.i_size < pos + len → st1.i_size = pos + len) ∧
      (pos + len ≤ st.i_size → st1.i_size = st.i_size) ∧
      st.i_size ≤ st1.i_size := by
  have hn : find_get_pages_contig st.pages
      (extent_index_begin EXTENT_NRPAGE (pos >>> PAGE_CACHE_SHIFT)) EXTENT_NRPAGE =
      EXTENT_NRPAGE := by
    apply find_get_pages_contig_all
    intro i hi
    obtain ⟨p, hp, _⟩ := hpages i hi
    rw [hp]; rfl
  have hloop := write_end_loop_isSome EXTENT_NRPAGE
    (get_pages st.pages (extent_index_begin EXTENT_NRPAGE (pos >>> PAGE_CACHE_SHIFT))
      EXTENT_NRPAGE)
    (extent_index_begin EXTENT_NRPAGE (pos >>> PAGE_CACHE_SHIFT))
    (fun i hi => by
      obtain ⟨p, hp, hl⟩ := hpages i hi
      refine ⟨{ p with count := p.count + 1 }, ?_, hl⟩
      unfold get_pages
      rw [if_pos ⟨by omega, by omega⟩, hp]
      rfl)
  have hlen32 : len % 2 ^ 32 = len := Nat.mod_eq_of_lt (by omega)
  have hret : (((len + 2 ^ 31) % 2 ^ 32 : Nat) : Int) - 2 ^ 31 = (len : Int) := by
    rw [Nat.mod_eq_of_lt (by omega)]
    push_cast
    omega
  unfold luci_write_extent_end
  simp only
  rw [hn, if_neg (by simp)]
  cases hl : write_end_loop EXTENT_NRPAGE
      (get_pages st.pages (extent_index_begin EXTENT_NRPAGE (pos >>> PAGE_CACHE_SHIFT))
        EXTENT_NRPAGE)
      (extent_index_begin EXTENT_NRPAGE (pos >>> PAGE_CACHE_SHIFT)) with
  | none => rw [hl] at hloop; exact absurd hloop (by simp)
  | some pages1 =>
    simp only
    rw [hlen32, if_neg (by omega), hret]
    by_cases hgt : pos + len > st.i_size
    · rw [if_pos hgt]
      refine ⟨_, rfl, ?_, ?_, ?_, ?_⟩ <;> simp only
      · exact (max_eq_right (le_of_lt hgt)).symm
      · exact fun _ => trivial
      · exact fun hle => absurd hle (by omega)
      · exact le_of_lt hgt
    · rw [if_neg hgt]
      refine ⟨_, rfl, ?_, ?_, ?_, ?_⟩ <;> simp only
      · exact (max_eq_left (by omega)).symm
      · exact fun h => absurd h (by omega)
      · exact fun _ => trivial
      · exact le_refl _

/-- The theorem `luci_write_extent_end_size` at a write of 100 bytes at
offset 20480 (page 5 of the cluster of pages 4 to 7) into the 5000-byte file
`cluster_locked`: the size becomes 20580. -/
theorem luci_write_extent_end_size_witness :
    ∃ st1, luci_write_extent_end 4 12 cluster_locked 20480 100 = some (100, st1) ∧
      st1.i_size = 20580 := by
  obtain ⟨st1, h1, h2, _⟩ := luci_write_extent_end_size 4 12 cluster_locked 20480 100
    (by decide) (by decide) (by decide)
  exact ⟨st1, h1, h2.trans (by decide)⟩

/-- A record has room for its eight fixed bytes at least. -/
theorem LUCI_DIR_REC_LEN_ge (n : Nat) : n + 8 ≤ LUCI_DIR_REC_LEN n := by
  unfold LUCI_DIR_REC_LEN LUCI_DIR_ROUND
  have h : (n + 8 + 3) &&& 3 ≤ 3 := Nat.and_le_right
  omega

/-- The test `luci_match` makes is the match of the decoded record. -/
theorem luci_match_eq (name : List Nat) (kaddr : bytes) (n de : Nat) :
    luci_match name kaddr de = record_matches name (read_record kaddr n de) := by
  unfold luci_match record_matches read_record
  simp only
  by_cases h1 : name.length = de_name_len kaddr de
  · by_cases h2 : de_inode kaddr de = 0
    · rw [if_pos (Or.inr h2)]
      simp [h2]
    · rw [if_neg (by simp [h1, h2])]
      rw [← h1]
      by_cases h3 : name.map (fun c => c % 256) = de_name kaddr de name.length
      · simp [h2, h3]
      · have h4 : ¬ de_name kaddr de name.length = name.map (fun c => c % 256) :=
          fun h => h3 h.symm
        simp [h3, h4]
  · rw [if_pos (Or.inl h1)]
    have h4 : ¬ de_name_len kaddr de = name.length := fun h => h1 h.symm
    simp [h4]

/-- A record `luci_find_entry` stops at passed `luci_match`. -/
theorem find_entry_scan_found (name : List Nat) (kaddr : bytes) (last_byte reclen : Nat) :
    ∀ fuel o de, find_entry_scan name kaddr last_byte reclen fuel o = .found de →
      luci_match name kaddr de = true := by
  intro fuel
  induction fuel with
  | zero => intro o de h; exact absurd h (by simp [find_entry_scan])
  | succ fuel ih =>
    intro o de h
    unfold find_entry_scan at h
    split_ifs at h with h1 h2 h3
    · injection h with h; subst h; exact h3
    · exact ih _ _ h

/-- The offsets of a chain do not go below its start. -/
theorem page_chain_ge (kaddr : bytes) (last_byte : Nat) : ∀ fuel o o1,
    o1 ∈ page_chain kaddr last_byte fuel o → o ≤ o1 := by
  intro fuel
  induction fuel with
  | zero => intro o o1 h; simp [page_chain] at h
  | succ fuel ih =>
    intro o o1 h
    unfold page_chain at h
    split_ifs at h with h1 h2
    · simp at h; omega
    · rcases List.mem_cons.mp h with h | h
      · omega
      · have := ih _ _ h; omega
    · simp at h

/-- The scan of one page by `luci_find_entry` against the chain of its
records, when no record of the chain has length 0 and each lies, with a name
of its `name_len`, within the used bytes. -/
theorem find_entry_scan_eq (name : List Nat) (kaddr : bytes) (last_byte n : Nat) :
    ∀ fuel o, 1 ≤ fuel → last_byte + 1 ≤ o + fuel →
      (∀ o1 ∈ page_chain kaddr last_byte fuel o,
        luci_rec_len_from_disk kaddr o1 ≠ 0 ∧
        o1 + LUCI_DIR_REC_LEN (de_name_len kaddr o1) ≤ last_byte) →
      find_entry_scan name kaddr last_byte (LUCI_DIR_REC_LEN name.length) fuel o =
        match ((page_chain kaddr last_byte fuel o).map (read_record kaddr n)).find?
            (record_matches name) with
        | some r => .found r.off
        | none => .done := by
  intro fuel
  induction fuel with
  | zero => intro o h; omega
  | succ fuel ih =>
    intro o _ hfuel hwf
    have h8 := LUCI_DIR_REC_LEN_ge name.length
    unfold find_entry_scan
    by_cases hlim : o + LUCI_DIR_REC_LEN name.length ≤ last_byte
    · rw [if_pos hlim]
      have hlt : o < last_byte := by omega
      have hmem : o ∈ page_chain kaddr last_byte (fuel + 1) o := by
        unfold page_chain
        rw [if_pos hlt]
        split_ifs <;> simp
      have hrl := (hwf o hmem).1
      rw [if_neg hrl]
      have hchain : page_chain kaddr last_byte (fuel + 1) o =
          o :: page_chain kaddr last_byte fuel (o + luci_rec_len_from_disk kaddr o) := by
        rw [page_chain, if_pos hlt, if_neg hrl]
      rw [hchain, List.map_cons, List.find?_cons, ← luci_match_eq]
      cases hm : luci_match name kaddr o with
      | true => simp [read_record]
      | false =>
        simp only [Bool.false_eq_true, if_false]
        apply ih _ (by omega) (by omega)
        intro o1 ho1
        exact hwf o1 (by rw [hchain]; exact List.mem_cons_of_mem _ ho1)
    · rw [if_neg hlim]
      have hnone : ((page_chain kaddr last_byte (fuel + 1) o).map (read_record kaddr n)).find?
          (record_matches name) = none := by
        rw [List.find?_eq_none]
        intro r hr
        obtain ⟨o1, ho1, hro⟩ := List.mem_map.mp hr
        subst hro
        rw [← luci_match_eq]
        intro hm
        have hge := page_chain_ge kaddr last_byte _ _ _ ho1
        have hfit := (hwf o1 ho1).2
        unfold luci_match at hm
        split_ifs at hm with hc
        have hnl : name.length = de_name_len kaddr o1 := by
          by_contra hne
          exact hc (Or.inl hne)
        rw [← hnl] at hfit
        omega
      rw [hnone]

/-- A record `luci_find_entry` returns, in any directory, is a record of a
page that could be read and passed `luci_match`. -/
theorem find_entry_pages_found (PAGE_SHIFT : Nat) (dir : dir_inode) (name : List Nat) :
    ∀ k n m de, find_entry_pages PAGE_SHIFT dir name k n = .found m de →
      ∃ page, luci_get_page dir m = .ok page ∧ luci_match name page.data de = true := by
  intro k
  induction k with
  | zero => intro n m de h; exact absurd h (by simp [find_entry_pages])
  | succ k ih =>
    intro n m de h
    unfold find_entry_pages at h
    split at h
    · exact ih _ _ _ h
    · rename_i page hp
      split at h
      · rename_i de1 hs
        injection h with h1 h2
        subst h1 h2
        exact ⟨page, hp, find_entry_scan_found _ _ _ _ _ _ _ hs⟩
      · exact absurd h (by simp)
      · exact ih _ _ _ h
      · exact absurd h (by simp)

/-- The loop over the pages in `luci_find_entry` against the records of those
pages. -/
theorem find_entry_pages_eq (PAGE_SHIFT : Nat) (dir : dir_inode) (name : List Nat) :
    ∀ k n,
      (∀ r ∈ dir_records_from PAGE_SHIFT dir k n,
        r.rec_len ≠ 0 ∧
        r.off + LUCI_DIR_REC_LEN r.name_len ≤ luci_last_byte PAGE_SHIFT dir r.page) →
      find_entry_pages PAGE_SHIFT dir name k n =
        match (dir_records_from PAGE_SHIFT dir k n).find? (record_matches name) with
        | some r => .found r.page r.off
        | none => .null := by
  intro k
  induction k with
  | zero => intro n _; rfl
  | succ k ih =>
    intro n hwf
    have hrest : ∀ r ∈ dir_records_from PAGE_SHIFT dir k (n + 1),
        r.rec_len ≠ 0 ∧
        r.off + LUCI_DIR_REC_LEN r.name_len ≤ luci_last_byte PAGE_SHIFT dir r.page := by
      intro r hr
      apply hwf
      unfold dir_records_from
      exact List.mem_append_right _ hr
    unfold find_entry_pages dir_records_from
    rw [List.find?_append]
    cases hp : luci_get_page dir n with
    | error e =>
      have hnil : page_records PAGE_SHIFT dir n = [] := by
        unfold page_records
        rw [hp]
      simp only [hnil, List.find?_nil, Option.none_or]
      exact ih _ hrest
    | ok page =>
      have hrec : page_records PAGE_SHIFT dir n =
          (page_chain page.data (luci_last_byte PAGE_SHIFT dir n)
            (luci_last_byte PAGE_SHIFT dir n + 1) 0).map (read_record page.data n) := by
        unfold page_records
        rw [hp]
      have hscan := find_entry_scan_eq name page.data (luci_last_byte PAGE_SHIFT dir n) n
        (luci_last_byte PAGE_SHIFT dir n + 1) 0 (by omega) (by omega)
        (fun o1 ho1 => by
          have hmem : read_record page.data n o1 ∈ dir_records_from PAGE_SHIFT dir (k + 1) n := by
            unfold dir_records_from
            rw [hrec]
            exact List.mem_append_left _ (List.mem_map_of_mem _ ho1)
          exact hwf _ hmem)
      simp only
      rw [hscan, hrec]
      cases hf : ((page_chain page.data (luci_last_byte PAGE_SHIFT dir n)
          (luci_last_byte PAGE_SHIFT dir n + 1) 0).map (read_record page.data n)).find?
          (record_matches name) with
      | some r =>
        obtain ⟨o1, _, hro⟩ := List.mem_map.mp (List.mem_of_find?_eq_some hf)
        subst hro
        rfl
      | none =>
        simp only [Option.none_or]
        exact ih _ hrest

/-- C18 amended: first match wins.  For every directory whose records, along the
`rec_len` chains of its readable pages, all have a non-zero `rec_len` and lie
with their names within the used bytes of their page, `luci_find_entry(dir,
name)` returns the first record in scan order (ascending page number, then
ascending offset along the chain) that has a non-zero inode, `name_len` equal
to the length of `name` and the bytes of `name`, together with its page; it
returns `NULL` exactly when no record matches; and a record it returns is one
of the matching records, so its inode is not 0. -/
theorem luci_find_entry_first_match (PAGE_SHIFT : Nat) (dir : dir_inode) (name : List Nat)
    (hwf : ∀ r ∈ dir_records PAGE_SHIFT dir,
      r.rec_len ≠ 0 ∧
      r.off + LUCI_DIR_REC_LEN r.name_len ≤ luci_last_byte PAGE_SHIFT dir r.page) :
    (luci_find_entry PAGE_SHIFT dir name =
      match first_match PAGE_SHIFT dir name with
      | some r => .found r.page r.off
      | none => .null) ∧
    (luci_find_entry PAGE_SHIFT dir name = .null ↔
      ∀ r ∈ dir_records PAGE_SHIFT dir, record_matches name r = false) ∧
    (∀ n de, luci_find_entry PAGE_SHIFT dir name = .found n de →
      ∃ r ∈ dir_records PAGE_SHIFT dir, r.page = n ∧ r.off = de ∧ r.inode ≠ 0 ∧
        r.name_len = name.length ∧ r.name = name.map (fun c => c % 256)) := by
  have heq := find_entry_pages_eq PAGE_SHIFT dir name (dir_pages PAGE_SHIFT dir) 0 hwf
  have hmain : luci_find_entry PAGE_SHIFT dir name =
      match first_match PAGE_SHIFT dir name with
      | some r => .found r.page r.off
      | none => .null := heq
  refine ⟨hmain, ?_, ?_⟩
  · rw [hmain]
    unfold first_match
    cases hf : (dir_records PAGE_SHIFT dir).find? (record_matches name) with
    | some r =>
      simp only
      constructor
      · intro h; exact absurd h (by simp)
      · intro h
        have h1 := List.find?_some hf
        rw [h r (List.mem_of_find?_eq_some hf)] at h1
        exact absurd h1 (by simp)
    | none =>
      simp only [true_iff]
      intro r hr
      have h := List.find?_eq_none.mp hf r hr
      simpa using h
  · intro n de h
    rw [hmain] at h
    unfold first_match at h
    cases hf : (dir_records PAGE_SHIFT dir).find? (record_matches name) with
    | some r =>
      rw [hf] at h
      simp only at h
      injection h with h1 h2
      have hm := List.find?_some hf
      unfold record_matches at hm
      have hm2 := of_decide_eq_true hm
      exact ⟨r, List.mem_of_find?_eq_some hf, h1, h2, hm2.1, hm2.2.1, hm2.2.2⟩
    | none =>
      rw [hf] at h
      exact absurd h (by simp)

/-- The theorem `luci_find_entry_first_match` at the directory `dir_abc`,
whose records are `(11, "a")`, a hole, `(12, "a")` and `(13, "c")`: the search
for `"a"` returns the record at offset 0, the first of the two that match. -/
theorem luci_find_entry_first_match_witness :
    (dir_records 12 dir_abc).map (fun r => (r.off, r.inode, r.name)) =
      [(0, 11, [97]), (12, 0, [98, 98]), (24, 12, [97]), (36, 13, [99])] ∧
    (∀ r ∈ dir_records 12 dir_abc,
      r.rec_len ≠ 0 ∧ r.off + LUCI_DIR_REC_LEN r.name_len ≤ luci_last_byte 12 dir_abc r.page) ∧
    luci_find_entry 12 dir_abc [97] = .found 0 0 :=
  ⟨by decide, by decide,
   (luci_find_entry_first_match 12 dir_abc [97] (by decide)).1.trans (by decide)⟩

/-- C19 as stated fails: for the one-page directory `dir_unreadable`, whose
page cannot be read (`-ENOMEM`), `luci_readdir` started at position 0 returns
`-ENOMEM`, which is neither 0 nor `-EIO`, although it met no record with
`rec_len = 0`, and it advances the position by a page without visiting a
record. -/
theorem luci_readdir_page_error_counterexample :
    dir_records 12 dir_unreadable = [] ∧
    luci_readdir 12 (fun _ => true) dir_unreadable { pos := 0, emitted := [] } =
      (.ret (- ENOMEM), { pos := 4096, emitted := [] }) ∧
    - ENOMEM ≠ 0 ∧ - ENOMEM ≠ - EIO := by
  decide

/-- Nothing precedes a first record of length 0. -/
theorem before_bad_cons_zero (r : dir_record) (l : List dir_record) (h : r.rec_len = 0) :
    before_bad (r :: l) = [] := by
  simp [before_bad, List.takeWhile_cons, h]

/-- A first record of non-zero length precedes the first record of length 0. -/
theorem before_bad_cons_ne (r : dir_record) (l : List dir_record) (h : r.rec_len ≠ 0) :
    before_bad (r :: l) = r :: before_bad l := by
  simp [before_bad, List.takeWhile_cons, h]

/-- Records of non-zero length in front all precede the first record of
length 0. -/
theorem before_bad_append_all (l1 l2 : List dir_record) (h : ∀ r ∈ l1, r.rec_len ≠ 0) :
    before_bad (l1 ++ l2) = l1 ++ before_bad l2 := by
  induction l1 with
  | nil => rfl
  | cons r l ih =>
    rw [List.cons_append, before_bad_cons_ne _ _ (h r (List.mem_cons_self _ _)),
      ih (fun r1 hr1 => h r1 (List.mem_cons_of_mem _ hr1))]
    rfl

/-- What follows a list with a record of length 0 does not count. -/
theorem before_bad_append_any (l1 l2 : List dir_record)
    (h : l1.any (fun r => decide (r.rec_len = 0)) = true) :
    before_bad (l1 ++ l2) = before_bad l1 := by
  induction l1 with
  | nil => simp at h
  | cons r l ih =>
    by_cases hr : r.rec_len = 0
    · rw [List.cons_append, before_bad_cons_zero _ _ hr, before_bad_cons_zero _ _ hr]
    · rw [List.cons_append, before_bad_cons_ne _ _ hr, before_bad_cons_ne _ _ hr, ih]
      simpa [hr] using h

/-- The advance over a first record of non-zero length. -/
theorem readdir_advance_cons_ne (r : dir_record) (l : List dir_record) (h : r.rec_len ≠ 0) :
    readdir_advance (r :: l) = r.rec_len + readdir_advance l := by
  unfold readdir_advance
  rw [before_bad_cons_ne _ _ h]
  rfl

/-- A first record that is a hole is not emitted. -/
theorem readdir_entries_cons_hole (r : dir_record) (l : List dir_record) (h : r.rec_len ≠ 0)
    (hi : r.inode = 0) : readdir_entries (r :: l) = readdir_entries l := by
  unfold readdir_entries
  rw [before_bad_cons_ne _ _ h, List.filter_cons]
  simp [hi]

/-- A first record with an inode is emitted first. -/
theorem readdir_entries_cons_ne (r : dir_record) (l : List dir_record) (h : r.rec_len ≠ 0)
    (hi : r.inode ≠ 0) : readdir_entries (r :: l) = dirent_of r :: readdir_entries l := by
  unfold readdir_entries
  rw [before_bad_cons_ne _ _ h, List.filter_cons]
  simp [hi]

/-- The context `luci_readdir` leaves after the records `records`, from the
context `ctx`. -/
theorem readdir_scan_eq (actor : dirent → Bool) (hact : ∀ e, actor e = true) (kaddr : bytes)
    (last_byte n : Nat) :
    ∀ fuel o ctx, 1 ≤ fuel → last_byte + 1 ≤ o + fuel →
      (∀ o1 ∈ page_chain kaddr last_byte fuel o, o1 + LUCI_DIR_REC_LEN 1 ≤ last_byte) →
      readdir_scan actor kaddr last_byte fuel o ctx =
        (if ((page_chain kaddr last_byte fuel o).map (read_record kaddr n)).any
              (fun r => decide (r.rec_len = 0)) then .ret (- EIO) else .next,
         { pos := ctx.pos +
             readdir_advance ((page_chain kaddr last_byte fuel o).map (read_record kaddr n)),
           emitted := ctx.emitted ++
             readdir_entries ((page_chain kaddr last_byte fuel o).map (read_record kaddr n)) }) := by
  intro fuel
  induction fuel with
  | zero => intro o ctx h; omega
  | succ fuel ih =>
    intro o ctx _ hfuel hfit
    have h12 := LUCI_DIR_REC_LEN_ge 1
    unfold readdir_scan
    by_cases hlim : o + LUCI_DIR_REC_LEN 1 ≤ last_byte
    · rw [if_pos hlim]
      have hlt : o < last_byte := by omega
      by_cases hrl : luci_rec_len_from_disk kaddr o = 0
      · have hchain : page_chain kaddr last_byte (fuel + 1) o = [o] := by
          rw [page_chain, if_pos hlt, if_pos hrl]
        have hz : (read_record kaddr n o).rec_len = 0 := hrl
        rw [if_pos hrl, hchain]
        simp [readdir_advance, readdir_entries, before_bad_cons_zero _ _ hz, hz]
      · have hchain : page_chain kaddr last_byte (fuel + 1) o =
            o :: page_chain kaddr last_byte fuel (o + luci_rec_len_from_disk kaddr o) := by
          rw [page_chain, if_pos hlt, if_neg hrl]
        have hz : (read_record kaddr n o).rec_len ≠ 0 := hrl
        have hrest := ih (o + luci_rec_len_from_disk kaddr o)
        have hfit2 : ∀ o1 ∈ page_chain kaddr last_byte fuel (o + luci_rec_len_from_disk kaddr o),
            o1 + LUCI_DIR_REC_LEN 1 ≤ last_byte := fun o1 ho1 =>
          hfit o1 (by rw [hchain]; exact List.mem_cons_of_mem _ ho1)
        rw [if_neg hrl, hchain, List.map_cons]
        by_cases hino : de_inode kaddr o = 0
        · have hi : (read_record kaddr n o).inode = 0 := hino
          rw [if_neg (by simp [hino]), hrest _ (by omega) (by omega) hfit2,
            readdir_advance_cons_ne _ _ hz, readdir_entries_cons_hole _ _ hz hi, List.any_cons,
            decide_eq_false hz, Bool.false_or]
          simp only [Nat.add_assoc]
          rfl
        · have hi : (read_record kaddr n o).inode ≠ 0 := hino
          rw [if_pos hino]
          simp only [hact, Bool.true_eq_false, if_false]
          rw [hrest _ (by omega) (by omega) hfit2,
            readdir_advance_cons_ne _ _ hz, readdir_entries_cons_ne _ _ hz hi, List.any_cons,
            decide_eq_false hz, Bool.false_or]
          simp only [Nat.add_assoc, List.append_assoc, List.singleton_append]
          rfl
    · rw [if_neg hlim]
      have hchain : page_chain kaddr last_byte (fuel + 1) o = [] := by
        rw [page_chain]
        by_cases hlt : o < last_byte
        · exfalso
          apply hlim
          apply hfit
          rw [page_chain, if_pos hlt]
          split_ifs <;> simp
        · rw [if_neg hlt]
      rw [hchain]
      simp [readdir_advance, readdir_entries, before_bad]

/-- A list without a record of length 0 precedes the first such record as a
whole. -/
theorem before_bad_all (l : List dir_record) (h : ∀ r ∈ l, r.rec_len ≠ 0) : before_bad l = l := by
  have := before_bad_append_all l [] h
  rw [List.append_nil] at this
  rw [this]
  show l ++ [] = l
  exact List.append_nil l

/-- No record of length 0: every record has a non-zero length. -/
theorem rec_len_ne_of_any_false (l : List dir_record)
    (h : l.any (fun r => decide (r.rec_len = 0)) = false) : ∀ r ∈ l, r.rec_len ≠ 0 := by
  intro r hr hz
  have : l.any (fun r => decide (r.rec_len = 0)) = true :=
    List.any_eq_true.mpr ⟨r, hr, by simp [hz]⟩
  rw [h] at this
  exact absurd this (by simp)

/-- The loop over the pages in `luci_readdir` against the records of those
pages, from offset 0 of the first of them. -/
theorem readdir_pages_eq (PAGE_SHIFT : Nat) (actor : dirent → Bool)
    (hact : ∀ e, actor e = true) (dir : dir_inode) :
    ∀ k n ctx,
      (∀ m, n ≤ m → m < n + k → ∃ page, luci_get_page dir m = .ok page) →
      (∀ r ∈ dir_records_from PAGE_SHIFT dir k n,
        r.off + LUCI_DIR_REC_LEN 1 ≤ luci_last_byte PAGE_SHIFT dir r.page) →
      readdir_pages PAGE_SHIFT actor dir k n 0 ctx =
        (.ret (readdir_code (dir_records_from PAGE_SHIFT dir k n)),
         { pos := ctx.pos + readdir_advance (dir_records_from PAGE_SHIFT dir k n),
           emitted := ctx.emitted ++ readdir_entries (dir_records_from PAGE_SHIFT dir k n) }) := by
  intro k
  induction k with
  | zero =>
    intro n ctx _ _
    simp [readdir_pages, dir_records_from, readdir_code, readdir_advance, readdir_entries,
      before_bad]
  | succ k ih =>
    intro n ctx hread hfit
    obtain ⟨page, hp⟩ := hread n (le_refl _) (by omega)
    have hrec : page_records PAGE_SHIFT dir n =
        (page_chain page.data (luci_last_byte PAGE_SHIFT dir n)
          (luci_last_byte PAGE_SHIFT dir n + 1) 0).map (read_record page.data n) := by
      unfold page_records
      rw [hp]
    have hscan := readdir_scan_eq actor hact page.data (luci_last_byte PAGE_SHIFT dir n) n
      (luci_last_byte PAGE_SHIFT dir n + 1) 0 ctx (by omega) (by omega)
      (fun o1 ho1 => by
        have hmem : read_record page.data n o1 ∈ dir_records_from PAGE_SHIFT dir (k + 1) n := by
          unfold dir_records_from
          rw [hrec]
          exact List.mem_append_left _ (List.mem_map_of_mem _ ho1)
        exact hfit _ hmem)
    rw [← hrec] at hscan
    unfold readdir_pages dir_records_from
    rw [hp]
    simp only
    rw [hscan]
    cases hany : (page_records PAGE_SHIFT dir n).any (fun r => decide (r.rec_len = 0)) with
    | true =>
      simp only [if_true]
      have hb := before_bad_append_any (page_records PAGE_SHIFT dir n)
        (dir_records_from PAGE_SHIFT dir k (n + 1)) hany
      unfold readdir_code readdir_advance readdir_entries
      rw [hb, List.any_append, hany]
      rfl
    | false =>
      simp only [Bool.false_eq_true, if_false]
      have hne := rec_len_ne_of_any_false _ hany
      have hb := before_bad_append_all (page_records PAGE_SHIFT dir n)
        (dir_records_from PAGE_SHIFT dir k (n + 1)) hne
      have hb1 := before_bad_all _ hne
      rw [ih (n + 1) _ (fun m h1 h2 => hread m (by omega) (by omega))
        (fun r hr => hfit r (by
          unfold dir_records_from
          exact List.mem_append_right _ hr))]
      unfold readdir_code readdir_advance readdir_entries
      rw [hb, hb1, List.any_append, hany, Bool.false_or]
      simp only [List.map_append, List.sum_append, List.filter_append, Nat.add_assoc,
        List.append_assoc]

/-- C19 amended: for every directory whose pages can all be read and whose
records, along the `rec_len` chains of its pages, each start at least
`LUCI_DIR_REC_LEN(1)` (12) bytes before the end of the used bytes of their
page, and a consumer that accepts every entry, `luci_readdir` started at
position 0 emits, in on-disk order, exactly the records with non-zero inode
that precede the first record with `rec_len = 0`, each once, with type
`DT_UNKNOWN`; it advances the position by the `rec_len` of every record it
visited (holes included); and it returns `-EIO` if it met a record with
`rec_len = 0` and 0 otherwise. -/
theorem luci_readdir_emits_records (PAGE_SHIFT : Nat) (actor : dirent → Bool)
    (dir : dir_inode) (hact : ∀ e, actor e = true)
    (hread : ∀ n, n < dir_pages PAGE_SHIFT dir → ∃ page, luci_get_page dir n = .ok page)
    (hfit : ∀ r ∈ dir_records PAGE_SHIFT dir,
      r.off + LUCI_DIR_REC_LEN 1 ≤ luci_last_byte PAGE_SHIFT dir r.page) :
    luci_readdir PAGE_SHIFT actor dir { pos := 0, emitted := [] } =
      (.ret (readdir_code (dir_records PAGE_SHIFT dir)),
       { pos := readdir_advance (dir_records PAGE_SHIFT dir),
         emitted := readdir_entries (dir_records PAGE_SHIFT dir) }) := by
  unfold luci_readdir
  simp only [Nat.zero_and, Nat.zero_shiftRight, Nat.sub_zero]
  rw [readdir_pages_eq PAGE_SHIFT actor hact dir _ 0 _
    (fun m _ h2 => hread m (by omega)) hfit]
  simp only [Nat.zero_add, List.nil_append]
  rfl

/-- The theorem `luci_readdir_emits_records` at the directory `dir_abc`, which
has a hole between its three entries (all four records are visited, 48 bytes,
and the call returns 0), and at the directory `dir_bad`, whose second record
has `rec_len = 0` (one entry, 12 bytes, `-EIO`). -/
theorem luci_readdir_emits_records_witness :
    luci_readdir 12 (fun _ => true) dir_abc { pos := 0, emitted := [] } =
      (.ret 0,
       { pos := 48,
         emitted := [⟨[97], 1, 11, 0⟩, ⟨[97], 1, 12, 0⟩, ⟨[99], 1, 13, 0⟩] }) ∧
    luci_readdir 12 (fun _ => true) dir_bad { pos := 0, emitted := [] } =
      (.ret (- EIO), { pos := 12, emitted := [⟨[97], 1, 11, 0⟩] }) :=
  ⟨(luci_readdir_emits_records 12 (fun _ => true) dir_abc (fun _ => rfl)
      (fun n hn => by
        have h1 : dir_pages 12 dir_abc = 1 := by decide
        have h0 : n = 0 := by omega
        subst h0
        exact ⟨_, rfl⟩)
      (by decide)).trans (by decide),
   (luci_readdir_emits_records 12 (fun _ => true) dir_bad (fun _ => rfl)
      (fun n hn => by
        have h1 : dir_pages 12 dir_bad = 1 := by decide
        have h0 : n = 0 := by omega
        subst h0
        exact ⟨_, rfl⟩)
      (by decide)).trans (by decide)⟩

/-- A 32-bit store leaves the bytes outside the field as they were. -/
theorem put_le32_of_ne (b : bytes) (o v i : Nat) (h : i < o ∨ o + 4 ≤ i) :
    put_le32 b o v i = b i := by
  rw [put_le32_apply]
  rw [if_neg (by omega), if_neg (by omega), if_neg (by omega), if_neg (by omega)]

/-- A page `luci_get_page` returns is the page of the mapping. -/
theorem luci_get_page_ok (dir : dir_inode) (n : Nat) (pg : dpage)
    (h : luci_get_page dir n = .ok pg) : dir.mapping n = .ok pg := by
  unfold luci_get_page at h
  cases hm : dir.mapping n with
  | error e => rw [hm] at h; exact absurd h (by simp)
  | ok page =>
    rw [hm] at h
    simp only at h
    split_ifs at h
    exact h

/-- C20: `luci_delete_entry` turns the record into a hole in place.  For a
record at offset `de` (below 2^31) of a page of the directory, a chunk size
that is a power of two and a `luci_prepare_chunk` that succeeds, the call
returns what `luci_commit_chunk` returns; afterwards the record's inode field
is 0, every byte of the page outside the four bytes of that field is
unchanged (so are `rec_len`, `name_len` and the name of the record), the other
pages and the size of the directory are unchanged, and `luci_find_entry` does
not return that record for any name; the range `[from, to)` starts at a
multiple of the chunk size, not after the record, and ends where the record
ends. -/
theorem luci_delete_entry_makes_hole (PAGE_SHIFT : Nat) (io : chunk_io) (dir : dir_inode)
    (n de k : Nat) (page : dpage) (hpage : dir.mapping n = .ok page)
    (hprep : io.prepare_err = 0) (hk : io.chunk_size = 2 ^ k) (hde : de < 2 ^ 31) :
    ∃ r page1, luci_delete_entry PAGE_SHIFT io dir n de = some r ∧ r.err = io.commit_err ∧
      r.dir.i_size = dir.i_size ∧ (∀ m, m ≠ n → r.dir.mapping m = dir.mapping m) ∧
      r.dir.mapping n = .ok page1 ∧
      de_inode page1.data de = 0 ∧
      (∀ i, i < de ∨ de + 4 ≤ i → page1.data i = page.data i) ∧
      luci_rec_len_from_disk page1.data de = luci_rec_len_from_disk page.data de ∧
      de_name_len page1.data de = de_name_len page.data de ∧
      (∀ len, de_name page1.data de len = de_name page.data de len) ∧
      (∀ name, luci_find_entry PAGE_SHIFT r.dir name ≠ .found n de) ∧
      r.chunk_from % io.chunk_size = 0 ∧ r.chunk_from ≤ de ∧
      r.chunk_to = de + luci_rec_len_from_disk page.data de := by
  have hrl := get_le16_lt page.data (de + 4)
  have hfrom : (if io.chunk_size = 0 then 0 else de - (de &&& (io.chunk_size - 1))) % 2 ^ 32 =
      2 ^ k * (de / 2 ^ k) := by
    have hpos : 0 < 2 ^ k := Nat.two_pow_pos k
    rw [hk, if_neg (by omega), Nat.and_pow_two_sub_one_eq_mod]
    have hdm := Nat.div_add_mod de (2 ^ k)
    have hle : de - de % 2 ^ k = 2 ^ k * (de / 2 ^ k) := by omega
    rw [hle]
    apply Nat.mod_eq_of_lt
    have : 2 ^ k * (de / 2 ^ k) ≤ de := by omega
    omega
  have hres : luci_delete_entry PAGE_SHIFT io dir n de = some
      { err := io.commit_err
        dir := { dir with mapping := fun m =>
                  if m = n then .ok { page with data := put_le32 page.data de 0 }
                  else dir.mapping m }
        chunk_from := 2 ^ k * (de / 2 ^ k)
        chunk_to := de + luci_rec_len_from_disk page.data de
        pos := n * PAGE_SIZE PAGE_SHIFT + 2 ^ k * (de / 2 ^ k) } := by
    unfold luci_delete_entry
    rw [hpage]
    simp only
    rw [if_neg (by simp [hprep]), hfrom,
      Nat.mod_eq_of_lt (show de + luci_rec_len_from_disk page.data de < 2 ^ 32 by
        unfold luci_rec_len_from_disk; omega)]
  have hother : ∀ i, i < de ∨ de + 4 ≤ i → put_le32 page.data de 0 i = page.data i :=
    fun i hi => put_le32_of_ne _ _ _ _ hi
  refine ⟨_, { page with data := put_le32 page.data de 0 }, hres, rfl, rfl, ?_, ?_, ?_, hother,
    ?_, ?_, ?_, ?_, ?_, ?_, rfl⟩
  · intro m hm
    show (if m = n then _ else dir.mapping m) = dir.mapping m
    rw [if_neg hm]
  · show (if n = n then _ else dir.mapping n) = _
    rw [if_pos rfl]
  · show get_le32 (put_le32 page.data de 0) de = 0
    rw [get_le32_put_le32]
  · show get_le16 (put_le32 page.data de 0) (de + 4) = get_le16 page.data (de + 4)
    unfold get_le16
    rw [hother _ (by omega), hother _ (by omega)]
  · show put_le32 page.data de 0 (de + 6) % 256 = page.data (de + 6) % 256
    rw [hother _ (by omega)]
  · intro len
    unfold de_name
    apply List.map_congr_left
    intro i _
    show put_le32 page.data de 0 (de + 8 + i) % 256 = page.data (de + 8 + i) % 256
    rw [hother _ (by omega)]
  · intro name hfound
    obtain ⟨pg, hpg, hm⟩ := find_entry_pages_found PAGE_SHIFT _ name _ _ _ _ hfound
    have hdata : pg.data = put_le32 page.data de 0 := by
      have hmap := luci_get_page_ok _ _ _ hpg
      have hmap2 : (if n = n then
          (Except.ok { page with data := put_le32 page.data de 0 } : Except Int dpage)
          else dir.mapping n) = .ok pg := hmap
      rw [if_pos rfl] at hmap2
      injection hmap2 with hmap2
      rw [← hmap2]
    unfold luci_match at hm
    split_ifs at hm with hc
    apply hc
    right
    show get_le32 pg.data de = 0
    rw [hdata, get_le32_put_le32]
  · show 2 ^ k * (de / 2 ^ k) % io.chunk_size = 0
    rw [hk]
    exact Nat.mul_mod_right _ _
  · show 2 ^ k * (de / 2 ^ k) ≤ de
    have hdm := Nat.div_add_mod de (2 ^ k)
    omega

/-- The theorem `luci_delete_entry_makes_hole` at the first record of the
directory `dir_abc` (offset 0, 12 bytes) with 4096-byte chunks: the range
committed is `[0, 12)`. -/
theorem luci_delete_entry_makes_hole_witness :
    ∃ r page1, luci_delete_entry 12 chunk_io_4k dir_abc 0 0 = some r ∧ r.err = 0 ∧
      r.dir.mapping 0 = .ok page1 ∧ de_inode page1.data 0 = 0 ∧
      (∀ name, luci_find_entry 12 r.dir name ≠ .found 0 0) ∧
      r.chunk_from % 4096 = 0 ∧ r.chunk_to = 12 := by
  obtain ⟨r, page1, h1, h2, _, _, h5, h6, _, _, _, _, h11, h12, _, h14⟩ :=
    luci_delete_entry_makes_hole 12 chunk_io_4k dir_abc 0 0 12
      { data := page_abc, checked := false, error := false } rfl rfl rfl (by decide)
  exact ⟨r, page1, h1, h2, h5, h6, h11, h12, h14.trans (by decide)⟩

/-- The mask `& 0xFFFF` keeps the low 16 bits. -/
theorem and_0xFFFF (x : Nat) : x &&& 0xFFFF = x % 2 ^ 16 :=
  Nat.and_pow_two_sub_one_eq_mod x 16

/-- The body of the entry loop jumps to `done` only past the last group. -/
theorem check_desc_entry_done (data_cksum : List Nat → Nat → Nat) (sbi : luci_sb_info)
    (block entry : Nat) (bh : bytes)
    (h : check_desc_entry data_cksum sbi block entry bh = .done) :
    (block * sbi.s_desc_per_block + entry + 1) % 2 ^ 32 > sbi.s_groups_count := by
  unfold check_desc_entry at h
  simp only at h
  split_ifs at h
  assumption

/-- The body of the entry loop fails on a stored checksum that is not 0 and
differs from the computed one. -/
theorem check_desc_entry_bad_crc (data_cksum : List Nat → Nat → Nat) (sbi : luci_sb_info)
    (block entry : Nat) (bh : bytes)
    (hgp : (block * sbi.s_desc_per_block + entry + 1) % 2 ^ 32 ≤ sbi.s_groups_count)
    (h0 : stored_bg_checksum bh entry ≠ 0)
    (hne : stored_bg_checksum bh entry ≠ computed_bg_checksum data_cksum bh entry) :
    check_desc_entry data_cksum sbi block entry bh = .fail := by
  unfold stored_bg_checksum at h0 hne
  unfold computed_bg_checksum at hne
  unfold check_desc_entry
  simp only
  rw [if_neg (by omega), and_0xFFFF, if_pos ⟨h0, hne⟩]

/-- The body of the entry loop with a stored checksum that is 0 or equal to
the computed one fails only on one of the three block numbers. -/
theorem check_desc_entry_good_crc (data_cksum : List Nat → Nat → Nat) (sbi : luci_sb_info)
    (block entry : Nat) (bh : bytes)
    (hcrc : stored_bg_checksum bh entry = 0 ∨
      stored_bg_checksum bh entry = computed_bg_checksum data_cksum bh entry)
    (h : check_desc_entry data_cksum sbi block entry bh = .fail) :
    ∃ field, (field = GD_block_bitmap ∨ field = GD_inode_bitmap ∨ field = GD_inode_table) ∧
      (get_le32 bh (entry * LUCI_GROUP_DESC_SIZE + field) <
          luci_group_first_block_no sbi.s_lsb
            (((block * sbi.s_desc_per_block + entry + 1) % 2 ^ 32 + 2 ^ 32 - 1) % 2 ^ 32) ∨
       get_le32 bh (entry * LUCI_GROUP_DESC_SIZE + field) >
          check_last_block sbi ((block * sbi.s_desc_per_block + entry + 1) % 2 ^ 32)
            (luci_group_first_block_no sbi.s_lsb
              (((block * sbi.s_desc_per_block + entry + 1) % 2 ^ 32 + 2 ^ 32 - 1) % 2 ^ 32))) := by
  unfold stored_bg_checksum computed_bg_checksum at hcrc
  unfold check_desc_entry at h
  simp only at h
  rw [and_0xFFFF] at h
  split_ifs at h with h1 h2 h3 h4 h5
  · exact absurd h2.2 (by rcases hcrc with hc | hc; exact absurd hc h2.1; exact not_not.mpr hc)
  · exact ⟨GD_block_bitmap, Or.inl rfl, h3⟩
  · exact ⟨GD_inode_bitmap, Or.inr (Or.inl rfl), h4⟩
  · exact ⟨GD_inode_table, Or.inr (Or.inr rfl), h5⟩

/-- The entry loop does not jump to `done` while the group numbers stay within
the group count. -/
theorem check_desc_entries_not_done (data_cksum : List Nat → Nat → Nat) (sbi : luci_sb_info)
    (block : Nat) (bh : bytes) : ∀ k e,
    (∀ e1, e ≤ e1 → e1 < e + k →
      (block * sbi.s_desc_per_block + e1 + 1) % 2 ^ 32 ≤ sbi.s_groups_count) →
    check_desc_entries data_cksum sbi block bh k e ≠ .done := by
  intro k
  induction k with
  | zero => intro e _; simp [check_desc_entries]
  | succ k ih =>
    intro e h
    unfold check_desc_entries
    cases hc : check_desc_entry data_cksum sbi block e bh with
    | next => exact ih (e + 1) (fun e1 h1 h2 => h e1 (by omega) (by omega))
    | done =>
      have := check_desc_entry_done _ _ _ _ _ hc
      have := h e (le_refl _) (by omega)
      omega
    | fail => simp

/-- The entry loop fails when it reaches an entry with a bad checksum. -/
theorem check_desc_entries_bad_crc (data_cksum : List Nat → Nat → Nat) (sbi : luci_sb_info)
    (block : Nat) (bh : bytes) (t : Nat)
    (h0 : stored_bg_checksum bh t ≠ 0)
    (hne : stored_bg_checksum bh t ≠ computed_bg_checksum data_cksum bh t) : ∀ k e,
    e ≤ t → t < e + k →
    (∀ e1, e ≤ e1 → e1 ≤ t →
      (block * sbi.s_desc_per_block + e1 + 1) % 2 ^ 32 ≤ sbi.s_groups_count) →
    check_desc_entries data_cksum sbi block bh k e = .fail := by
  intro k
  induction k with
  | zero => intro e h1 h2; omega
  | succ k ih =>
    intro e h1 h2 hgp
    unfold check_desc_entries
    by_cases het : e = t
    · subst het
      rw [check_desc_entry_bad_crc data_cksum sbi block e bh (hgp e (le_refl _) (le_refl _))
        h0 hne]
    · cases hc : check_desc_entry data_cksum sbi block e bh with
      | next => exact ih (e + 1) (by omega) (by omega) (fun e1 h3 h4 => hgp e1 (by omega) h4)
      | done =>
        have := check_desc_entry_done _ _ _ _ _ hc
        have := hgp e (le_refl _) h1
        omega
      | fail => rfl

/-- The block loop fails when it reaches a descriptor block that holds an
entry with a bad checksum. -/
theorem check_desc_blocks_bad_crc (data_cksum : List Nat → Nat → Nat) (sbi : luci_sb_info)
    (g : Nat) (bh : bytes) (hD : 0 < sbi.s_desc_per_block) (hg : g < sbi.s_groups_count)
    (h32 : sbi.s_groups_count < 2 ^ 32)
    (hbufs : ∀ b, b ≤ g / sbi.s_desc_per_block → (sbi.s_group_desc b).isSome = true)
    (hbh : sbi.s_group_desc (g / sbi.s_desc_per_block) = some bh)
    (h0 : stored_bg_checksum bh (g % sbi.s_desc_per_block) ≠ 0)
    (hne : stored_bg_checksum bh (g % sbi.s_desc_per_block) ≠
      computed_bg_checksum data_cksum bh (g % sbi.s_desc_per_block)) : ∀ k b,
    b ≤ g / sbi.s_desc_per_block → g / sbi.s_desc_per_block < b + k →
    check_desc_blocks data_cksum sbi k b = some (-1) := by
  have hdm := Nat.div_add_mod g sbi.s_desc_per_block
  have hml := Nat.mod_lt g hD
  have hgpok : ∀ b e, b * sbi.s_desc_per_block + e ≤ g →
      (b * sbi.s_desc_per_block + e + 1) % 2 ^ 32 ≤ sbi.s_groups_count := by
    intro b e hle
    rw [Nat.mod_eq_of_lt (by omega)]
    omega
  intro k
  induction k with
  | zero => intro b h1 h2; omega
  | succ k ih =>
    intro b h1 h2
    unfold check_desc_blocks
    by_cases hb : b = g / sbi.s_desc_per_block
    · subst hb
      rw [hbh]
      simp only
      rw [check_desc_entries_bad_crc data_cksum sbi _ bh (g % sbi.s_desc_per_block) h0 hne
        sbi.s_desc_per_block 0 (Nat.zero_le _) (by omega)
        (fun e1 _ h4 => hgpok _ e1 (by rw [Nat.mul_comm]; omega))]
    · have hlt : b < g / sbi.s_desc_per_block := by omega
      have hmul : (b + 1) * sbi.s_desc_per_block ≤ g / sbi.s_desc_per_block * sbi.s_desc_per_block :=
        Nat.mul_le_mul_right _ hlt
      have hle : g / sbi.s_desc_per_block * sbi.s_desc_per_block ≤ g := by
        rw [Nat.mul_comm]; omega
      cases hs : sbi.s_group_desc b with
      | none =>
        have := hbufs b (by omega)
        rw [hs] at this
        exact absurd this (by simp)
      | some bhb =>
        simp only
        have hnd := check_desc_entries_not_done data_cksum sbi b bhb sbi.s_desc_per_block 0
          (fun e1 _ h4 => hgpok b e1 (by
            have : b * sbi.s_desc_per_block + sbi.s_desc_per_block =
                (b + 1) * sbi.s_desc_per_block := by rw [Nat.add_mul, Nat.one_mul]
            omega))
        cases hc : check_desc_entries data_cksum sbi b bhb sbi.s_desc_per_block 0 with
        | next => exact ih (b + 1) (by omega) (by omega)
        | done => exact absurd hc hnd
        | fail => rfl

/-- C21: `luci_check_descriptors` fails (returns -1) whenever the descriptor of
some group `g`, entry `g mod D` of descriptor block `g div D`, has a stored
`bg_checksum` that is not 0 and differs from the low 16 bits of the checksum,
with seed `~0`, of the 32 bytes of the descriptor with `bg_checksum` zeroed
(the descriptor blocks up to that one being in memory); and an entry whose
stored `bg_checksum` is 0 or equal to that value is rejected only when one of
its three block numbers is out of range. -/
theorem luci_check_descriptors_checksum (data_cksum : List Nat → Nat → Nat)
    (sbi : luci_sb_info) :
    (∀ g bh, 0 < sbi.s_desc_per_block → g < sbi.s_groups_count → sbi.s_groups_count < 2 ^ 32 →
      g / sbi.s_desc_per_block < sbi.s_gdb_count →
      (∀ b, b ≤ g / sbi.s_desc_per_block → (sbi.s_group_desc b).isSome = true) →
      sbi.s_group_desc (g / sbi.s_desc_per_block) = some bh →
      stored_bg_checksum bh (g % sbi.s_desc_per_block) ≠ 0 →
      stored_bg_checksum bh (g % sbi.s_desc_per_block) ≠
        computed_bg_checksum data_cksum bh (g % sbi.s_desc_per_block) →
      luci_check_descriptors data_cksum sbi = some (-1)) ∧
    (∀ block entry bh,
      (stored_bg_checksum bh entry = 0 ∨
        stored_bg_checksum bh entry = computed_bg_checksum data_cksum bh entry) →
      check_desc_entry data_cksum sbi block entry bh = .fail →
      ∃ field, (field = GD_block_bitmap ∨ field = GD_inode_bitmap ∨ field = GD_inode_table) ∧
        (get_le32 bh (entry * LUCI_GROUP_DESC_SIZE + field) <
            luci_group_first_block_no sbi.s_lsb
              (((block * sbi.s_desc_per_block + entry + 1) % 2 ^ 32 + 2 ^ 32 - 1) % 2 ^ 32) ∨
         get_le32 bh (entry * LUCI_GROUP_DESC_SIZE + field) >
            check_last_block sbi ((block * sbi.s_desc_per_block + entry + 1) % 2 ^ 32)
              (luci_group_first_block_no sbi.s_lsb
                (((block * sbi.s_desc_per_block + entry + 1) % 2 ^ 32 + 2 ^ 32 - 1) %
                  2 ^ 32)))) := by
  refine ⟨?_, ?_⟩
  · intro g bh hD hg h32 hgdb hbufs hbh h0 hne
    unfold luci_check_descriptors
    exact check_desc_blocks_bad_crc data_cksum sbi g bh hD hg h32 hbufs hbh h0 hne
      sbi.s_gdb_count 0 (Nat.zero_le _) (by omega)
  · intro block entry bh hcrc h
    exact check_desc_entry_good_crc data_cksum sbi block entry bh hcrc h

/-- The theorem `luci_check_descriptors_checksum` at the one-group file system
`sbi_with_crc` with a checksum routine that returns 0: the stored checksum 7 is
rejected, and the stored checksum 0 is accepted. -/
theorem luci_check_descriptors_checksum_witness :
    luci_check_descriptors (fun _ _ => 0) (sbi_with_crc 7) = some (-1) ∧
    luci_check_descriptors (fun _ _ => 0) (sbi_with_crc 0) = some 0 :=
  ⟨(luci_check_descriptors_checksum (fun _ _ => 0) (sbi_with_crc 7)).1 0 _
      (by decide) (by decide) (by decide) (by decide) (by decide) rfl (by decide) (by decide),
   by decide⟩

/-- C22, as the code has it: in `fs_one_group` the inode 12 is valid
(11 ≤ 12 ≤ 32), its inode bitmap (block 4) and its group descriptor can be read
and the descriptor holds a free-inode count of 20; `luci_free_inode` of the
inode, as a regular file and as a directory, returns right after the bitmap
update because of `if (gdesc) return;`, and the descriptor still holds the
free-inode count 20 and the directory count 0. -/
theorem luci_free_inode_skips_descriptor_update :
    fs_one_group.sbi.s_first_ino ≤ inode12.i_ino ∧
    inode12.i_ino ≤ fs_one_group.sbi.s_lsb.s_inodes_count ∧
    (read_inode_bitmap fs_one_group 0).isSome = true ∧
    group_counts fs_one_group 0 = some (20, 0) ∧
    S_ISDIR inode12.i_mode = false ∧
    (luci_free_inode fs_one_group inode12).map (fun st => group_counts st 0) =
      some (some (20, 0)) ∧
    S_ISDIR dir12.i_mode = true ∧
    (luci_free_inode fs_one_group dir12).map (fun st => group_counts st 0) =
      some (some (20, 0)) := by
  decide

/-- C23, as the code has it: on a device whose initial block size is 2048 and
whose super block (at byte 1024) says 4096-byte blocks, the first pass reads
block 0 at offset 1024 (`0 * 2048 + 1024 = 1024`), finds the magic number and
restarts with the block size 4096 and the `block_no` it has just overwritten
with 0; the second pass computes `block_of = (0 * 1024) % 4096 = 0` and
`block_no = 0`, looks for the super block at device byte 0, and the mount
fails with `-EINVAL` on the magic number. -/
theorem luci_read_superblock_restart_loses_offset :
    restart_block_no 2048 1 * 2048 + restart_block_of 2048 1 = 1024 ∧
    get_le16 dev_4k_fs (1024 + SB_magic) = LUCI_SUPER_MAGIC ∧
    shl_int BLOCK_SIZE (get_le32 dev_4k_fs (1024 + SB_log_block_size)) = 4096 ∧
    restart_block_no 4096 (restart_block_no 2048 1) * 4096 +
      restart_block_of 4096 (restart_block_no 2048 1) = 0 ∧
    mount_location (luci_read_superblock env_2k dev_4k_fs 3) =
      some (-EINVAL, 4096, 0, 0, 0) := by
  decide

/-- C24, as the code has it: with clusters of four pages and the pages 4 to 7
dirty, a scan entered with `*index = 5` (as `luci_write_extent` does for page
5) looks up the tags from the aligned index 4 but grabs the pages
`*index + i`: the vector it returns holds the pages 5, 6, 7 and 8, not
4, 5, 6 and 7; page 8 belongs to cluster 2 and the first page is not the
first page of cluster 1.  Entered with `*index = 4` it returns the pages 4 to
7. -/
theorem luci_scan_pgtree_dirty_pages_unaligned_vector :
    ALIGN_DOWN 5 cfg4k.EXTENT_NRPAGE = 4 ∧
    scan_page_indices (luci_scan_pgtree_dirty_pages cfg4k cluster1_dirty false 5) =
      some [5, 6, 7, 8] ∧
    cfg4k.luci_extent_no 5 = 1 ∧ cfg4k.luci_extent_no 8 = 2 ∧
    scan_page_indices (luci_scan_pgtree_dirty_pages cfg4k cluster1_dirty false 4) =
      some [4, 5, 6, 7] := by
  decide

/-- C25, as the code has it.  Truncating `file4` to 3072 bytes frees block 21
only: the indirect block 100 keeps its entry 0 and is not freed, yet
`luci_free_blocks` zeroes the root pointer `i_data[2]` to it.  Truncating
`holed4` to 3072 bytes frees block 21, after which block 100 has no non-zero
entry, and the walk stops on the exhausted count before it has visited entry 0:
block 100 is not freed (and the root pointer to it is zeroed). -/
theorem luci_free_branch_keeps_block_loses_root :
    (luci_truncate env1k file4 3072).map
        (fun r => (r.1, r.2.free_block_calls, has_entry r.2 100 64, (r.2.i_data 2).blockno)) =
      some (0, [21], true, 0) ∧
    (luci_truncate env1k holed4 3072).map
        (fun r => (r.1, r.2.free_block_calls, has_entry r.2 100 64, (r.2.i_data 2).blockno)) =
      some (0, [21], false, 0) := by
  decide

/-- C26, as the code has it: in `sbi_two_groups` (32 descriptors per block)
the record of group 1 is the 32 bytes at offset `(1 mod 32) * 32 = 32` of
descriptor block 0, which `luci_check_descriptors` accepts and where
`bg_block_bitmap` is 19; `luci_get_group_desc` returns `b_data + 1`, the byte
offset 1 of that block, and `bg_block_bitmap` read through that pointer is
`0x04000000`, bytes of the record of group 0. -/
theorem luci_get_group_desc_byte_offset :
    luci_check_descriptors (fun _ _ => 0) sbi_two_groups = some 0 ∧
    (sbi_two_groups.s_group_desc (1 / 32)).map
        (fun bh => get_le32 bh (1 % 32 * LUCI_GROUP_DESC_SIZE + GD_block_bitmap)) = some 19 ∧
    luci_get_group_desc sbi_two_groups 1 = some ⟨0, 1⟩ ∧
    (luci_get_group_desc sbi_two_groups 1).map
        (fun g => gdesc_get32 sbi_two_groups g GD_block_bitmap) = some 0x04000000 := by
  decide

/-- The loop of `ilog2` adds the position of the highest set bit, given enough
steps. -/
theorem ilog2_loop_eq : ∀ fuel bytes p, bytes ≤ fuel →
    ilog2_loop fuel bytes p = p + Nat.log2 bytes := by
  intro fuel
  induction fuel with
  | zero =>
    intro bytes p h
    have : bytes = 0 := by omega
    subst this
    unfold ilog2_loop
    rw [Nat.log2]
    simp
  | succ fuel ih =>
    intro bytes p h
    unfold ilog2_loop
    by_cases hb : bytes > 1
    · rw [if_pos hb, ih _ _ (by rw [Nat.shiftRight_eq_div_pow]; omega)]
      conv_rhs => rw [Nat.log2]
      rw [if_pos (by omega), Nat.shiftRight_eq_div_pow]
      simp only [pow_one]
      omega
    · rw [if_neg hb]
      conv_rhs => rw [Nat.log2]
      rw [if_neg (by omega)]
      rfl

/-- The function `ilog2` of luci.h computes `⌊log2 n⌋` (and 0 for 0). -/
theorem ilog2_eq_log2 (n : Nat) : ilog2 n = Nat.log2 n := by
  unfold ilog2
  rw [ilog2_loop_eq n n 0 (le_refl _), Nat.zero_add]

/-- The function `ilog2` on a power of two. -/
theorem ilog2_two_pow (m : Nat) : ilog2 (2 ^ m) = m := by
  rw [ilog2_eq_log2, Nat.log2_eq_log_two, Nat.log_pow (by norm_num)]

/-- The block count `extent_write_blocks` hands on is the one it computes. -/
theorem extent_write_blocks_nr (cfg : extent_cfg) (w : extent_write_work) (c c1 : Bool)
    (total_out : Nat) (crc : Nat → Nat) (e n : Nat) (bps : List blkptr) (d : Int) (t s : Nat)
    (h : extent_write_blocks cfg w c total_out crc e = .submitted c1 n bps d t s) :
    n = (total_out + cfg.block_size - 1) >>> ilog2 cfg.block_size := by
  unfold extent_write_blocks at h
  simp only at h
  split_ifs at h
  injection h with _ h2
  exact h2.symm

/-- C28, as the code has it: in `fs_one_group` (inode bitmap in block 4, bits 0
to 11 set) `luci_new_inode` sets bit 12 of group 0 and hands out the inode
number 12, the bit index itself; 12 passes the range check of `luci_free_inode`
(11 ≤ 12 ≤ 32), which then clears bit `(12 - 1) / 32 = 0`: afterwards bit 12
is still set and bit 0, the bit of another inode, is clear, so the bitmap is
not what it was before the allocation. -/
theorem luci_new_inode_free_inode_no_round_trip :
    (fs_one_group.bitmaps 4).map (fun bm => (bm 0, bm 12)) = some (true, false) ∧
    ((luci_new_inode fs_one_group ⟨true⟩ 0x8000).2.bitmaps 4).map (fun bm => (bm 0, bm 12)) =
      some (true, true) ∧
    (new_then_free_inode fs_one_group ⟨true⟩ 0x8000).map
        (fun r => (r.1.i_ino, r.1.i_block_group,
          (r.2.bitmaps 4).map (fun bm => (bm 0, bm 12)))) =
      some (12, 0, some (false, true)) ∧
    fs_one_group.sbi.s_first_ino ≤ 12 ∧ 12 ≤ fs_one_group.sbi.s_lsb.s_inodes_count := by
  decide

set_option maxRecDepth 1000000 in
/-- C29, as the code has it: the image `dev_summed_4k` carries the non-zero
checksum 651, which validates, and mounts (return value 0); the mount raises
`s_mnt_count` from 0 to 1 and syncs the buffer without a call of
`luci_super_update_csum`, so the image keeps the checksum 651 while its bytes
now sum to 652, and a mount of that image fails with `-EBADE`. -/
theorem luci_read_superblock_leaves_stale_checksum :
    get_le32 dev_summed_4k (1024 + SB_checksum) = 651 ∧
    mount_location (luci_read_superblock env_sum dev_summed_4k 3) =
      some (0, 4096, 0, 1024, 1024) ∧
    mount_location (mount_after_crash env_sum 3 (luci_read_superblock env_sum dev_summed_4k 3)) =
      some (-EBADE, 4096, 0, 1024, 1024) := by
  decide

/-- A step that keeps the count and the size keeps `sized`. -/
theorem sized_of_eq (env : trunc_env) (w0 w1 : walk) (h : sized env w0)
    (hd : w1.delta = w0.delta) (hs : w1.st.i_size = w0.st.i_size) : sized env w1 := by
  unfold sized at *
  rw [hd, hs]
  exact h

/-- With `luci_chunk_size = B`, a call `luci_dec_size(inode, 1)` made while the
count is positive and covered by the size passes every `BUG_ON`, and the count
lowered by one is covered by the new size. -/
theorem luci_dec_size_sized (env : trunc_env) (hc : env.chunk_size = env.s_blocksize)
    (w : walk) (s0 : trunc_state) (h : sized env w) (hpos : 0 < w.delta)
    (hs0 : s0.i_size = w.st.i_size) :
    ∃ s1, luci_dec_size env s0 1 = some s1 ∧
      ∀ ext, sized env { st := s1, delta := w.delta - 1, extents := ext } := by
  obtain ⟨h0, hlt⟩ := h
  obtain ⟨m, hm⟩ : ∃ m : Nat, w.delta = (m : Int) + 1 := ⟨(w.delta - 1).toNat, by omega⟩
  have hn : w.delta.toNat = m + 1 := by omega
  have hn1 : (w.delta - 1).toNat = m := by omega
  rw [hn, Nat.add_mul, Nat.one_mul] at hlt
  unfold luci_dec_size
  simp only [Nat.one_mul, hc]
  have hne : s0.i_size ≠ 0 := by omega
  by_cases hge : s0.i_size ≥ env.s_blocksize
  · refine ⟨{ s0 with i_size := s0.i_size - env.s_blocksize,
                        dec_size_calls := s0.dec_size_calls + 1 }, by simp [hne, hge], ?_⟩
    intro ext
    refine ⟨by simp only; omega, ?_⟩
    simp only
    rw [hn1]
    omega
  · refine ⟨{ s0 with i_size := 0, dec_size_calls := s0.dec_size_calls + 1 },
      by simp [hne, hge], ?_⟩
    intro ext
    refine ⟨by simp only; omega, ?_⟩
    simp only
    rw [hn1]
    omega

/-- With `luci_chunk_size = B` and a block that holds a block pointer,
`luci_free_branch` entered with a positive covered count returns, at every
depth, and leaves a covered count. -/
theorem luci_free_branch_total (env : trunc_env) (hc : env.chunk_size = env.s_blocksize)
    (hB : LUCI_BLKPTR_SIZE ≤ env.s_blocksize) : ∀ depth bp w,
    sized env w → 0 < w.delta →
    ∃ err w1, luci_free_branch env depth bp w = some (err, w1) ∧ sized env w1 := by
  intro depth
  induction depth with
  | zero =>
    intro bp w hw hpos
    unfold luci_free_branch
    simp only
    split
    · obtain ⟨s1, hs1, hz⟩ := luci_dec_size_sized env hc w w.st hw hpos rfl
      rw [hs1]
      exact ⟨0, _, rfl, hz _⟩
    · split
      · exact ⟨_, _, rfl, sized_of_eq env w _ hw rfl rfl⟩
      · obtain ⟨s1, hs1, hz⟩ := luci_dec_size_sized env hc w
          (luci_free_block env w.st (bp.load w.st).blockno).2 hw hpos rfl
        rw [hs1]
        exact ⟨0, _, rfl, hz _⟩
  | succ depth ih =>
    intro bp w hw hpos
    have hloop : ∀ (block k : Nat) (nr : Int) (w0 : walk), sized env w0 → (k : Int) ≤ nr →
        ∃ e, free_branch_loop (luci_free_branch env depth) block k nr w0 = some e ∧
          sized env (loop_exit_walk e) := by
      intro block k
      induction k with
      | zero =>
        intro nr w0 h0 hk
        unfold free_branch_loop
        exact ⟨_, rfl, h0⟩
      | succ k ihk =>
        intro nr w0 h0 hk
        unfold free_branch_loop
        split
        · exact ⟨_, rfl, h0⟩
        rename_i hne
        have hnr : ¬ nr - 1 < 0 := by push_cast at hk; omega
        rw [if_neg hnr]
        split
        · exact ihk _ _ h0 (by push_cast at hk; omega)
        have hp : 0 < w0.delta := by have := h0.1; omega
        obtain ⟨er1, wc, hchild, hwc⟩ := ih (.buf block k) w0 h0 hp
        rw [hchild]
        simp only
        split
        · exact ⟨_, rfl, hwc⟩
        · exact ihk _ _ (sized_of_eq env wc _ hwc rfl rfl) (by push_cast at hk; omega)
    have htail : ∀ nr (w0 : walk), sized env w0 →
        ∃ err w1, free_branch_tail env bp nr w0 = some (err, w1) ∧ sized env w1 := by
      intro nr w0 h0
      unfold free_branch_tail
      split
      · exact ⟨_, _, rfl, h0⟩
      · exact ⟨_, _, rfl, sized_of_eq env w0 _ h0 rfl rfl⟩
    unfold luci_free_branch
    simp only
    split
    · exact ⟨_, _, rfl, hw⟩
    · rw [if_neg (by omega : ¬ env.s_blocksize < LUCI_BLKPTR_SIZE)]
      obtain ⟨e, he, hse⟩ := hloop (bp.load w.st).blockno (env.s_blocksize / LUCI_BLKPTR_SIZE)
        (LUCI_ADDR_PER_BLOCK env) w hw (le_refl _)
      rw [he]
      cases e with
      | out err wf => exact ⟨_, _, rfl, hse⟩
      | fell nr wf =>
        simp only
        split
        · split
          · exact ⟨_, _, rfl, sized_of_eq env wf _ hse rfl rfl⟩
          · exact htail _ _ (sized_of_eq env wf _ hse rfl rfl)
        · exact htail _ _ hse

/-- The loop over the direct roots returns and leaves a covered count. -/
theorem free_direct_loop_total (env : trunc_env) (hc : env.chunk_size = env.s_blocksize) :
    ∀ k (w : walk), sized env w →
    ∃ r w1, free_direct_loop env k w = some (r, w1) ∧ sized env w1 := by
  intro k
  induction k with
  | zero =>
    intro w hw
    unfold free_direct_loop
    exact ⟨_, _, rfl, hw⟩
  | succ k ih =>
    intro w hw
    unfold free_direct_loop
    simp only
    split
    · exact ⟨_, _, rfl, hw⟩
    rename_i hne
    split
    · exact ih _ hw
    split
    · exact ⟨_, _, rfl, sized_of_eq env w _ hw rfl rfl⟩
    have hp : 0 < w.delta := by have := hw.1; omega
    obtain ⟨s1, hs1, hz⟩ := luci_dec_size_sized env hc w
      (luci_free_block env w.st (w.st.i_data k).blockno).2 hw hp rfl
    rw [hs1]
    exact ih _ (sized_of_eq env _ _ (hz w.extents) rfl rfl)

/-- The loop over the indirect roots returns and leaves a covered count. -/
theorem free_roots_loop_total (env : trunc_env) (hc : env.chunk_size = env.s_blocksize)
    (hB : LUCI_BLKPTR_SIZE ≤ env.s_blocksize) : ∀ l (w : walk), sized env w →
    ∃ r w1, free_roots_loop env l w = some (r, w1) ∧ sized env w1 := by
  intro l
  induction l with
  | zero =>
    intro w hw
    unfold free_roots_loop
    exact ⟨_, _, rfl, hw⟩
  | succ l ih =>
    intro w hw
    unfold free_roots_loop
    simp only
    split
    · exact ⟨_, _, rfl, hw⟩
    rename_i hne
    split
    · exact ih _ hw
    have hp : 0 < w.delta := by have := hw.1; omega
    obtain ⟨ret, wb, hb, hwb⟩ := luci_free_branch_total env hc hB (l + 1)
      (.stack (w.st.i_data (LUCI_IND_BLOCK + l))) { w with extents := [] }
      (sized_of_eq env w _ hw rfl rfl) hp
    rw [hb]
    simp only
    split
    · exact ⟨_, _, rfl, hwb⟩
    · exact ih _ (sized_of_eq env wb _ hwb rfl rfl)

/-- With `luci_chunk_size = B`, `luci_free_blocks` entered with a covered count
returns: no `BUG_ON` fires. -/
theorem luci_free_blocks_total (env : trunc_env) (hc : env.chunk_size = env.s_blocksize)
    (hB : LUCI_BLKPTR_SIZE ≤ env.s_blocksize) (s : trunc_state) (delta : Int)
    (hs : sized env { st := s, delta := delta, extents := [] }) :
    ∃ ret s1, luci_free_blocks env s delta = some (ret, s1) := by
  unfold luci_free_blocks
  obtain ⟨r, w1, hr, hw1⟩ := free_roots_loop_total env hc hB 3 _ hs
  rw [hr]
  cases r with
  | some ret => exact ⟨_, _, rfl⟩
  | none =>
    simp only
    unfold luci_free_direct
    obtain ⟨r2, w2, hr2, _⟩ := free_direct_loop_total env hc LUCI_NDIR_BLOCKS w1 hw1
    rw [hr2]
    cases r2 with
    | some ret =>
      simp only
      split <;> exact ⟨_, _, rfl⟩
    | none =>
      simp only
      split <;> exact ⟨_, _, rfl⟩

/-- C30: with `luci_chunk_size` equal to the block size `B` (a block holding at
least one block pointer), no assertion fires during a truncate.  A call
`luci_dec_size(inode, 1)`, the only form `luci_free_branch` and
`luci_free_direct` use, fails exactly when the inode size is 0; and for every
inode, `new_size` and block tree `luci_truncate` returns, so every such call
saw a size above 0 and `BUG_ON(nr_blkptr < 0)` did not fire either.  The size
left is the old one lowered by `B` once per freed leaf, the number `k` of
freed leaves is at most `delta = ⌈size/B⌉ - ⌈new_size/B⌉`, and the last of them
still saw a size above 0: `(k - 1) * B < size`. -/
theorem luci_truncate_dec_size_never_fires (env : trunc_env) (s : trunc_state) (size : Nat)
    (hc : env.chunk_size = env.s_blocksize) (hB : LUCI_BLKPTR_SIZE ≤ env.s_blocksize) :
    (∀ st : trunc_state, luci_dec_size env st 1 = none ↔ st.i_size = 0) ∧
    ∃ ret s1, luci_truncate env s size = some (ret, s1) ∧
      ∃ k : Nat,
        k ≤ (s.i_size + env.s_blocksize - 1) / env.s_blocksize -
            (size + env.s_blocksize - 1) / env.s_blocksize ∧
        s1.i_size = s.i_size - k * env.s_blocksize ∧
        (k = 0 ∨ (k - 1) * env.s_blocksize < s.i_size) := by
  have hBpos : 0 < env.s_blocksize := lt_of_lt_of_le (by decide) hB
  refine ⟨?_, ?_⟩
  · intro st
    unfold luci_dec_size
    simp only [Nat.one_mul]
    constructor
    · intro h
      by_contra hne
      simp [hne] at h
      split_ifs at h
    · intro h
      simp [h]
  · have hceil : (s.i_size + env.s_blocksize - 1) / env.s_blocksize * env.s_blocksize <
        s.i_size + env.s_blocksize := by
      have := Nat.div_mul_le_self (s.i_size + env.s_blocksize - 1) env.s_blocksize
      omega
    have htr : luci_truncate env s size =
        if (((size + env.s_blocksize - 1) / env.s_blocksize : Nat) : Int) -
            (((s.i_size + env.s_blocksize - 1) / env.s_blocksize : Nat) : Int) < 0 then
          luci_free_blocks env s
            (-((((size + env.s_blocksize - 1) / env.s_blocksize : Nat) : Int) -
              (((s.i_size + env.s_blocksize - 1) / env.s_blocksize : Nat) : Int)))
        else some (0, s) := by
      unfold luci_truncate
      simp only
      rw [if_neg (by omega)]
    rw [htr]
    generalize (s.i_size + env.s_blocksize - 1) / env.s_blocksize = b at hceil ⊢
    generalize (size + env.s_blocksize - 1) / env.s_blocksize = a
    by_cases hneg : (a : Int) - (b : Int) < 0
    · rw [if_pos hneg]
      have hsz : sized env ⟨s, -((a : Int) - (b : Int)), []⟩ := by
        refine ⟨by simp only; omega, ?_⟩
        simp only
        refine lt_of_le_of_lt (Nat.mul_le_mul_right _ ?_) hceil
        omega
      obtain ⟨ret, s1, h⟩ := luci_free_blocks_total env hc hB s _ hsz
      obtain ⟨k, hk, hs⟩ := luci_free_blocks_size env s s1 _ ret (by omega) h
      rw [hc] at hs
      have hk2 : k ≤ b - a := by omega
      refine ⟨ret, s1, h, k, hk2, hs, ?_⟩
      rcases Nat.eq_zero_or_pos k with h0 | hp
      · exact Or.inl h0
      · right
        have hle : k * env.s_blocksize ≤ b * env.s_blocksize :=
          Nat.mul_le_mul_right _ (by omega)
        have hsub : (k - 1) * env.s_blocksize = k * env.s_blocksize - env.s_blocksize := by
          rw [Nat.sub_mul, Nat.one_mul]
        have hge : env.s_blocksize ≤ k * env.s_blocksize := Nat.le_mul_of_pos_left _ hp
        omega
    · rw [if_neg hneg]
      exact ⟨0, s, rfl, 0, Nat.zero_le _, by simp, Or.inl rfl⟩

/-- The theorem `luci_truncate_dec_size_never_fires` at the four-block file
`file4` truncated to 1024 bytes with 1024-byte blocks and chunks. -/
theorem luci_truncate_dec_size_never_fires_witness :
    env1k.chunk_size = env1k.s_blocksize ∧ LUCI_BLKPTR_SIZE ≤ env1k.s_blocksize ∧
    (∀ st : trunc_state, luci_dec_size env1k st 1 = none ↔ st.i_size = 0) ∧
    ∃ ret s1, luci_truncate env1k file4 1024 = some (ret, s1) ∧
      ∃ k : Nat,
        k ≤ (file4.i_size + env1k.s_blocksize - 1) / env1k.s_blocksize -
            (1024 + env1k.s_blocksize - 1) / env1k.s_blocksize ∧
        s1.i_size = file4.i_size - k * env1k.s_blocksize ∧
        (k = 0 ∨ (k - 1) * env1k.s_blocksize < file4.i_size) :=
  ⟨by decide, by decide, luci_truncate_dec_size_never_fires env1k file4 1024 (by decide) (by decide)⟩

set_option maxRecDepth 1000000 in
/-- C10, as the code has it: on a device with 2048-byte blocks the image
`dev_two_supers` (4096-byte file system blocks) is mounted from the super
block at byte 0, because the restart loses the offset 1024; the stored
checksum 651 validates there and the mount returns 0.  `luci_free_super` then
writes the state, the times and the free count to that super block, and
`luci_super_update_csum` checksums the bytes 1024 to 2047 and stores the
result in the super block at byte 1024: the checksum at byte 1020 is still
651.  The next mount verifies the super block at byte 0 and returns `-EBADE`.
With a device block size of 1024 the same image is mounted from byte 1024,
the place `luci_super_update_csum` checksums. -/
theorem luci_free_super_checksum_rejected_after_restart :
    mount_location (luci_read_superblock env_sum_2k dev_two_supers 3) =
      some (0, 4096, 0, 0, 0) ∧
    unmount_checksums env_sum_2k (luci_read_superblock env_sum_2k dev_two_supers 3) =
      some (651, 651) ∧
    mount_location
        (remount_after_unmount env_sum_2k 3 (luci_read_superblock env_sum_2k dev_two_supers 3)) =
      some (-EBADE, 4096, 0, 0, 0) ∧
    mount_location (luci_read_superblock env_sum dev_two_supers 3) =
      some (0, 4096, 0, 1024, 1024) := by
  refine ⟨by decide, by decide, by decide, by decide⟩

/-- C18 as stated fails: the directory `dir_cut` has one readable page, its
records along the `rec_len` chain start at the offsets 0, 12, 24 and 36 and
all have `rec_len = 12`, and the first record that matches the name `"c"` is
the one at offset 36 (inode 13); `luci_find_entry` returns `NULL` for `"c"`,
because its loop stops at `limit = last_byte - LUCI_DIR_REC_LEN(1) = 28`. -/
theorem luci_find_entry_record_past_limit_counterexample :
    luci_last_byte 12 dir_cut 0 = 40 ∧
    (dir_records 12 dir_cut).map (fun r => (r.off, r.inode, r.rec_len, r.name)) =
      [(0, 11, 12, [97]), (12, 0, 12, [98, 98]), (24, 12, 12, [97]), (36, 13, 12, [99])] ∧
    (first_match 12 dir_cut [99]).map (fun r => (r.page, r.off, r.inode)) = some (0, 36, 13) ∧
    luci_find_entry 12 dir_cut [99] = .null := by
  refine ⟨by decide, by decide, by decide, by decide⟩

/-- C27: for a block size `B = 1024 * 2^k` that fits in 32 bits, the loop of
`ilog2` returns `10 + k`, and the block count the write engine computes for an
output of `total_out` bytes, `(total_out + B - 1) >> ilog2(B)`, is
`⌈total_out / B⌉`: the least number of blocks of `B` bytes that hold
`total_out` bytes.  The engine does compute it: when `luci_new_block` and
`luci_construct_bio` succeed, `__luci_compress_extent_and_write` submits the
cluster from the computation of `nr_blocks` on with that count, and on its
compressed path (a cluster beyond the direct ones that compresses) the whole
function submits with the count `⌈total_out / B⌉` for the `total_out` that
`compress_pages` left.  In general `ilog2(n)` is `⌊log2 n⌋` for `n ≥ 1`:
`2^ilog2(n) ≤ n < 2^(ilog2(n) + 1)`. -/
theorem extent_nr_blocks_is_ceiling (k total_out : Nat) (hB : 1024 * 2 ^ k < 2 ^ 32) :
    ilog2 (1024 * 2 ^ k) = 10 + k ∧
    total_out ≤ ((total_out + 1024 * 2 ^ k - 1) >>> ilog2 (1024 * 2 ^ k)) * (1024 * 2 ^ k) ∧
    (∀ m, total_out ≤ m * (1024 * 2 ^ k) →
      (total_out + 1024 * 2 ^ k - 1) >>> ilog2 (1024 * 2 ^ k) ≤ m) ∧
    (∀ (cfg : extent_cfg) (w : extent_write_work) (c : Bool) (crc : Nat → Nat) (e : Nat),
      cfg.block_size = 1024 * 2 ^ k → 0 ≤ w.new_block_ret → w.bio_err = false →
      ∃ n, extent_write_blocks cfg w c total_out crc e =
          .submitted c n (fill_bp_array cfg w c total_out crc e) w.bmap_delta total_out
            (w.start_compr_block * cfg.block_size) ∧
        total_out ≤ n * (1024 * 2 ^ k) ∧ ∀ m, total_out ≤ m * (1024 * 2 ^ k) → n ≤ m) ∧
    (∀ (cfg : extent_cfg) (w : extent_write_work),
      cfg.block_size = 1024 * 2 ^ k → w.total_out = total_out →
      w.has_buffers = false → w.pagevec_count = cfg.EXTENT_NRPAGE →
      (cfg.LUCI_COMPRESSION_HEURISTICS && !w.can_compress) = false →
      LUCI_NDIR_BLOCKS ≤ cfg.luci_extent_no w.page_index % 2 ^ 32 →
      w.ws_err = false → w.compress_err = 0 → w.nr_pages_out ≠ 0 →
      0 ≤ w.new_block_ret → w.bio_err = false →
      ∃ n, __luci_compress_extent_and_write cfg w =
          .submitted true n (fill_bp_array cfg w true total_out (fun _ => 0) w.pages_cksum)
            w.bmap_delta total_out (w.start_compr_block * cfg.block_size) ∧
        total_out ≤ n * (1024 * 2 ^ k) ∧ ∀ m, total_out ≤ m * (1024 * 2 ^ k) → n ≤ m) ∧
    (∀ n, 1 ≤ n → 2 ^ ilog2 n ≤ n ∧ n < 2 ^ (ilog2 n + 1)) := by
  have hpow : 1024 * 2 ^ k = 2 ^ (10 + k) := by rw [Nat.pow_add]
  have hlog : ilog2 (1024 * 2 ^ k) = 10 + k := by rw [hpow, ilog2_two_pow]
  have hBpos : 0 < 1024 * 2 ^ k := Nat.mul_pos (by norm_num) (Nat.two_pow_pos k)
  have hshift : (total_out + 1024 * 2 ^ k - 1) >>> ilog2 (1024 * 2 ^ k) =
      (total_out + 1024 * 2 ^ k - 1) / (1024 * 2 ^ k) := by
    rw [hlog, Nat.shiftRight_eq_div_pow, ← hpow]
  have hceil1 : total_out ≤
      (total_out + 1024 * 2 ^ k - 1) / (1024 * 2 ^ k) * (1024 * 2 ^ k) := by
    have hdm := Nat.div_add_mod (total_out + 1024 * 2 ^ k - 1) (1024 * 2 ^ k)
    have hml := Nat.mod_lt (total_out + 1024 * 2 ^ k - 1) hBpos
    rw [Nat.mul_comm] at hdm
    omega
  have hceil2 : ∀ m, total_out ≤ m * (1024 * 2 ^ k) →
      (total_out + 1024 * 2 ^ k - 1) / (1024 * 2 ^ k) ≤ m := by
    intro m hm
    have : (total_out + 1024 * 2 ^ k - 1) / (1024 * 2 ^ k) < m + 1 := by
      rw [Nat.div_lt_iff_lt_mul hBpos, Nat.add_mul, Nat.one_mul]
      omega
    omega
  have hblocks : ∀ (cfg : extent_cfg) (w : extent_write_work) (c : Bool) (crc : Nat → Nat)
      (e : Nat), cfg.block_size = 1024 * 2 ^ k → 0 ≤ w.new_block_ret → w.bio_err = false →
      ∃ n, extent_write_blocks cfg w c total_out crc e =
          .submitted c n (fill_bp_array cfg w c total_out crc e) w.bmap_delta total_out
            (w.start_compr_block * cfg.block_size) ∧
        total_out ≤ n * (1024 * 2 ^ k) ∧ ∀ m, total_out ≤ m * (1024 * 2 ^ k) → n ≤ m := by
    intro cfg w c crc e hbs hnb hbio
    refine ⟨(total_out + 1024 * 2 ^ k - 1) / (1024 * 2 ^ k), ?_, hceil1, hceil2⟩
    unfold extent_write_blocks
    simp only [hbs, hshift, hbio, not_lt.mpr hnb, if_false, Bool.false_eq_true]
  refine ⟨hlog, ?_, ?_, hblocks, ?_, ?_⟩
  · rw [hshift]; exact hceil1
  · intro m hm; rw [hshift]; exact hceil2 m hm
  · intro cfg w hbs hto hbuf hcnt hheur hext hws hcomp hnr hnb hbio
    obtain ⟨n, hn, h1, h2⟩ := hblocks cfg w true (fun _ => 0) w.pages_cksum hbs hnb hbio
    refine ⟨n, ?_, h1, h2⟩
    rw [← hn]
    unfold __luci_compress_extent_and_write
    simp only [hbuf, hcnt, hheur, not_lt.mpr hext, hws, hcomp, hnr, hto, if_false, if_true,
      Bool.false_eq_true, ne_eq, not_true_eq_false]
  · intro n hn
    rw [ilog2_eq_log2]
    exact ⟨Nat.log2_self_le (by omega), Nat.lt_log2_self⟩

/-- The theorem `extent_nr_blocks_is_ceiling` at 4096-byte blocks (`k = 2`)
and the cluster of page 8 in `cfg4k`, which compresses to 3000 bytes:
`ilog2(4096) = 12` and the engine submits the cluster with one block. -/
theorem extent_nr_blocks_is_ceiling_witness :
    1024 * 2 ^ 2 < 2 ^ 32 ∧ ilog2 4096 = 12 ∧ (3000 + 4096 - 1) >>> ilog2 4096 = 1 ∧
    __luci_compress_extent_and_write cfg4k (work_at 8) =
      .submitted true 1 (fill_bp_array cfg4k (work_at 8) true 3000 (fun _ => 0) 7) 3000 3000
        (500 * 4096) ∧
    ∃ n, __luci_compress_extent_and_write cfg4k (work_at 8) =
        .submitted true n
          (fill_bp_array cfg4k (work_at 8) true 3000 (fun _ => 0) (work_at 8).pages_cksum)
          (work_at 8).bmap_delta 3000 ((work_at 8).start_compr_block * cfg4k.block_size) ∧
      3000 ≤ n * (1024 * 2 ^ 2) ∧ ∀ m, 3000 ≤ m * (1024 * 2 ^ 2) → n ≤ m :=
  ⟨by decide, (extent_nr_blocks_is_ceiling 2 3000 (by decide)).1, by decide, by decide,
    (extent_nr_blocks_is_ceiling 2 3000 (by decide)).2.2.2.2.1 cfg4k (work_at 8)
      (by decide) (by decide) (by decide) (by decide) (by decide) (by decide) (by decide)
      (by decide) (by decide) (by decide) (by decide)⟩

end Luci
